import Mathlib

/-!
PS2Recomp runtime: the cooperative interrupt core

A shallow embedding of `ps2xRuntime/src/lib/syscalls/ps2_syscalls_interrupt.inl`.

* The file-level statics (`g_intcHandlers`, `g_enabled_intc_mask`, `g_vblank_pending`, ...)
  and the guest memory `rdram` are gathered into one record `Sys`; every C++ function
  becomes a function on `Sys`.
* `uint32_t` / `uint64_t` values are natural numbers, `int` values are integers; wrap-around
  is written out where the C++ arithmetic can overflow.
* A recompiled guest function is an arbitrary function on `Sys` (it may call any syscall),
  together with the way it leaves: by returning, by `ThreadExitException`, or by another
  `std::exception`.
* The dispatch functions also return the list of observable effects they performed, in order
  (`Event`). Guest functions cannot touch that list.
* The mutexes only delimit critical sections of a single thread here and are not represented;
  `std::cerr` logging and the log rate limiters are left out. The pointer `rdram` is taken to
  be valid; `runtime` may be null (`none`).
-/

namespace PS2Recomp

/-! ## Constants -/

/-- Source: `constexpr uint32_t kIntcVblankStart = 2u;` -/
def kIntcVblankStart : Nat := 2

/-- Source: `constexpr uint32_t kIntcVblankEnd = 3u;` -/
def kIntcVblankEnd : Nat := 3

/-- Source: `constexpr int kMaxCatchupTicks = 4;` -/
def kMaxCatchupTicks : Int := 4

/-- Modelled from the spec: the status constant `KE_OK` is declared elsewhere in the repository;
the spec fixes `KE_OK = 0`. -/
def KE_OK : Int := 0

/-! ## Machine integers -/

/-- Two's-complement wrap of an integer into the range of a 32-bit `int`. -/
def wrapS32 (x : Int) : Int := (x + 2 ^ 31) % 2 ^ 32 - 2 ^ 31

/-- The conversion `static_cast<int>(u)` of a `uint32_t`. -/
def toS32 (u : Nat) : Int := if u < 2 ^ 31 then (u : Int) else (u : Int) - 2 ^ 32

/-- The conversion of an `int` to `uint32_t`. -/
def toU32 (x : Int) : Nat := (x % 2 ^ 32).toNat

/-! ## Data model -/

/-- Source: `struct VSyncFlagRegistration { uint32_t flagAddr = 0; uint32_t tickAddr = 0; };` -/
structure VSyncFlagRegistration where
  flagAddr : Nat := 0
  tickAddr : Nat := 0
deriving DecidableEq, Repr

/-- Modelled from the spec: `IrqHandlerInfo` is declared elsewhere in the repository; the spec
gives its fields as `{ cause: u32, handler: guest_addr, arg: u32, gp: u32, sp: u32,
enabled: bool }`, and `IrqHandlerInfo info{}` in `AddIntcHandler` value-initialises it. -/
structure IrqHandlerInfo where
  cause : Nat := 0
  handler : Nat := 0
  arg : Nat := 0
  gp : Nat := 0
  sp : Nat := 0
  enabled : Bool := true
deriving DecidableEq, Repr

/-- Modelled from the spec: `R5900Context` is declared elsewhere in the repository. The spec
describes 32 general-purpose registers and a program counter; `r i` is the whole value of
general-purpose register `i`. `R5900Context irqCtx{}` is the all-zero context. -/
structure R5900Context where
  r : Nat → Nat := fun _ => 0
  pc : Nat := 0

/-- Modelled from the spec: the helper `getRegU32` is declared elsewhere in the repository; it
reads the low 32 bits of a general-purpose register. -/
def getRegU32 (ctx : R5900Context) (n : Nat) : Nat := ctx.r n % 2 ^ 32

/-- Modelled from the spec: the macro `SET_GPR_U32` is declared elsewhere in the repository; it
stores a `uint32_t`, zero-extended, into a general-purpose register. -/
def SET_GPR_U32 (ctx : R5900Context) (n : Nat) (value : Nat) : R5900Context :=
  { ctx with r := fun i => if i = n then value else ctx.r i }

/-- Modelled from the spec: the helper `setReturnS32` is declared elsewhere in the repository;
every syscall writes its signed 32-bit return value into GPR 2 through it. -/
def setReturnS32 (ctx : R5900Context) (value : Int) : R5900Context :=
  SET_GPR_U32 ctx 2 (toU32 value)

/-- Modelled from the spec: `g_intcHandlers` and `g_dmacHandlers` are declared elsewhere in
the repository. The spec describes them as mappings from handler id to `IrqHandlerInfo` that are
iterated in ascending id; the table is the list of its entries in iteration order. -/
abbrev HandlerTable := List (Int × IrqHandlerInfo)

/-- The map assignment `table[id] = info`: replaces the entry of `id` or inserts it at its
place in key order. -/
def HandlerTable.assign : HandlerTable → Int → IrqHandlerInfo → HandlerTable
  | [], id, info => [(id, info)]
  | (k, v) :: rest, id, info =>
    if id < k then (id, info) :: (k, v) :: rest
    else if id = k then (id, info) :: rest
    else (k, v) :: HandlerTable.assign rest id info

/-- The map operation `table.erase(id)`. -/
def HandlerTable.erase (t : HandlerTable) (id : Int) : HandlerTable :=
  t.filter (fun e => decide (e.1 ≠ id))

/-- The update `if (auto it = table.find(id); it != table.end()) it->second.enabled = b;`. -/
def HandlerTable.setEnabled (t : HandlerTable) (id : Int) (b : Bool) : HandlerTable :=
  t.map (fun e => if e.1 = id then (e.1, { e.2 with enabled := b }) else e)

/-- The keys of a table, in iteration order. -/
def HandlerTable.ids (t : HandlerTable) : List Int := t.map Prod.fst

/-- The process-wide state of the interrupt core together with guest memory. -/
structure Sys where
  /-- Guest memory, one byte per host offset. -/
  rdram : Nat → Nat
  g_intcHandlers : HandlerTable
  g_dmacHandlers : HandlerTable
  g_nextIntcHandlerId : Int
  g_nextDmacHandlerId : Int
  g_enabled_intc_mask : Nat
  g_enabled_dmac_mask : Nat
  g_vsync_tick_counter : Nat
  g_vsync_registration : VSyncFlagRegistration
  g_vblank_pending : Int
  g_irq_worker_stop : Bool
  g_irq_worker_running : Bool

/-- The three ways a recompiled guest function can leave, each with the state it leaves
behind. -/
inductive CallResult where
  | returned (s : Sys)
  | threadExit (s : Sys)
  | stdException (s : Sys)

/-- The state a guest function leaves behind. -/
def CallResult.state : CallResult → Sys
  | .returned s => s
  | .threadExit s => s
  | .stdException s => s

/-- Source: `PS2Runtime::RecompiledFunction`, called as `func(rdram, &irqCtx, runtime)`. -/
abbrev RecompiledFunction := R5900Context → Sys → CallResult

/-- Modelled from the spec: `PS2Runtime` is declared elsewhere in the repository; the function
registry offers `hasFunction(addr)` and `lookupFunction(addr)`. -/
structure PS2Runtime where
  hasFunction : Nat → Bool
  lookupFunction : Nat → RecompiledFunction

/-- The parts of the host environment that are declared elsewhere in the repository: the address
translation `getMemPtr` (the host offset of a guest address, `none` for the null pointer) and
the constant `PS2_IRQ_STACK_TOP`. -/
structure Host where
  getMemPtr : Nat → Option Nat
  PS2_IRQ_STACK_TOP : Nat

/-- The observable effects of the dispatch path, in the order they happen. -/
inductive Event where
  /-- The `memcpy` of `writeGuestU32NoThrow` for guest address `addr`. -/
  | writeU32 (addr value : Nat)
  /-- The `memcpy` of `writeGuestU64NoThrow` for guest address `addr`. -/
  | writeU64 (addr value : Nat)
  /-- A call of `dispatchIntcHandlersForCause`. -/
  | dispatchIntc (cause : Nat)
  /-- A call of `dispatchDmacHandlersForCause`. -/
  | dispatchDmac (cause : Nat)
  /-- The call `func(rdram, &irqCtx, runtime)` made for `info`. -/
  | invoke (cause : Nat) (info : IrqHandlerInfo) (irqCtx : R5900Context)

/-! ## Guest memory -/

/-- The effect of `std::memcpy(dst, &value, n)` on a little-endian host. -/
def storeBytes (mem : Nat → Nat) (dst n value : Nat) : Nat → Nat :=
  fun a => if dst ≤ a ∧ a < dst + n then value / 256 ^ (a - dst) % 256 else mem a

/-- The little-endian value of the `n` bytes at host offset `src`. -/
def loadBytes (mem : Nat → Nat) (src : Nat) : Nat → Nat
  | 0 => 0
  | n + 1 => mem src + 256 * loadBytes mem (src + 1) n

/-- Source: `writeGuestU32NoThrow`. -/
def writeGuestU32NoThrow (h : Host) (rdram : Nat → Nat) (addr value : Nat) :
    (Nat → Nat) × List Event :=
  if addr = 0 then (rdram, [])
  else
    match h.getMemPtr addr with
    | none => (rdram, [])
    | some dst => (storeBytes rdram dst 4 value, [Event.writeU32 addr value])

/-- Source: `writeGuestU64NoThrow`. -/
def writeGuestU64NoThrow (h : Host) (rdram : Nat → Nat) (addr value : Nat) :
    (Nat → Nat) × List Event :=
  if addr = 0 then (rdram, [])
  else
    match h.getMemPtr addr with
    | none => (rdram, [])
    | some dst => (storeBytes rdram dst 8 value, [Event.writeU64 addr value])

/-- The guest `u32` at guest address `addr` (0 when unmapped). -/
def readGuestU32 (h : Host) (rdram : Nat → Nat) (addr : Nat) : Nat :=
  match h.getMemPtr addr with
  | none => 0
  | some src => loadBytes rdram src 4

/-- The guest `u64` at guest address `addr` (0 when unmapped). -/
def readGuestU64 (h : Host) (rdram : Nat → Nat) (addr : Nat) : Nat :=
  match h.getMemPtr addr with
  | none => 0
  | some src => loadBytes rdram src 8

/-! ## Dispatch -/

/-- The loop `for (const auto &[id, info] : table)` of the dispatch functions, with the ids
kept: the entries that are enabled, have the cause and a non-zero handler address. -/
def snapshotEntries (table : HandlerTable) (cause : Nat) : HandlerTable :=
  table.filter (fun e => e.2.enabled && decide (e.2.cause = cause) && decide (e.2.handler ≠ 0))

/-- The vector `handlers` built by the dispatch functions. -/
def snapshotHandlers (table : HandlerTable) (cause : Nat) : List IrqHandlerInfo :=
  (snapshotEntries table cause).map Prod.snd

/-- The register context built for one handler invocation. -/
def makeIrqContext (h : Host) (cause : Nat) (info : IrqHandlerInfo) : R5900Context :=
  let irqCtx : R5900Context := {}
  let sp := if info.sp ≠ 0 then info.sp else h.PS2_IRQ_STACK_TOP
  let irqCtx := SET_GPR_U32 irqCtx 28 info.gp
  let irqCtx := SET_GPR_U32 irqCtx 29 sp
  let irqCtx := SET_GPR_U32 irqCtx 31 0
  let irqCtx := SET_GPR_U32 irqCtx 4 cause
  let irqCtx := SET_GPR_U32 irqCtx 5 info.arg
  let irqCtx := SET_GPR_U32 irqCtx 6 0
  let irqCtx := SET_GPR_U32 irqCtx 7 0
  { irqCtx with pc := info.handler }

/-- The loop `for (const IrqHandlerInfo &info : handlers)` of the dispatch functions: a handler
without a registered function is skipped, the others are called on a fresh context; whichever
way the call leaves, the loop goes on with the state it left. -/
def invokeHandlers (h : Host) (rt : PS2Runtime) (cause : Nat) :
    List IrqHandlerInfo → Sys → Sys × List Event
  | [], s => (s, [])
  | info :: rest, s =>
    if rt.hasFunction info.handler then
      let irqCtx := makeIrqContext h cause info
      let func := rt.lookupFunction info.handler
      let s1 := (func irqCtx s).state
      let out := invokeHandlers h rt cause rest s1
      (out.1, Event.invoke cause info irqCtx :: out.2)
    else invokeHandlers h rt cause rest s

/-- Source: `dispatchIntcHandlersForCause`. -/
def dispatchIntcHandlersForCause (h : Host) (runtime : Option PS2Runtime) (cause : Nat)
    (s : Sys) : Sys × List Event :=
  match runtime with
  | none => (s, [Event.dispatchIntc cause])
  | some rt =>
    if cause < 32 ∧ s.g_enabled_intc_mask &&& (1 <<< cause) = 0 then
      (s, [Event.dispatchIntc cause])
    else
      let handlers := snapshotHandlers s.g_intcHandlers cause
      let out := invokeHandlers h rt cause handlers s
      (out.1, Event.dispatchIntc cause :: out.2)

/-- Source: `dispatchDmacHandlersForCause`. -/
def dispatchDmacHandlersForCause (h : Host) (runtime : Option PS2Runtime) (cause : Nat)
    (s : Sys) : Sys × List Event :=
  match runtime with
  | none => (s, [Event.dispatchDmac cause])
  | some rt =>
    if cause < 32 ∧ s.g_enabled_dmac_mask &&& (1 <<< cause) = 0 then
      (s, [Event.dispatchDmac cause])
    else
      let handlers := snapshotHandlers s.g_dmacHandlers cause
      let out := invokeHandlers h rt cause handlers s
      (out.1, Event.dispatchDmac cause :: out.2)

/-! ## VSync signalling and the poll -/

/-- Source: `signalVSyncFlag`. -/
def signalVSyncFlag (h : Host) (tickValue : Nat) (s : Sys) : Sys × List Event :=
  let reg := s.g_vsync_registration
  let s1 := { s with g_vsync_registration := {}, g_vsync_tick_counter := tickValue }
  let w1 := if reg.flagAddr ≠ 0 then writeGuestU32NoThrow h s1.rdram reg.flagAddr 1
            else (s1.rdram, [])
  let w2 := if reg.tickAddr ≠ 0 then writeGuestU64NoThrow h w1.1 reg.tickAddr tickValue
            else (w1.1, [])
  ({ s1 with rdram := w2.1 }, w1.2 ++ w2.2)

/-- The first half of an iteration of the loop of `pollVBlankInline`: the statement
`tickValue = ++g_vsync_tick_counter;` on the `uint64_t` counter, followed by
`signalVSyncFlag(rdram, tickValue)`. -/
def deliverVSync (h : Host) (s : Sys) : Sys × List Event :=
  let tickValue := (s.g_vsync_tick_counter + 1) % 2 ^ 64
  let s1 := { s with g_vsync_tick_counter := tickValue }
  signalVSyncFlag h tickValue s1

/-- One iteration of the loop of `pollVBlankInline`: the counter increment and the VSync
signalling, then the dispatch of cause 2 and of cause 3. -/
def pollVBlankTick (h : Host) (runtime : Option PS2Runtime) (s : Sys) : Sys × List Event :=
  let a := deliverVSync h s
  let b := dispatchIntcHandlersForCause h runtime kIntcVblankStart a.1
  let c := dispatchIntcHandlersForCause h runtime kIntcVblankEnd b.1
  (c.1, a.2 ++ b.2 ++ c.2)

/-- The loop `for (int i = 0; i < pending; ++i)` of `pollVBlankInline`, by the number of
iterations left. -/
def pollVBlankLoop (h : Host) (runtime : Option PS2Runtime) : Nat → Sys → Sys × List Event
  | 0, s => (s, [])
  | n + 1, s =>
    let a := pollVBlankTick h runtime s
    let b := pollVBlankLoop h runtime n a.1
    (b.1, a.2 ++ b.2)

/-- Source: `pollVBlankInline`. -/
def pollVBlankInline (h : Host) (runtime : Option PS2Runtime) (s : Sys) : Sys × List Event :=
  let pending := s.g_vblank_pending
  let s0 := { s with g_vblank_pending := 0 }
  if pending ≤ 0 then (s0, [])
  else
    let pending := if pending > kMaxCatchupTicks then kMaxCatchupTicks else pending
    pollVBlankLoop h runtime pending.toNat s0

/-! ## Syscalls -/

/-- Source: `ensureInterruptWorkerRunning`; the creation of the worker thread is taken to
succeed. -/
def ensureInterruptWorkerRunning (runtime : Option PS2Runtime) (s : Sys) : Sys :=
  match runtime with
  | none => s
  | some _ =>
    if s.g_irq_worker_running then s
    else { s with g_irq_worker_stop := false, g_irq_worker_running := true }

/-- Source: `SetVSyncFlag`. -/
def SetVSyncFlag (h : Host) (runtime : Option PS2Runtime) (ctx : R5900Context) (s : Sys) :
    R5900Context × Sys :=
  let flagAddr := getRegU32 ctx 4
  let tickAddr := getRegU32 ctx 5
  let s1 := { s with g_vsync_registration := { flagAddr := flagAddr, tickAddr := tickAddr } }
  let m1 := (writeGuestU32NoThrow h s1.rdram flagAddr 0).1
  let m2 := (writeGuestU64NoThrow h m1 tickAddr 0).1
  let s2 := ensureInterruptWorkerRunning runtime { s1 with rdram := m2 }
  (setReturnS32 ctx KE_OK, s2)

/-- Source: `EnableIntc`. -/
def EnableIntc (ctx : R5900Context) (s : Sys) : R5900Context × Sys :=
  let cause := getRegU32 ctx 4
  let s1 := if cause < 32 then
      { s with g_enabled_intc_mask := s.g_enabled_intc_mask ||| (1 <<< cause) }
    else s
  (setReturnS32 ctx KE_OK, s1)

/-- Source: `DisableIntc`. -/
def DisableIntc (ctx : R5900Context) (s : Sys) : R5900Context × Sys :=
  let cause := getRegU32 ctx 4
  let s1 := if cause < 32 then
      { s with g_enabled_intc_mask := s.g_enabled_intc_mask &&& (0xFFFFFFFF ^^^ (1 <<< cause)) }
    else s
  (setReturnS32 ctx KE_OK, s1)

/-- Source: `AddIntcHandler`. The post-increment `g_nextIntcHandlerId++` of the `int` counter
is written with two's-complement wrap. -/
def AddIntcHandler (runtime : Option PS2Runtime) (ctx : R5900Context) (s : Sys) :
    R5900Context × Sys :=
  let info : IrqHandlerInfo :=
    { cause := getRegU32 ctx 4, handler := getRegU32 ctx 5, arg := getRegU32 ctx 7,
      gp := getRegU32 ctx 28, sp := 0, enabled := true }
  let handlerId := s.g_nextIntcHandlerId
  let s1 := { s with g_nextIntcHandlerId := wrapS32 (s.g_nextIntcHandlerId + 1),
                     g_intcHandlers := s.g_intcHandlers.assign handlerId info }
  let s2 := ensureInterruptWorkerRunning runtime s1
  (setReturnS32 ctx handlerId, s2)

/-- Source: `RemoveIntcHandler`. -/
def RemoveIntcHandler (ctx : R5900Context) (s : Sys) : R5900Context × Sys :=
  let handlerId := toS32 (getRegU32 ctx 5)
  let s1 := if handlerId > 0 then
      { s with g_intcHandlers := s.g_intcHandlers.erase handlerId }
    else s
  (setReturnS32 ctx KE_OK, s1)

/-- Source: `AddDmacHandler`. The post-increment `g_nextDmacHandlerId++` of the `int` counter
is written with two's-complement wrap. -/
def AddDmacHandler (ctx : R5900Context) (s : Sys) : R5900Context × Sys :=
  let info : IrqHandlerInfo :=
    { cause := getRegU32 ctx 4, handler := getRegU32 ctx 5, arg := getRegU32 ctx 7,
      gp := getRegU32 ctx 28, sp := 0, enabled := true }
  let handlerId := s.g_nextDmacHandlerId
  let s1 := { s with g_nextDmacHandlerId := wrapS32 (s.g_nextDmacHandlerId + 1),
                     g_dmacHandlers := s.g_dmacHandlers.assign handlerId info }
  (setReturnS32 ctx handlerId, s1)

/-- Source: `RemoveDmacHandler`. -/
def RemoveDmacHandler (ctx : R5900Context) (s : Sys) : R5900Context × Sys :=
  let handlerId := toS32 (getRegU32 ctx 5)
  let s1 := if handlerId > 0 then
      { s with g_dmacHandlers := s.g_dmacHandlers.erase handlerId }
    else s
  (setReturnS32 ctx KE_OK, s1)

/-- Source: `EnableIntcHandler`. -/
def EnableIntcHandler (ctx : R5900Context) (s : Sys) : R5900Context × Sys :=
  let handlerId := toS32 (getRegU32 ctx 5)
  (setReturnS32 ctx KE_OK,
    { s with g_intcHandlers := s.g_intcHandlers.setEnabled handlerId true })

/-- Source: `DisableIntcHandler`. -/
def DisableIntcHandler (ctx : R5900Context) (s : Sys) : R5900Context × Sys :=
  let handlerId := toS32 (getRegU32 ctx 5)
  (setReturnS32 ctx KE_OK,
    { s with g_intcHandlers := s.g_intcHandlers.setEnabled handlerId false })

/-- Source: `EnableDmacHandler`. -/
def EnableDmacHandler (ctx : R5900Context) (s : Sys) : R5900Context × Sys :=
  let handlerId := toS32 (getRegU32 ctx 5)
  (setReturnS32 ctx KE_OK,
    { s with g_dmacHandlers := s.g_dmacHandlers.setEnabled handlerId true })

/-- Source: `DisableDmacHandler`. -/
def DisableDmacHandler (ctx : R5900Context) (s : Sys) : R5900Context × Sys :=
  let handlerId := toS32 (getRegU32 ctx 5)
  (setReturnS32 ctx KE_OK,
    { s with g_dmacHandlers := s.g_dmacHandlers.setEnabled handlerId false })

/-- Source: `EnableDmac`. -/
def EnableDmac (ctx : R5900Context) (s : Sys) : R5900Context × Sys :=
  let cause := getRegU32 ctx 4
  let s1 := if cause < 32 then
      { s with g_enabled_dmac_mask := s.g_enabled_dmac_mask ||| (1 <<< cause) }
    else s
  (setReturnS32 ctx KE_OK, s1)

/-- Source: `DisableDmac`. -/
def DisableDmac (ctx : R5900Context) (s : Sys) : R5900Context × Sys :=
  let cause := getRegU32 ctx 4
  let s1 := if cause < 32 then
      { s with g_enabled_dmac_mask := s.g_enabled_dmac_mask &&& (0xFFFFFFFF ^^^ (1 <<< cause)) }
    else s
  (setReturnS32 ctx KE_OK, s1)

/-! ## Sequences of syscalls -/

/-- The syscalls of the interrupt core. -/
inductive Syscall where
  | SetVSyncFlag
  | EnableIntc
  | DisableIntc
  | AddIntcHandler
  | RemoveIntcHandler
  | AddDmacHandler
  | RemoveDmacHandler
  | EnableIntcHandler
  | DisableIntcHandler
  | EnableDmacHandler
  | DisableDmacHandler
  | EnableDmac
  | DisableDmac
deriving DecidableEq, Repr

/-- The call `name(rdram, ctx, runtime)` of a syscall. -/
def Syscall.run (h : Host) (runtime : Option PS2Runtime) :
    Syscall → R5900Context → Sys → R5900Context × Sys
  | .SetVSyncFlag => PS2Recomp.SetVSyncFlag h runtime
  | .EnableIntc => PS2Recomp.EnableIntc
  | .DisableIntc => PS2Recomp.DisableIntc
  | .AddIntcHandler => PS2Recomp.AddIntcHandler runtime
  | .RemoveIntcHandler => PS2Recomp.RemoveIntcHandler
  | .AddDmacHandler => PS2Recomp.AddDmacHandler
  | .RemoveDmacHandler => PS2Recomp.RemoveDmacHandler
  | .EnableIntcHandler => PS2Recomp.EnableIntcHandler
  | .DisableIntcHandler => PS2Recomp.DisableIntcHandler
  | .EnableDmacHandler => PS2Recomp.EnableDmacHandler
  | .DisableDmacHandler => PS2Recomp.DisableDmacHandler
  | .EnableDmac => PS2Recomp.EnableDmac
  | .DisableDmac => PS2Recomp.DisableDmac

/-- The state after a sequence of syscalls, each made with its own register context. -/
def runSyscalls (h : Host) (runtime : Option PS2Runtime) :
    List (Syscall × R5900Context) → Sys → Sys
  | [], s => s
  | (op, ctx) :: rest, s => runSyscalls h runtime rest (op.run h runtime ctx s).2

/-- The values returned in GPR 2, read as `int`, by the calls of syscall `sel` within a
sequence of syscalls, in call order. -/
def returnedBy (h : Host) (runtime : Option PS2Runtime) (sel : Syscall) :
    List (Syscall × R5900Context) → Sys → List Int
  | [], _ => []
  | (op, ctx) :: rest, s =>
    let out := op.run h runtime ctx s
    if op = sel then toS32 (getRegU32 out.1 2) :: returnedBy h runtime sel rest out.2
    else returnedBy h runtime sel rest out.2

/-- The number of calls of syscall `sel` in a sequence of syscalls. -/
def callCount (sel : Syscall) (calls : List (Syscall × R5900Context)) : Nat :=
  (calls.filter (fun c => decide (c.1 = sel))).length

/-- A register context holding the given values in GPR 4, 5, 7 and 28. -/
def argContext (a0 a1 a3 gp : Nat) : R5900Context :=
  SET_GPR_U32 (SET_GPR_U32 (SET_GPR_U32 (SET_GPR_U32 {} 4 a0) 5 a1) 7 a3) 28 gp

/-- Modelled from the spec: the initial values of `g_intcHandlers`, `g_dmacHandlers`,
`g_nextIntcHandlerId` and `g_nextDmacHandlerId` are declared elsewhere in the repository; the
spec has empty tables and handler ids starting at 1. The other fields are the initialisers of
the statics in the source; guest memory starts zeroed. -/
def initialSys : Sys :=
  { rdram := fun _ => 0
    g_intcHandlers := []
    g_dmacHandlers := []
    g_nextIntcHandlerId := 1
    g_nextDmacHandlerId := 1
    g_enabled_intc_mask := 0xFFFFFFFF
    g_enabled_dmac_mask := 0xFFFFFFFF
    g_vsync_tick_counter := 0
    g_vsync_registration := {}
    g_vblank_pending := 0
    g_irq_worker_stop := false
    g_irq_worker_running := false }

/-- A host whose guest addresses below 32 MiB map to the same host offset. -/
def flatHost : Host :=
  { getMemPtr := fun a => if a < 0x2000000 then some a else none
    PS2_IRQ_STACK_TOP := 0x1F00000 }

/-- A runtime without any registered function. -/
def emptyRuntime : PS2Runtime :=
  { hasFunction := fun _ => false
    lookupFunction := fun _ _ s => CallResult.returned s }


/-- A sample sequence: two INTC registrations with the removal of the first in between, and
two DMAC registrations. -/
def sampleCalls : List (Syscall × R5900Context) :=
  [ (Syscall.AddIntcHandler, argContext 2 0xDEAD 0x42 0),
    (Syscall.AddDmacHandler, argContext 5 0xBEEF 0 0),
    (Syscall.RemoveIntcHandler, argContext 0 1 0 0),
    (Syscall.AddIntcHandler, argContext 3 0xCAFE 7 0),
    (Syscall.AddDmacHandler, argContext 5 0xF00D 0 0) ]

/-! ## Predicates used in the statements -/

/-- Every recompiled function registered in the runtime keeps the property `P` of the state,
however it leaves. -/
def GuestKeeps (runtime : Option PS2Runtime) (P : Sys → Prop) : Prop :=
  ∀ rt, runtime = some rt → ∀ addr ctx s, rt.hasFunction addr = true → P s →
    P (rt.lookupFunction addr ctx s).state

/-- The handler invocations among a list of effects: cause and handler record, in order. -/
def invocations : List Event → List (Nat × IrqHandlerInfo)
  | [] => []
  | Event.invoke cause info _ :: rest => (cause, info) :: invocations rest
  | _ :: rest => invocations rest

/-- The property `P` does not depend on guest memory, the VSync tick counter or the VSync
registration. -/
def IgnoresVSync (P : Sys → Prop) : Prop :=
  ∀ (s : Sys) (mem : Nat → Nat) (counter : Nat) (reg : VSyncFlagRegistration),
    P s → P { s with rdram := mem, g_vsync_tick_counter := counter, g_vsync_registration := reg }

/-- Whether an effect is a guest memory write of the VSync signalling. -/
def Event.isWrite : Event → Bool
  | Event.writeU32 _ _ => true
  | Event.writeU64 _ _ => true
  | _ => false

/-- A stub guest function: it records its arguments `a0` and `a1` as the guest words at host
offsets `0x300` and `0x304` and returns. -/
def recordArgs : RecompiledFunction :=
  fun ctx s =>
    let mem := storeBytes s.rdram 0x300 4 (getRegU32 ctx 4)
    CallResult.returned { s with rdram := storeBytes mem 0x304 4 (getRegU32 ctx 5) }

/-- A runtime whose registry holds the stub `recordArgs` at the guest addresses `0xDEAD` and
`0xCAFE`, and nothing else. -/
def stubRuntime : PS2Runtime :=
  { hasFunction := fun a => decide (a = 0xDEAD) || decide (a = 0xCAFE)
    lookupFunction := fun _ => recordArgs }

/-- Scenario S1: from the initial state, `SetVSyncFlag(flag = 0x100, tick = 0x200)`, then one
pending tick is posted and polled. -/
def scenarioS1 : Sys × List Event :=
  let s1 := (SetVSyncFlag flatHost (some emptyRuntime) (argContext 0x100 0x200 0 0) initialSys).2
  pollVBlankInline flatHost (some emptyRuntime) { s1 with g_vblank_pending := 1 }

/-- The causes of the calls of `dispatchIntcHandlersForCause` among a list of effects, in
order. -/
def dispatchCalls : List Event → List Nat
  | [] => []
  | Event.dispatchIntc cause :: rest => cause :: dispatchCalls rest
  | _ :: rest => dispatchCalls rest

/-- The handlers that a dispatch for `cause` calls, in call order, as a function of the table
and the enable mask at the time of the dispatch: none without a runtime or when the cause is
below 32 and masked; otherwise the snapshot entries whose address has a registered
function. -/
def selectedHandlers (runtime : Option PS2Runtime) (table : HandlerTable) (mask cause : Nat) :
    List IrqHandlerInfo :=
  match runtime with
  | none => []
  | some rt =>
    if cause < 32 ∧ mask &&& (1 <<< cause) = 0 then []
    else (snapshotHandlers table cause).filter (fun info => rt.hasFunction info.handler)

/-- The invocations of one tick round over a fixed table and mask: the selected cause-2
handlers, then the selected cause-3 handlers. -/
def roundInvocations (runtime : Option PS2Runtime) (table : HandlerTable) (mask : Nat) :
    List (Nat × IrqHandlerInfo) :=
  (selectedHandlers runtime table mask kIntcVblankStart).map (fun info => (kIntcVblankStart, info))
    ++ (selectedHandlers runtime table mask kIntcVblankEnd).map (fun info => (kIntcVblankEnd, info))

/-- Scenario S5: a cause-2 handler at `0xDEAD` and a cause-3 handler at `0xCAFE` are
registered from the initial state, seven ticks are pending when the poll runs. -/
def scenarioS5 : Sys × List Event :=
  let s1 := (AddIntcHandler (some stubRuntime) (argContext 2 0xDEAD 0x42 0) initialSys).2
  let s2 := (AddIntcHandler (some stubRuntime) (argContext 3 0xCAFE 7 0) s1).2
  pollVBlankInline flatHost (some stubRuntime) { s2 with g_vblank_pending := 7 }

/-- The keys of a table are strictly ascending in iteration order. -/
def HandlerTable.Sorted (t : HandlerTable) : Prop :=
  List.Pairwise (fun a b => a < b) t.ids

/-- A guest function that removes the INTC handler with id 1 and returns. -/
def removeHandlerOne : RecompiledFunction :=
  fun _ s => CallResult.returned (RemoveIntcHandler (argContext 0 1 0 0) s).2

/-- A runtime whose function at `0xDEAD` removes handler 1 and whose function at `0xCAFE` is
the stub `recordArgs`. -/
def selfRemovingRuntime : PS2Runtime :=
  { hasFunction := fun a => decide (a = 0xDEAD) || decide (a = 0xCAFE)
    lookupFunction := fun a => if a = 0xDEAD then removeHandlerOne else recordArgs }

/-- Two cause-2 handlers registered from the initial state: `0xDEAD` under id 1, then `0xCAFE`
under id 2. -/
def twoHandlers : Sys :=
  let s1 := (AddIntcHandler none (argContext 2 0xDEAD 0x42 0) initialSys).2
  (AddIntcHandler none (argContext 2 0xCAFE 7 0) s1).2

/-- The selection test on a table entry: enabled, of the cause, with a non-zero handler
address that has a registered function. -/
def isDispatchable (rt : PS2Runtime) (cause : Nat) (e : Int × IrqHandlerInfo) : Bool :=
  e.2.enabled && decide (e.2.cause = cause) && decide (e.2.handler ≠ 0) &&
    rt.hasFunction e.2.handler

/-- The state `twoHandlers` after `DisableIntc(2)`. -/
def twoHandlersMasked : Sys :=
  (DisableIntc (argContext 2 0 0 0) twoHandlers).2

/-- Scenario S3: the handlers A (`0xDEAD`) and B (`0xCAFE`) are registered for cause 2 in this
order, one tick is pending and polled. -/
def scenarioS3 : Sys × List Event :=
  pollVBlankInline flatHost (some stubRuntime) { twoHandlers with g_vblank_pending := 1 }

/-- The register contexts of the handler invocations among a list of effects, reduced to the
program counter and the registers 4, 5, 6, 7, 28, 29 and 31. -/
def invocationRegisters : List Event → List (Nat × List Nat)
  | [] => []
  | Event.invoke _ _ irqCtx :: rest =>
    (irqCtx.pc, [4, 5, 6, 7, 28, 29, 31].map irqCtx.r) :: invocationRegisters rest
  | _ :: rest => invocationRegisters rest

/-- A runtime with the stub `recordArgs` registered at every guest address. -/
def everyRuntime : PS2Runtime :=
  { hasFunction := fun _ => true
    lookupFunction := fun _ => recordArgs }

/-- Scenario S2: from the initial state, `AddIntcHandler(cause = 2, handler = 0xDEAD,
arg = 0x42)` with the stub `recordArgs` registered at `0xDEAD`; then one tick is pending and
polled. The first component is the returned id. -/
def scenarioS2 : Int × Sys × List Event :=
  let out := AddIntcHandler (some stubRuntime) (argContext 2 0xDEAD 0x42 0) initialSys
  (toS32 (getRegU32 out.1 2),
    pollVBlankInline flatHost (some stubRuntime) { out.2 with g_vblank_pending := 1 })

/-- The initial state after `DisableIntc(2)`. -/
def initialMasked : Sys :=
  (DisableIntc (argContext 2 0 0 0) initialSys).2

/-- The guest memory writes among a list of effects: guest address and value, in order. -/
def guestWrites : List Event → List (Nat × Nat)
  | [] => []
  | Event.writeU32 addr value :: rest => (addr, value) :: guestWrites rest
  | Event.writeU64 addr value :: rest => (addr, value) :: guestWrites rest
  | _ :: rest => guestWrites rest

/-- The initial state after `SetVSyncFlag(flag = 0x100, tick = 0x200)`, with the stub runtime
and three ticks pending. -/
def registeredThreePending : Sys :=
  { (SetVSyncFlag flatHost (some stubRuntime) (argContext 0x100 0x200 0 0) initialSys).2 with
    g_vblank_pending := 3 }

/-- The table `new` is the table `old` with the enabled flag of the entry under `id` set to
`b` and nothing else changed: the same keys in the same order, each with the same cause,
handler, arg, gp and sp. -/
def HandlerTable.EnabledSetTo (id : Int) (b : Bool) (old new : HandlerTable) : Prop :=
  List.Forall₂
    (fun o n => n.1 = o.1 ∧ n.2.cause = o.2.cause ∧ n.2.handler = o.2.handler ∧
      n.2.arg = o.2.arg ∧ n.2.gp = o.2.gp ∧ n.2.sp = o.2.sp ∧
      n.2.enabled = (if o.1 = id then b else o.2.enabled))
    old new

/-- Scenario S4, first half: handler 1 of `twoHandlers` is disabled, then one tick is pending
and polled. -/
def scenarioS4Disabled : Sys × List Event :=
  let s1 := (DisableIntcHandler (argContext 0 1 0 0) twoHandlers).2
  pollVBlankInline flatHost (some stubRuntime) { s1 with g_vblank_pending := 1 }

/-- Scenario S4, second half: handler 1 is enabled again in the state left by the first half,
then one more tick is pending and polled. -/
def scenarioS4Enabled : Sys × List Event :=
  let s2 := (EnableIntcHandler (argContext 0 1 0 0) scenarioS4Disabled.1).2
  pollVBlankInline flatHost (some stubRuntime) { s2 with g_vblank_pending := 1 }

/-- A guest function that writes the word `0xEE` at host offset `0x308` and then leaves by a
`std::exception`. -/
def throwingHandler : RecompiledFunction :=
  fun _ s => CallResult.stdException { s with rdram := storeBytes s.rdram 0x308 4 0xEE }

/-- A guest function that leaves by `ThreadExitException` at once. -/
def exitingHandler : RecompiledFunction :=
  fun _ s => CallResult.threadExit s

/-- A runtime whose function at `0xDEAD` throws, whose function at `0xF00D` exits the thread,
whose function at `0xCAFE` is the stub `recordArgs`, and which has no other function (in
particular none at `0xBEEF`). -/
def failingRuntime : PS2Runtime :=
  { hasFunction := fun a => decide (a = 0xDEAD) || decide (a = 0xF00D) || decide (a = 0xCAFE)
    lookupFunction := fun a =>
      if a = 0xDEAD then throwingHandler
      else if a = 0xF00D then exitingHandler
      else recordArgs }

/-- Four cause-2 handlers registered from the initial state, in this order: `0xDEAD`, `0xF00D`,
`0xBEEF`, `0xCAFE`. -/
def fourHandlers : Sys :=
  let s1 := (AddIntcHandler none (argContext 2 0xDEAD 1 0) initialSys).2
  let s2 := (AddIntcHandler none (argContext 2 0xF00D 2 0) s1).2
  let s3 := (AddIntcHandler none (argContext 2 0xBEEF 3 0) s2).2
  (AddIntcHandler none (argContext 2 0xCAFE 4 0) s3).2

/-- Scenario S6: one handler is registered at `0xBEEF`, where the runtime has no function; one
tick is pending and polled. -/
def scenarioS6 : Sys × List Event :=
  let s1 := (AddIntcHandler (some stubRuntime) (argContext 2 0xBEEF 0 0) initialSys).2
  pollVBlankInline flatHost (some stubRuntime) { s1 with g_vblank_pending := 1 }

/-- The INTC side of the state: handler table, enable mask and id counter. -/
def intcSide (s : Sys) : HandlerTable × Nat × Int :=
  (s.g_intcHandlers, s.g_enabled_intc_mask, s.g_nextIntcHandlerId)

/-- The DMAC side of the state: handler table, enable mask and id counter. -/
def dmacSide (s : Sys) : HandlerTable × Nat × Int :=
  (s.g_dmacHandlers, s.g_enabled_dmac_mask, s.g_nextDmacHandlerId)

/-- The DMAC operation `opD` run in state `s` does to the DMAC side and GPR 2 what the INTC
operation `opI` run in state `t` does to the INTC side and GPR 2, and each leaves the other
side as it found it. -/
def Mirrors (opD opI : R5900Context → Sys → R5900Context × Sys) (ctx : R5900Context)
    (s t : Sys) : Prop :=
  dmacSide (opD ctx s).2 = intcSide (opI ctx t).2 ∧
  getRegU32 (opD ctx s).1 2 = getRegU32 (opI ctx t).1 2 ∧
  intcSide (opD ctx s).2 = intcSide s ∧
  dmacSide (opI ctx t).2 = dmacSide t

/-- Two cause-2 handlers registered on the DMAC table from the initial state: `0xDEAD` under
id 1, then `0xCAFE` under id 2. -/
def twoDmacHandlers : Sys :=
  let s1 := (AddDmacHandler (argContext 2 0xDEAD 0x42 0) initialSys).2
  (AddDmacHandler (argContext 2 0xCAFE 7 0) s1).2

/-- Every entry of the table has a non-zero handler address. -/
def HandlerTable.HandlersNonZero (t : HandlerTable) : Prop :=
  ∀ e ∈ t, e.2.handler ≠ 0

/-! ## Main-thread identity -/

/-- Modelled from the spec: `setMainThread`, `isMainThread` and `pollVBlank` are only declared
in `ps2_syscalls.h`; their definitions are elsewhere in the repository. The spec describes the
main-thread identity as a process-wide record of the host thread that called `setMainThread`.
A process is the state of the interrupt core together with that record; host threads are
named by numbers. -/
structure Process where
  sys : Sys
  mainThread : Option Nat

/-- Modelled from the spec: `setMainThread()` is defined elsewhere in the repository; it
records the calling thread as the main dispatch thread, overwriting an earlier record. -/
def setMainThread (caller : Nat) (p : Process) : Process :=
  { p with mainThread := some caller }

/-- Modelled from the spec: `isMainThread()` is defined elsewhere in the repository; it returns
whether the caller is the recorded main thread. -/
def isMainThread (caller : Nat) (p : Process) : Bool :=
  decide (p.mainThread = some caller)

/-- Modelled from the spec: `pollVBlank` is defined elsewhere in the repository; on the main
thread it drains the pending ticks and dispatches inline (`pollVBlankInline`), and a call from
another thread is a no-op. -/
def pollVBlank (h : Host) (runtime : Option PS2Runtime) (caller : Nat) (p : Process) :
    Process × List Event :=
  if isMainThread caller p then
    let out := pollVBlankInline h runtime p.sys
    ({ p with sys := out.1 }, out.2)
  else (p, [])

/-- A process with the main thread 1 recorded, whose state has the registration
`(0x100, 0x200)` and three ticks pending. -/
def pendingProcess : Process :=
  setMainThread 1 { sys := registeredThreePending, mainThread := none }

/-! ## Path helpers

A shallow embedding of `stripIsoVersionSuffix` and `normalizePs2PathSuffix` of
`ps2xRuntime/src/lib/syscalls/helpers/ps2_syscalls_helpers_path.inl`. A `std::string` is the
list of its characters; `std::isdigit` is taken in the "C" locale, where the digits are the
ASCII characters `0` to `9`. -/

/-- The call `value.find(c)`: the index of the first occurrence of `c`, `none` for
`std::string::npos`. -/
def findChar (c : Char) : List Char → Option Nat
  | [] => none
  | x :: rest => if x = c then some 0 else (findChar c rest).map (fun i => i + 1)

/-- The loop `for (i = semicolon + 1; i < value.size(); ++i)` of `stripIsoVersionSuffix` over
the characters behind the semicolon: the first character that is not a digit sets
`numericSuffix` to false and ends the loop. -/
def scanNumericSuffix (numericSuffix : Bool) : List Char → Bool
  | [] => numericSuffix
  | c :: rest => if !c.isDigit then false else scanNumericSuffix numericSuffix rest

/-- Source: `stripIsoVersionSuffix`. -/
def stripIsoVersionSuffix (value : List Char) : List Char :=
  match findChar ';' value with
  | none => value
  | some semicolon =>
    let numericSuffix := decide (semicolon + 1 < value.length)
    let numericSuffix := scanNumericSuffix numericSuffix (value.drop (semicolon + 1))
    if numericSuffix then value.take semicolon else value

/-- The loop `while (!suffix.empty() && (suffix.front() == '/' || suffix.front() == '\\'))
suffix.erase(suffix.begin());` of `normalizePs2PathSuffix`. -/
def eraseLeadingSeparators : List Char → List Char
  | [] => []
  | c :: rest => if c = '/' ∨ c = '\\' then eraseLeadingSeparators rest else c :: rest

/-- Source: `normalizePs2PathSuffix`. -/
def normalizePs2PathSuffix (suffix : List Char) : List Char :=
  let suffix := suffix.map (fun c => if c = '\\' then '/' else c)
  let suffix := stripIsoVersionSuffix suffix
  eraseLeadingSeparators suffix

/-- The normalisation as the claim words it: every backslash replaced by `/`, then
`stripIsoVersionSuffix`, then all leading `/` characters deleted. -/
def normalizeAsDescribed (s : List Char) : List Char :=
  (stripIsoVersionSuffix (s.map (fun c => if c = '\\' then '/' else c))).dropWhile
    (fun c => decide (c = '/'))

/-! ## Timer worker

A wake of `interruptWorkerMain`. Points in time of `std::chrono::steady_clock` are integers in
a common unit; `period` is `kVblankPeriod` in that unit. -/

/-- Source: `constexpr auto kVblankPeriod = std::chrono::microseconds(16667);`, in
microseconds. -/
def kVblankPeriod : Int := 16667

/-- The loop `while (now >= nextTick && ticksToProcess < kMaxCatchupTicks)` of
`interruptWorkerMain`, with the body `++ticksToProcess; nextTick += kVblankPeriod;`. Each unit
of fuel pays for one evaluation of the loop condition; the result is the final
`(ticksToProcess, nextTick)`, or `none` when the fuel runs out first. -/
def catchUpLoop (period now : Int) : Nat → Int → Int → Option (Int × Int)
  | 0, _, _ => none
  | fuel + 1, ticksToProcess, nextTick =>
    if now ≥ nextTick ∧ ticksToProcess < kMaxCatchupTicks then
      catchUpLoop period now fuel (ticksToProcess + 1) (nextTick + period)
    else some (ticksToProcess, nextTick)

/-- One pass through the body of the outer loop of `interruptWorkerMain`, from the reading
`now = clock::now()` on: the catch-up loop from `ticksToProcess = 0`, the `continue` when no
tick is due, else `g_vblank_pending.fetch_add(ticksToProcess)` on the atomic `int`. The result
is the new `nextTick` and the new state. -/
def interruptWorkerWake (period now : Int) (fuel : Nat) (nextTick : Int) (s : Sys) :
    Option (Int × Sys) :=
  match catchUpLoop period now fuel 0 nextTick with
  | none => none
  | some (ticksToProcess, nextTick1) =>
    if ticksToProcess = 0 then some (nextTick1, s)
    else some (nextTick1,
      { s with g_vblank_pending := wrapS32 (s.g_vblank_pending + ticksToProcess) })

/-- The number of ticks the claim ascribes to one wake: 0 before the target, otherwise the
number of period boundaries reached, capped at 4. -/
def ticksDue (period now nextTick : Int) : Int :=
  if now < nextTick then 0 else min 4 ((now - nextTick) / period + 1)

/-! ## Machine integer facts -/

theorem wrapS32_of_range (x : Int) (h1 : -2147483648 ≤ x) (h2 : x ≤ 2147483647) :
    wrapS32 x = x := by
  unfold wrapS32
  omega

theorem toS32_toU32 (x : Int) (h1 : -2147483648 ≤ x) (h2 : x ≤ 2147483647) :
    toS32 (toU32 x) = x := by
  unfold toS32 toU32
  split <;> omega

theorem toU32_lt (x : Int) : toU32 x < 4294967296 := by
  unfold toU32
  omega

theorem getRegU32_setReturnS32 (ctx : R5900Context) (x : Int) :
    getRegU32 (setReturnS32 ctx x) 2 = toU32 x := by
  have := toU32_lt x
  simp only [getRegU32, setReturnS32, SET_GPR_U32, if_true]
  omega


/-! ## Handler ids -/

theorem ensureInterruptWorkerRunning_nextIntc (runtime : Option PS2Runtime) (s : Sys) :
    (ensureInterruptWorkerRunning runtime s).g_nextIntcHandlerId = s.g_nextIntcHandlerId := by
  unfold ensureInterruptWorkerRunning
  cases runtime with
  | none => rfl
  | some rt => dsimp only; split <;> rfl

theorem ensureInterruptWorkerRunning_nextDmac (runtime : Option PS2Runtime) (s : Sys) :
    (ensureInterruptWorkerRunning runtime s).g_nextDmacHandlerId = s.g_nextDmacHandlerId := by
  unfold ensureInterruptWorkerRunning
  cases runtime with
  | none => rfl
  | some rt => dsimp only; split <;> rfl

/-- Every syscall but `AddIntcHandler` leaves the INTC id counter alone; `AddIntcHandler`
post-increments it. -/
theorem run_nextIntc (h : Host) (runtime : Option PS2Runtime) (op : Syscall)
    (ctx : R5900Context) (s : Sys) :
    (op.run h runtime ctx s).2.g_nextIntcHandlerId =
      if op = Syscall.AddIntcHandler then wrapS32 (s.g_nextIntcHandlerId + 1)
      else s.g_nextIntcHandlerId := by
  cases op <;>
    simp [Syscall.run, SetVSyncFlag, EnableIntc, DisableIntc, AddIntcHandler, RemoveIntcHandler,
      AddDmacHandler, RemoveDmacHandler, EnableIntcHandler, DisableIntcHandler,
      EnableDmacHandler, DisableDmacHandler, EnableDmac, DisableDmac,
      ensureInterruptWorkerRunning_nextIntc] <;>
    split <;> rfl

/-- Every syscall but `AddDmacHandler` leaves the DMAC id counter alone; `AddDmacHandler`
post-increments it. -/
theorem run_nextDmac (h : Host) (runtime : Option PS2Runtime) (op : Syscall)
    (ctx : R5900Context) (s : Sys) :
    (op.run h runtime ctx s).2.g_nextDmacHandlerId =
      if op = Syscall.AddDmacHandler then wrapS32 (s.g_nextDmacHandlerId + 1)
      else s.g_nextDmacHandlerId := by
  cases op <;>
    simp [Syscall.run, SetVSyncFlag, EnableIntc, DisableIntc, AddIntcHandler, RemoveIntcHandler,
      AddDmacHandler, RemoveDmacHandler, EnableIntcHandler, DisableIntcHandler,
      EnableDmacHandler, DisableDmacHandler, EnableDmac, DisableDmac,
      ensureInterruptWorkerRunning_nextDmac] <;>
    split <;> rfl

theorem run_AddIntcHandler_result (h : Host) (runtime : Option PS2Runtime)
    (ctx : R5900Context) (s : Sys) :
    getRegU32 (Syscall.AddIntcHandler.run h runtime ctx s).1 2 = toU32 s.g_nextIntcHandlerId := by
  simp [Syscall.run, AddIntcHandler, getRegU32_setReturnS32]

theorem run_AddDmacHandler_result (h : Host) (runtime : Option PS2Runtime)
    (ctx : R5900Context) (s : Sys) :
    getRegU32 (Syscall.AddDmacHandler.run h runtime ctx s).1 2 = toU32 s.g_nextDmacHandlerId := by
  simp [Syscall.run, AddDmacHandler, getRegU32_setReturnS32]


theorem returnedBy_AddIntc_aux (h : Host) (runtime : Option PS2Runtime) :
    ∀ (calls : List (Syscall × R5900Context)) (s : Sys),
      -2147483648 ≤ s.g_nextIntcHandlerId →
      s.g_nextIntcHandlerId + (callCount Syscall.AddIntcHandler calls : Int) ≤ 2147483647 →
      (∀ x ∈ returnedBy h runtime Syscall.AddIntcHandler calls s, s.g_nextIntcHandlerId ≤ x) ∧
      List.Pairwise (fun a b => a < b) (returnedBy h runtime Syscall.AddIntcHandler calls s) := by
  intro calls
  induction calls with
  | nil => intro s _ _; simp [returnedBy]
  | cons c rest ih =>
    intro s hlo hhi
    obtain ⟨op, ctx⟩ := c
    have hnext := run_nextIntc h runtime op ctx s
    by_cases hop : op = Syscall.AddIntcHandler
    · subst hop
      simp only [callCount, List.filter_cons, decide_True, if_true, List.length_cons] at hhi
      simp only [if_true] at hnext
      rw [wrapS32_of_range _ (by omega) (by push_cast at hhi; omega)] at hnext
      have hrec := ih (Syscall.AddIntcHandler.run h runtime ctx s).2
        (by rw [hnext]; omega)
        (by rw [hnext]; simp only [callCount]; push_cast at hhi ⊢; omega)
      have hres : toS32 (getRegU32 (Syscall.AddIntcHandler.run h runtime ctx s).1 2)
          = s.g_nextIntcHandlerId := by
        rw [run_AddIntcHandler_result]
        exact toS32_toU32 _ hlo (by push_cast at hhi; omega)
      simp only [returnedBy, if_true, hres]
      rw [hnext] at hrec
      refine ⟨?_, ?_⟩
      · intro x hx
        rcases List.mem_cons.mp hx with hx | hx
        · omega
        · have := hrec.1 x hx
          omega
      · refine List.Pairwise.cons ?_ hrec.2
        intro x hx
        have := hrec.1 x hx
        omega
    · simp only [callCount, List.filter_cons, hop, decide_False, Bool.false_eq_true,
        if_false] at hhi
      simp only [hop, if_false] at hnext
      have hrec := ih (op.run h runtime ctx s).2 (by rw [hnext]; exact hlo)
        (by rw [hnext]; simpa only [callCount] using hhi)
      simp only [returnedBy, hop, if_false]
      rw [hnext] at hrec
      exact hrec

theorem returnedBy_AddDmac_aux (h : Host) (runtime : Option PS2Runtime) :
    ∀ (calls : List (Syscall × R5900Context)) (s : Sys),
      -2147483648 ≤ s.g_nextDmacHandlerId →
      s.g_nextDmacHandlerId + (callCount Syscall.AddDmacHandler calls : Int) ≤ 2147483647 →
      (∀ x ∈ returnedBy h runtime Syscall.AddDmacHandler calls s, s.g_nextDmacHandlerId ≤ x) ∧
      List.Pairwise (fun a b => a < b) (returnedBy h runtime Syscall.AddDmacHandler calls s) := by
  intro calls
  induction calls with
  | nil => intro s _ _; simp [returnedBy]
  | cons c rest ih =>
    intro s hlo hhi
    obtain ⟨op, ctx⟩ := c
    have hnext := run_nextDmac h runtime op ctx s
    by_cases hop : op = Syscall.AddDmacHandler
    · subst hop
      simp only [callCount, List.filter_cons, decide_True, if_true, List.length_cons] at hhi
      simp only [if_true] at hnext
      rw [wrapS32_of_range _ (by omega) (by push_cast at hhi; omega)] at hnext
      have hrec := ih (Syscall.AddDmacHandler.run h runtime ctx s).2
        (by rw [hnext]; omega)
        (by rw [hnext]; simp only [callCount]; push_cast at hhi ⊢; omega)
      have hres : toS32 (getRegU32 (Syscall.AddDmacHandler.run h runtime ctx s).1 2)
          = s.g_nextDmacHandlerId := by
        rw [run_AddDmacHandler_result]
        exact toS32_toU32 _ hlo (by push_cast at hhi; omega)
      simp only [returnedBy, if_true, hres]
      rw [hnext] at hrec
      refine ⟨?_, ?_⟩
      · intro x hx
        rcases List.mem_cons.mp hx with hx | hx
        · omega
        · have := hrec.1 x hx
          omega
      · refine List.Pairwise.cons ?_ hrec.2
        intro x hx
        have := hrec.1 x hx
        omega
    · simp only [callCount, List.filter_cons, hop, decide_False, Bool.false_eq_true,
        if_false] at hhi
      simp only [hop, if_false] at hnext
      have hrec := ih (op.run h runtime ctx s).2 (by rw [hnext]; exact hlo)
        (by rw [hnext]; simpa only [callCount] using hhi)
      simp only [returnedBy, hop, if_false]
      rw [hnext] at hrec
      exact hrec

/-- C1 (handler id monotonicity). For every sequence of syscalls of the interrupt core, in
particular every sequence of `AddIntcHandler` / `RemoveIntcHandler` (resp. `AddDmacHandler` /
`RemoveDmacHandler`) calls, started in any state whose id counters are `int` values that do not
overflow during the sequence, the ids returned in GPR 2 by the successive `AddIntcHandler`
calls are strictly increasing, and so are those returned by the successive `AddDmacHandler`
calls; hence no id is returned twice, and an id that was returned and then removed is not
returned again. -/
theorem C1_handler_ids_strictly_increasing (h : Host) (runtime : Option PS2Runtime)
    (calls : List (Syscall × R5900Context)) (s : Sys)
    (hIntcLo : -2147483648 ≤ s.g_nextIntcHandlerId)
    (hIntcHi : s.g_nextIntcHandlerId + (callCount Syscall.AddIntcHandler calls : Int)
      ≤ 2147483647)
    (hDmacLo : -2147483648 ≤ s.g_nextDmacHandlerId)
    (hDmacHi : s.g_nextDmacHandlerId + (callCount Syscall.AddDmacHandler calls : Int)
      ≤ 2147483647) :
    List.Pairwise (fun a b => a < b) (returnedBy h runtime Syscall.AddIntcHandler calls s) ∧
    List.Pairwise (fun a b => a < b) (returnedBy h runtime Syscall.AddDmacHandler calls s) ∧
    (returnedBy h runtime Syscall.AddIntcHandler calls s).Nodup ∧
    (returnedBy h runtime Syscall.AddDmacHandler calls s).Nodup := by
  have hI := (returnedBy_AddIntc_aux h runtime calls s hIntcLo hIntcHi).2
  have hD := (returnedBy_AddDmac_aux h runtime calls s hDmacLo hDmacHi).2
  refine ⟨hI, hD, ?_, ?_⟩
  · exact hI.imp (fun hab => ne_of_lt hab)
  · exact hD.imp (fun hab => ne_of_lt hab)


/-- Witness for C1: from the initial state, add, remove id 1, add again returns the ids 1 and
2 on the INTC table, and the two DMAC registrations return 1 and 2. -/
theorem C1_handler_ids_witness :
    returnedBy flatHost none Syscall.AddIntcHandler sampleCalls initialSys = [1, 2] ∧
    returnedBy flatHost none Syscall.AddDmacHandler sampleCalls initialSys = [1, 2] ∧
    List.Pairwise (fun a b => a < b)
      (returnedBy flatHost none Syscall.AddIntcHandler sampleCalls initialSys) ∧
    List.Pairwise (fun a b => a < b)
      (returnedBy flatHost none Syscall.AddDmacHandler sampleCalls initialSys) :=
  ⟨by decide, by decide,
    (C1_handler_ids_strictly_increasing flatHost none sampleCalls initialSys
      (by decide) (by decide) (by decide) (by decide)).1,
    (C1_handler_ids_strictly_increasing flatHost none sampleCalls initialSys
      (by decide) (by decide) (by decide) (by decide)).2.1⟩

/-! ## Enable-mask bits -/

theorem and_shift_eq_zero_iff (m c : Nat) : m &&& (1 <<< c) = 0 ↔ m.testBit c = false := by
  rw [Nat.one_shiftLeft]
  constructor
  · intro h
    have := congrArg (fun x => x.testBit c) h
    simpa [Nat.testBit_and, Nat.testBit_two_pow_self] using this
  · intro h
    apply Nat.eq_of_testBit_eq
    intro i
    simp only [Nat.testBit_and, Nat.zero_testBit, Nat.testBit_two_pow]
    by_cases hi : c = i
    · subst hi; simp [h]
    · simp [hi]

theorem testBit_clear_self (m c : Nat) (hc : c < 32) :
    (m &&& (0xFFFFFFFF ^^^ (1 <<< c))).testBit c = false := by
  rw [Nat.one_shiftLeft]
  simp [Nat.testBit_and, Nat.testBit_xor, Nat.testBit_two_pow_self]
  intro _
  have : (4294967295 : Nat) = 2 ^ 32 - 1 := by norm_num
  rw [this, Nat.testBit_two_pow_sub_one]
  simpa using hc

theorem testBit_clear_other (m c d : Nat) (h : m.testBit c = false) :
    (m &&& (0xFFFFFFFF ^^^ (1 <<< d))).testBit c = false := by
  simp [Nat.testBit_and, h]

theorem testBit_set_other (m c d : Nat) (h : m.testBit c = false) (hd : d ≠ c) :
    (m ||| (1 <<< d)).testBit c = false := by
  rw [Nat.one_shiftLeft]
  simp [Nat.testBit_or, h, Nat.testBit_two_pow, hd]

theorem ensureInterruptWorkerRunning_intcMask (runtime : Option PS2Runtime) (s : Sys) :
    (ensureInterruptWorkerRunning runtime s).g_enabled_intc_mask = s.g_enabled_intc_mask := by
  unfold ensureInterruptWorkerRunning
  cases runtime with
  | none => rfl
  | some rt => dsimp only; split <;> rfl

/-- A syscall other than `EnableIntc(c)` keeps bit `c` of the INTC mask clear. -/
theorem run_keeps_intc_bit_clear (h : Host) (runtime : Option PS2Runtime) (op : Syscall)
    (ctx : R5900Context) (s : Sys) (c : Nat)
    (hop : ¬ (op = Syscall.EnableIntc ∧ getRegU32 ctx 4 = c))
    (hs : s.g_enabled_intc_mask.testBit c = false) :
    (op.run h runtime ctx s).2.g_enabled_intc_mask.testBit c = false := by
  cases op
  case EnableIntc =>
    have hne : getRegU32 ctx 4 ≠ c := fun hEq => hop ⟨rfl, hEq⟩
    simp only [Syscall.run, EnableIntc]
    split
    · exact testBit_set_other _ _ _ hs hne
    · exact hs
  case DisableIntc =>
    simp only [Syscall.run, DisableIntc]
    split
    · exact testBit_clear_other _ _ _ hs
    · exact hs
  case SetVSyncFlag =>
    simp only [Syscall.run, SetVSyncFlag, ensureInterruptWorkerRunning_intcMask]
    exact hs
  case AddIntcHandler =>
    simp only [Syscall.run, AddIntcHandler, ensureInterruptWorkerRunning_intcMask]
    exact hs
  case RemoveIntcHandler =>
    simp only [Syscall.run, RemoveIntcHandler]
    split <;> exact hs
  case RemoveDmacHandler =>
    simp only [Syscall.run, RemoveDmacHandler]
    split <;> exact hs
  case EnableDmac =>
    simp only [Syscall.run, EnableDmac]
    split <;> exact hs
  case DisableDmac =>
    simp only [Syscall.run, DisableDmac]
    split <;> exact hs
  all_goals exact hs

theorem runSyscalls_keeps_intc_bit_clear (h : Host) (runtime : Option PS2Runtime) (c : Nat) :
    ∀ (calls : List (Syscall × R5900Context)) (s : Sys),
      (∀ call ∈ calls, ¬ (call.1 = Syscall.EnableIntc ∧ getRegU32 call.2 4 = c)) →
      s.g_enabled_intc_mask.testBit c = false →
      (runSyscalls h runtime calls s).g_enabled_intc_mask.testBit c = false := by
  intro calls
  induction calls with
  | nil => intro s _ hs; exact hs
  | cons call rest ih =>
    intro s hno hs
    obtain ⟨op, ctx⟩ := call
    simp only [runSyscalls]
    apply ih
    · intro call hcall
      exact hno call (List.mem_cons_of_mem _ hcall)
    · exact run_keeps_intc_bit_clear h runtime op ctx s c (hno (op, ctx) (List.mem_cons_self _ _)) hs

theorem DisableIntc_bit_clear (ctx : R5900Context) (s : Sys) (hc : getRegU32 ctx 4 < 32) :
    (DisableIntc ctx s).2.g_enabled_intc_mask.testBit (getRegU32 ctx 4) = false := by
  simp only [DisableIntc, hc, if_true]
  exact testBit_clear_self _ _ hc

/-! ## Dispatch facts -/

/-- Every effect of the invocation loop is the call of a handler of the snapshot that has a
registered function, made on the context built for it. -/
theorem invokeHandlers_events (h : Host) (rt : PS2Runtime) (cause : Nat) :
    ∀ (handlers : List IrqHandlerInfo) (s : Sys),
      ∀ e ∈ (invokeHandlers h rt cause handlers s).2,
        ∃ info ∈ handlers, rt.hasFunction info.handler = true ∧
          e = Event.invoke cause info (makeIrqContext h cause info) := by
  intro handlers
  induction handlers with
  | nil => intro s e he; simp [invokeHandlers] at he
  | cons info rest ih =>
    intro s e he
    by_cases hf : rt.hasFunction info.handler = true
    · simp only [invokeHandlers, hf, if_true, List.mem_cons] at he
      rcases he with he | he
      · exact ⟨info, List.mem_cons_self _ _, hf, he⟩
      · obtain ⟨i, hi, hfi, hei⟩ := ih _ e he
        exact ⟨i, List.mem_cons_of_mem _ hi, hfi, hei⟩
    · simp only [invokeHandlers, hf, if_false, Bool.false_eq_true] at he
      obtain ⟨i, hi, hfi, hei⟩ := ih _ e he
      exact ⟨i, List.mem_cons_of_mem _ hi, hfi, hei⟩

theorem invokeHandlers_keeps (h : Host) (rt : PS2Runtime) (cause : Nat) (P : Sys → Prop)
    (hP : GuestKeeps (some rt) P) :
    ∀ (handlers : List IrqHandlerInfo) (s : Sys), P s →
      P (invokeHandlers h rt cause handlers s).1 := by
  intro handlers
  induction handlers with
  | nil => intro s hs; exact hs
  | cons info rest ih =>
    intro s hs
    by_cases hf : rt.hasFunction info.handler = true
    · simp only [invokeHandlers, hf, if_true]
      exact ih _ (hP rt rfl info.handler _ s hf hs)
    · simp only [invokeHandlers, hf, if_false, Bool.false_eq_true]
      exact ih _ hs

theorem dispatchIntc_keeps (h : Host) (runtime : Option PS2Runtime) (cause : Nat)
    (P : Sys → Prop) (hP : GuestKeeps runtime P) (s : Sys) (hs : P s) :
    P (dispatchIntcHandlersForCause h runtime cause s).1 := by
  unfold dispatchIntcHandlersForCause
  cases runtime with
  | none => exact hs
  | some rt =>
    dsimp only
    split
    · exact hs
    · exact invokeHandlers_keeps h rt cause P hP _ s hs

/-- With bit `cause` of the INTC mask clear, a dispatch for a cause below 32 does nothing. -/
theorem dispatchIntc_masked (h : Host) (runtime : Option PS2Runtime) (cause : Nat) (s : Sys)
    (hc : cause < 32) (hbit : s.g_enabled_intc_mask.testBit cause = false) :
    dispatchIntcHandlersForCause h runtime cause s = (s, [Event.dispatchIntc cause]) := by
  unfold dispatchIntcHandlersForCause
  cases runtime with
  | none => rfl
  | some rt =>
    dsimp only
    rw [if_pos ⟨hc, (and_shift_eq_zero_iff _ _).mpr hbit⟩]

/-- Every invocation made by a dispatch carries the cause of that dispatch, and is made only
when the cause is not masked. -/
theorem dispatchIntc_invocations (h : Host) (runtime : Option PS2Runtime) (cause : Nat)
    (s : Sys) (c : Nat) (info : IrqHandlerInfo) (ictx : R5900Context)
    (he : Event.invoke c info ictx ∈ (dispatchIntcHandlersForCause h runtime cause s).2) :
    c = cause ∧ ¬ (cause < 32 ∧ s.g_enabled_intc_mask.testBit cause = false) := by
  constructor
  · unfold dispatchIntcHandlersForCause at he
    cases runtime with
    | none => simp at he
    | some rt =>
      dsimp only at he
      split at he
      · simp at he
      · simp only [List.mem_cons] at he
        rcases he with he | he
        · cases he
        · obtain ⟨i, _, _, hei⟩ := invokeHandlers_events h rt cause _ s _ he
          cases hei
          rfl
  · rintro ⟨hc, hbit⟩
    rw [dispatchIntc_masked h runtime cause s hc hbit] at he
    simp at he

/-! ## VSync signalling facts -/

/-- The state left by `signalVSyncFlag`: only the registration, the tick counter and guest
memory are written. -/
theorem signalVSyncFlag_state (h : Host) (tickValue : Nat) (s : Sys) :
    (signalVSyncFlag h tickValue s).1 =
      { s with rdram := (signalVSyncFlag h tickValue s).1.rdram,
               g_vsync_tick_counter := tickValue,
               g_vsync_registration := {} } := rfl

theorem writeGuestU32NoThrow_events (h : Host) (mem : Nat → Nat) (addr value : Nat) :
    ∀ e ∈ (writeGuestU32NoThrow h mem addr value).2, e = Event.writeU32 addr value := by
  intro e he
  unfold writeGuestU32NoThrow at he
  split at he
  · simp at he
  · split at he
    · simp at he
    · simpa using he

theorem writeGuestU64NoThrow_events (h : Host) (mem : Nat → Nat) (addr value : Nat) :
    ∀ e ∈ (writeGuestU64NoThrow h mem addr value).2, e = Event.writeU64 addr value := by
  intro e he
  unfold writeGuestU64NoThrow at he
  split at he
  · simp at he
  · split at he
    · simp at he
    · simpa using he

/-- The effects of `signalVSyncFlag` are guest memory writes only. -/
theorem signalVSyncFlag_events (h : Host) (tickValue : Nat) (s : Sys) :
    ∀ e ∈ (signalVSyncFlag h tickValue s).2,
      e = Event.writeU32 s.g_vsync_registration.flagAddr 1 ∨
      e = Event.writeU64 s.g_vsync_registration.tickAddr tickValue := by
  intro e he
  simp only [signalVSyncFlag, List.mem_append] at he
  rcases he with he | he
  · left
    split at he
    · exact writeGuestU32NoThrow_events _ _ _ _ e he
    · simp at he
  · right
    split at he
    · exact writeGuestU64NoThrow_events _ _ _ _ e he
    · simp at he

theorem signalVSyncFlag_keeps (h : Host) (tickValue : Nat) (s : Sys) (P : Sys → Prop)
    (hP : IgnoresVSync P) (hs : P s) : P (signalVSyncFlag h tickValue s).1 := by
  rw [signalVSyncFlag_state]
  exact hP s _ _ _ hs

theorem deliverVSync_keeps (h : Host) (s : Sys) (P : Sys → Prop)
    (hP : IgnoresVSync P) (hs : P s) : P (deliverVSync h s).1 := by
  unfold deliverVSync
  exact signalVSyncFlag_keeps h _ _ P hP
    (hP s s.rdram ((s.g_vsync_tick_counter + 1) % 2 ^ 64) s.g_vsync_registration hs)

theorem deliverVSync_events (h : Host) (s : Sys) :
    ∀ e ∈ (deliverVSync h s).2,
      e = Event.writeU32 s.g_vsync_registration.flagAddr 1 ∨
      e = Event.writeU64 s.g_vsync_registration.tickAddr
        ((s.g_vsync_tick_counter + 1) % 2 ^ 64) :=
  signalVSyncFlag_events h _ _

/-! ## Poll facts -/

theorem pollVBlankTick_keeps (h : Host) (runtime : Option PS2Runtime) (P : Sys → Prop)
    (hV : IgnoresVSync P) (hG : GuestKeeps runtime P) (s : Sys) (hs : P s) :
    P (pollVBlankTick h runtime s).1 := by
  unfold pollVBlankTick
  dsimp only
  apply dispatchIntc_keeps h runtime _ P hG
  apply dispatchIntc_keeps h runtime _ P hG
  exact deliverVSync_keeps h s P hV hs

theorem pollVBlankLoop_keeps (h : Host) (runtime : Option PS2Runtime) (P : Sys → Prop)
    (hV : IgnoresVSync P) (hG : GuestKeeps runtime P) :
    ∀ (n : Nat) (s : Sys), P s → P (pollVBlankLoop h runtime n s).1 := by
  intro n
  induction n with
  | zero => intro s hs; exact hs
  | succ n ih =>
    intro s hs
    simp only [pollVBlankLoop]
    exact ih _ (pollVBlankTick_keeps h runtime P hV hG s hs)

/-- An invocation made in one tick round is made by the dispatch of its own cause, in a state
where that cause is not masked; `P` is any property kept by the guest functions. -/
theorem pollVBlankTick_invocation (h : Host) (runtime : Option PS2Runtime) (c : Nat)
    (hc : c < 32)
    (hG : GuestKeeps runtime (fun s => s.g_enabled_intc_mask.testBit c = false))
    (s : Sys) (hs : s.g_enabled_intc_mask.testBit c = false)
    (info : IrqHandlerInfo) (ictx : R5900Context) :
    Event.invoke c info ictx ∉ (pollVBlankTick h runtime s).2 := by
  intro he
  have hV : IgnoresVSync (fun s => s.g_enabled_intc_mask.testBit c = false) :=
    fun _ _ _ _ hs => hs
  simp only [pollVBlankTick, List.mem_append] at he
  have h1 : (fun t : Sys => t.g_enabled_intc_mask.testBit c = false) (deliverVSync h s).1 :=
    deliverVSync_keeps h s _ hV hs
  rcases he with (he | he) | he
  · rcases deliverVSync_events h _ _ he with he | he <;> cases he
  · obtain ⟨hcc, hm⟩ := dispatchIntc_invocations h runtime _ _ c info ictx he
    exact hm ⟨hcc ▸ hc, hcc ▸ h1⟩
  · obtain ⟨hcc, hm⟩ := dispatchIntc_invocations h runtime _ _ c info ictx he
    have h2 := dispatchIntc_keeps h runtime kIntcVblankStart _ hG _ h1
    exact hm ⟨hcc ▸ hc, hcc ▸ h2⟩

theorem pollVBlankLoop_invocation (h : Host) (runtime : Option PS2Runtime) (c : Nat)
    (hc : c < 32)
    (hG : GuestKeeps runtime (fun s => s.g_enabled_intc_mask.testBit c = false))
    (info : IrqHandlerInfo) (ictx : R5900Context) :
    ∀ (n : Nat) (s : Sys), s.g_enabled_intc_mask.testBit c = false →
      Event.invoke c info ictx ∉ (pollVBlankLoop h runtime n s).2 := by
  intro n
  induction n with
  | zero => intro s _ he; simp [pollVBlankLoop] at he
  | succ n ih =>
    intro s hs he
    simp only [pollVBlankLoop, List.mem_append] at he
    rcases he with he | he
    · exact pollVBlankTick_invocation h runtime c hc hG s hs info ictx he
    · exact ih _ (pollVBlankTick_keeps h runtime _ (fun _ _ _ _ hs => hs) hG s hs) he

theorem pollVBlankInline_invocation (h : Host) (runtime : Option PS2Runtime) (c : Nat)
    (hc : c < 32)
    (hG : GuestKeeps runtime (fun s => s.g_enabled_intc_mask.testBit c = false))
    (info : IrqHandlerInfo) (ictx : R5900Context) (s : Sys)
    (hs : s.g_enabled_intc_mask.testBit c = false) :
    Event.invoke c info ictx ∉ (pollVBlankInline h runtime s).2 := by
  unfold pollVBlankInline
  dsimp only
  split
  · simp
  · exact pollVBlankLoop_invocation h runtime c hc hG info ictx _ _ hs

/-- C2 (mask gating). Let `c < 32` and let `DisableIntc(c)` run in any state, followed by any
sequence of syscalls none of which is `EnableIntc(c)`. In the state reached,
`dispatchIntcHandlersForCause(c)` invokes no handler and changes nothing, whatever the table
holds and whatever the enabled flags of its handlers are; and whatever the pending-tick count
is, `pollVBlankInline` makes no invocation for cause `c` (in particular none for cause 2 after
`DisableIntc(2)` and none for cause 3 after `DisableIntc(3)`), as long as the guest functions
it runs do not set bit `c` of the mask again. -/
theorem C2_mask_gating (h : Host) (runtime : Option PS2Runtime) (ctx : R5900Context) (s : Sys)
    (calls : List (Syscall × R5900Context))
    (hc : getRegU32 ctx 4 < 32)
    (hno : ∀ call ∈ calls,
      ¬ (call.1 = Syscall.EnableIntc ∧ getRegU32 call.2 4 = getRegU32 ctx 4)) :
    dispatchIntcHandlersForCause h runtime (getRegU32 ctx 4)
        (runSyscalls h runtime calls (DisableIntc ctx s).2)
      = (runSyscalls h runtime calls (DisableIntc ctx s).2,
          [Event.dispatchIntc (getRegU32 ctx 4)]) ∧
    (GuestKeeps runtime (fun t => t.g_enabled_intc_mask.testBit (getRegU32 ctx 4) = false) →
      ∀ (pending : Int) (info : IrqHandlerInfo) (ictx : R5900Context),
        Event.invoke (getRegU32 ctx 4) info ictx ∉
          (pollVBlankInline h runtime
            { runSyscalls h runtime calls (DisableIntc ctx s).2 with
              g_vblank_pending := pending }).2) := by
  have hbit := runSyscalls_keeps_intc_bit_clear h runtime (getRegU32 ctx 4) calls
    (DisableIntc ctx s).2 hno (DisableIntc_bit_clear ctx s hc)
  refine ⟨dispatchIntc_masked h runtime _ _ hc hbit, ?_⟩
  intro hG pending info ictx
  exact pollVBlankInline_invocation h runtime _ hc hG info ictx _ hbit

/-- Witness for C2: from the initial state, `DisableIntc(2)` followed by the sample sequence
(which registers a cause-2 handler); the dispatch for cause 2 then does nothing. -/
theorem C2_mask_gating_witness :
    getRegU32 (argContext 2 0 0 0) 4 < 32 ∧
    dispatchIntcHandlersForCause flatHost (some stubRuntime) (getRegU32 (argContext 2 0 0 0) 4)
        (runSyscalls flatHost (some stubRuntime) sampleCalls
          (DisableIntc (argContext 2 0 0 0) initialSys).2)
      = (runSyscalls flatHost (some stubRuntime) sampleCalls
          (DisableIntc (argContext 2 0 0 0) initialSys).2,
          [Event.dispatchIntc (getRegU32 (argContext 2 0 0 0) 4)]) :=
  ⟨by decide,
    (C2_mask_gating flatHost (some stubRuntime) (argContext 2 0 0 0) initialSys sampleCalls
      (by decide) (by decide)).1⟩

/-! ## One-shot VSync registration -/

theorem stubRuntime_keeps (P : Sys → Prop)
    (hP : ∀ (s : Sys) (mem : Nat → Nat), P s → P { s with rdram := mem }) :
    GuestKeeps (some stubRuntime) P := by
  intro rt hrt addr ctx s _ hs
  cases hrt
  exact hP s _ hs

/-- With a cleared registration `signalVSyncFlag` writes nothing. -/
theorem signalVSyncFlag_cleared (h : Host) (tickValue : Nat) (s : Sys)
    (hreg : s.g_vsync_registration = {}) :
    (signalVSyncFlag h tickValue s).2 = [] ∧ (signalVSyncFlag h tickValue s).1.rdram = s.rdram := by
  simp [signalVSyncFlag, hreg]

theorem ensureInterruptWorkerRunning_registration (runtime : Option PS2Runtime) (s : Sys) :
    (ensureInterruptWorkerRunning runtime s).g_vsync_registration = s.g_vsync_registration := by
  unfold ensureInterruptWorkerRunning
  cases runtime with
  | none => rfl
  | some rt => dsimp only; split <;> rfl

/-- A syscall other than `SetVSyncFlag` leaves the VSync registration alone. -/
theorem run_registration (h : Host) (runtime : Option PS2Runtime) (op : Syscall)
    (ctx : R5900Context) (s : Sys) (hop : op ≠ Syscall.SetVSyncFlag) :
    (op.run h runtime ctx s).2.g_vsync_registration = s.g_vsync_registration := by
  cases op <;>
    first
    | exact absurd rfl hop
    | (simp only [Syscall.run, EnableIntc, DisableIntc, AddIntcHandler, RemoveIntcHandler,
        AddDmacHandler, RemoveDmacHandler, EnableIntcHandler, DisableIntcHandler,
        EnableDmacHandler, DisableDmacHandler, EnableDmac, DisableDmac,
        ensureInterruptWorkerRunning_registration]
       try split
       all_goals rfl)

theorem runSyscalls_registration (h : Host) (runtime : Option PS2Runtime) :
    ∀ (calls : List (Syscall × R5900Context)) (s : Sys),
      (∀ call ∈ calls, call.1 ≠ Syscall.SetVSyncFlag) →
      (runSyscalls h runtime calls s).g_vsync_registration = s.g_vsync_registration := by
  intro calls
  induction calls with
  | nil => intro s _; rfl
  | cons call rest ih =>
    intro s hno
    obtain ⟨op, ctx⟩ := call
    simp only [runSyscalls]
    rw [ih _ (fun call hcall => hno call (List.mem_cons_of_mem _ hcall))]
    exact run_registration h runtime op ctx s (hno (op, ctx) (List.mem_cons_self _ _))

theorem invokeHandlers_no_write (h : Host) (rt : PS2Runtime) (cause : Nat)
    (handlers : List IrqHandlerInfo) (s : Sys) :
    ∀ e ∈ (invokeHandlers h rt cause handlers s).2, e.isWrite = false := by
  intro e he
  obtain ⟨i, _, _, hei⟩ := invokeHandlers_events h rt cause handlers s e he
  rw [hei]
  rfl

theorem dispatchIntc_no_write (h : Host) (runtime : Option PS2Runtime) (cause : Nat) (s : Sys) :
    ∀ e ∈ (dispatchIntcHandlersForCause h runtime cause s).2, e.isWrite = false := by
  intro e he
  unfold dispatchIntcHandlersForCause at he
  cases runtime with
  | none => simp at he; rw [he]; rfl
  | some rt =>
    dsimp only at he
    split at he
    · simp at he; rw [he]; rfl
    · rcases List.mem_cons.mp he with he | he
      · rw [he]; rfl
      · exact invokeHandlers_no_write h rt cause _ s e he

/-- A tick round leaves the registration cleared when the guest functions it runs do not
register again. -/
theorem pollVBlankTick_registration (h : Host) (runtime : Option PS2Runtime)
    (hG : GuestKeeps runtime (fun t => t.g_vsync_registration = {})) (s : Sys) :
    (pollVBlankTick h runtime s).1.g_vsync_registration = {} := by
  unfold pollVBlankTick
  dsimp only
  apply dispatchIntc_keeps h runtime _ (fun t => t.g_vsync_registration = {}) hG
  apply dispatchIntc_keeps h runtime _ (fun t => t.g_vsync_registration = {}) hG
  rfl

/-- From a state with a cleared registration, and with guest functions that do not register
again, no tick of the poll loop writes guest memory for the VSync signalling. -/
theorem pollVBlankLoop_no_write (h : Host) (runtime : Option PS2Runtime)
    (hG : GuestKeeps runtime (fun t => t.g_vsync_registration = {})) :
    ∀ (n : Nat) (s : Sys), s.g_vsync_registration = {} →
      ∀ e ∈ (pollVBlankLoop h runtime n s).2, e.isWrite = false := by
  intro n
  induction n with
  | zero => intro s _ e he; simp [pollVBlankLoop] at he
  | succ n ih =>
    intro s hs e he
    simp only [pollVBlankLoop, List.mem_append] at he
    rcases he with he | he
    · simp only [pollVBlankTick, List.mem_append] at he
      rcases he with (he | he) | he
      · have hw := (signalVSyncFlag_cleared h ((s.g_vsync_tick_counter + 1) % 2 ^ 64)
          { s with g_vsync_tick_counter := (s.g_vsync_tick_counter + 1) % 2 ^ 64 } hs).1
        unfold deliverVSync at he
        rw [hw] at he
        simp at he
      · exact dispatchIntc_no_write h runtime _ _ e he
      · exact dispatchIntc_no_write h runtime _ _ e he
    · exact ih _ (pollVBlankTick_registration h runtime hG s) e he

theorem pollVBlankInline_no_write (h : Host) (runtime : Option PS2Runtime)
    (hG : GuestKeeps runtime (fun t => t.g_vsync_registration = {}))
    (s : Sys) (hs : s.g_vsync_registration = {}) :
    ∀ e ∈ (pollVBlankInline h runtime s).2, e.isWrite = false := by
  unfold pollVBlankInline
  dsimp only
  split
  · simp
  · exact pollVBlankLoop_no_write h runtime hG _ _ hs

/-- C3 (one-shot VSync). (1) Whatever the registration was, after the VSync signalling of a
delivered tick the registration is `(flagAddr = 0, tickAddr = 0)`. (2) In any state with that
cleared registration, the VSync signalling of a tick performs no guest write and leaves guest
memory as it is. (3) Hence, when neither a guest function nor a syscall in between registers
again (no `SetVSyncFlag`), the registration is still cleared after the whole tick round, and
every further tick, be it a later round of the same poll or a round of a later poll after any
other syscalls, performs no VSync write at all: neither the former `flagAddr` nor the former
`tickAddr` is written. -/
theorem C3_one_shot_vsync (h : Host) (runtime : Option PS2Runtime) (s : Sys) (tickValue : Nat) :
    (signalVSyncFlag h tickValue s).1.g_vsync_registration = { flagAddr := 0, tickAddr := 0 } ∧
    (∀ (t : Sys) (tick : Nat), t.g_vsync_registration = { flagAddr := 0, tickAddr := 0 } →
      (signalVSyncFlag h tick t).2 = [] ∧ (signalVSyncFlag h tick t).1.rdram = t.rdram) ∧
    (GuestKeeps runtime (fun t => t.g_vsync_registration = {}) →
      (pollVBlankTick h runtime s).1.g_vsync_registration = { flagAddr := 0, tickAddr := 0 } ∧
      (∀ (n : Nat), ∀ e ∈ (pollVBlankLoop h runtime n (pollVBlankTick h runtime s).1).2,
        e.isWrite = false) ∧
      (∀ (calls : List (Syscall × R5900Context)) (pending : Int),
        (∀ call ∈ calls, call.1 ≠ Syscall.SetVSyncFlag) →
        ∀ e ∈ (pollVBlankInline h runtime
            { runSyscalls h runtime calls (pollVBlankTick h runtime s).1 with
              g_vblank_pending := pending }).2,
          e.isWrite = false)) := by
  refine ⟨rfl, fun t tick ht => signalVSyncFlag_cleared h tick t ht, ?_⟩
  intro hG
  have hreg := pollVBlankTick_registration h runtime hG s
  refine ⟨hreg, fun n => pollVBlankLoop_no_write h runtime hG n _ hreg, ?_⟩
  intro calls pending hno
  apply pollVBlankInline_no_write h runtime hG
  show (runSyscalls h runtime calls (pollVBlankTick h runtime s).1).g_vsync_registration = {}
  rw [runSyscalls_registration h runtime calls _ hno]
  exact hreg

/-! ## Tick counter -/

/-- Reading back `n` bytes from memory that holds the little-endian bytes of `value`. -/
theorem loadBytes_of_bytes (mem : Nat → Nat) :
    ∀ (n src value : Nat),
      (∀ a, src ≤ a → a < src + n → mem a = value / 256 ^ (a - src) % 256) →
      loadBytes mem src n = value % 256 ^ n := by
  intro n
  induction n with
  | zero => intro src value _; simp [loadBytes, Nat.mod_one]
  | succ n ih =>
    intro src value hmem
    have h0 : mem src = value % 256 := by
      have := hmem src (Nat.le_refl _) (by omega)
      simpa using this
    have hrest : loadBytes mem (src + 1) n = value / 256 % 256 ^ n := by
      apply ih
      intro a ha1 ha2
      have := hmem a (by omega) (by omega)
      rw [this]
      have hsub : a - src = (a - (src + 1)) + 1 := by omega
      rw [hsub, pow_succ, Nat.mul_comm, ← Nat.div_div_eq_div_mul]
    simp only [loadBytes, h0, hrest]
    rw [pow_succ, Nat.mul_comm (256 ^ n) 256, Nat.mod_mul]

theorem loadBytes_storeBytes (mem : Nat → Nat) (dst n value : Nat) :
    loadBytes (storeBytes mem dst n value) dst n = value % 256 ^ n := by
  apply loadBytes_of_bytes
  intro a ha1 ha2
  simp [storeBytes, ha1, ha2]

/-- The counter after the VSync half of a tick, and the writes it makes. -/
theorem deliverVSync_counter (h : Host) (s : Sys) :
    (deliverVSync h s).1.g_vsync_tick_counter = (s.g_vsync_tick_counter + 1) % 2 ^ 64 := rfl

theorem deliverVSync_tick_written (h : Host) (s : Sys) (dst : Nat)
    (hreg : s.g_vsync_registration.tickAddr ≠ 0)
    (hmap : h.getMemPtr s.g_vsync_registration.tickAddr = some dst) :
    Event.writeU64 s.g_vsync_registration.tickAddr ((s.g_vsync_tick_counter + 1) % 2 ^ 64)
      ∈ (deliverVSync h s).2 ∧
    readGuestU64 h (deliverVSync h s).1.rdram s.g_vsync_registration.tickAddr
      = (s.g_vsync_tick_counter + 1) % 2 ^ 64 := by
  constructor
  · simp [deliverVSync, signalVSyncFlag, writeGuestU64NoThrow, hreg, hmap]
  · simp only [deliverVSync, signalVSyncFlag, writeGuestU64NoThrow, hreg, hmap, readGuestU64,
      ne_eq, not_false_eq_true, if_true, if_false]
    rw [loadBytes_storeBytes]
    have : (256 : Nat) ^ 8 = 2 ^ 64 := by norm_num
    rw [this, Nat.mod_mod]

theorem deliverVSync_flag_written (h : Host) (s : Sys) (dst : Nat)
    (hreg : s.g_vsync_registration.flagAddr ≠ 0)
    (hmap : h.getMemPtr s.g_vsync_registration.flagAddr = some dst) :
    Event.writeU32 s.g_vsync_registration.flagAddr 1 ∈ (deliverVSync h s).2 := by
  simp [deliverVSync, signalVSyncFlag, writeGuestU32NoThrow, hreg, hmap]

theorem pollVBlankTick_counter (h : Host) (runtime : Option PS2Runtime)
    (hG : ∀ k, GuestKeeps runtime (fun t => t.g_vsync_tick_counter = k)) (s : Sys) :
    (pollVBlankTick h runtime s).1.g_vsync_tick_counter
      = (s.g_vsync_tick_counter + 1) % 2 ^ 64 := by
  unfold pollVBlankTick
  dsimp only
  apply dispatchIntc_keeps h runtime _ (fun t => t.g_vsync_tick_counter = _) (hG _)
  apply dispatchIntc_keeps h runtime _ (fun t => t.g_vsync_tick_counter = _) (hG _)
  exact deliverVSync_counter h s

theorem pollVBlankLoop_counter (h : Host) (runtime : Option PS2Runtime)
    (hG : ∀ k, GuestKeeps runtime (fun t => t.g_vsync_tick_counter = k)) :
    ∀ (n : Nat) (s : Sys), s.g_vsync_tick_counter < 2 ^ 64 →
      (pollVBlankLoop h runtime n s).1.g_vsync_tick_counter
        = (s.g_vsync_tick_counter + n) % 2 ^ 64 := by
  intro n
  induction n with
  | zero =>
    intro s hs
    simp only [pollVBlankLoop, Nat.add_zero]
    exact (Nat.mod_eq_of_lt hs).symm
  | succ n ih =>
    intro s hs
    simp only [pollVBlankLoop]
    have h1 := pollVBlankTick_counter h runtime hG s
    rw [ih _ (by rw [h1]; exact Nat.mod_lt _ (by norm_num)), h1]
    omega

/-- C4 (tick counter monotonicity). The VSync half of a delivered tick, that is the increment
in `pollVBlankInline` followed by the re-assignment in `signalVSyncFlag`, leaves the counter at
its old value plus 1 modulo 2^64 (counted once). Its only writes are the word 1 to the
registered `flagAddr` and the incremented counter to the registered `tickAddr`; when these
addresses are non-zero and mapped the writes do take place, and the guest `u64` at `tickAddr`
then reads as the incremented counter. When the guest functions leave the counter alone, a
whole tick round adds 1 and `n` rounds add `n` (modulo 2^64). Scenario S1: the guest `u32` at
`0x100` is 1, the guest `u64` at `0x200` is 1, the counter is 1, the registration is cleared. -/
theorem C4_tick_counter (h : Host) (runtime : Option PS2Runtime) (s : Sys) :
    (deliverVSync h s).1.g_vsync_tick_counter = (s.g_vsync_tick_counter + 1) % 2 ^ 64 ∧
    (∀ e ∈ (deliverVSync h s).2,
      e = Event.writeU32 s.g_vsync_registration.flagAddr 1 ∨
      e = Event.writeU64 s.g_vsync_registration.tickAddr
        ((s.g_vsync_tick_counter + 1) % 2 ^ 64)) ∧
    (∀ dst, s.g_vsync_registration.flagAddr ≠ 0 →
      h.getMemPtr s.g_vsync_registration.flagAddr = some dst →
      Event.writeU32 s.g_vsync_registration.flagAddr 1 ∈ (deliverVSync h s).2) ∧
    (∀ dst, s.g_vsync_registration.tickAddr ≠ 0 →
      h.getMemPtr s.g_vsync_registration.tickAddr = some dst →
      Event.writeU64 s.g_vsync_registration.tickAddr ((s.g_vsync_tick_counter + 1) % 2 ^ 64)
        ∈ (deliverVSync h s).2 ∧
      readGuestU64 h (deliverVSync h s).1.rdram s.g_vsync_registration.tickAddr
        = (s.g_vsync_tick_counter + 1) % 2 ^ 64) ∧
    ((∀ k, GuestKeeps runtime (fun t => t.g_vsync_tick_counter = k)) →
      (pollVBlankTick h runtime s).1.g_vsync_tick_counter
        = (s.g_vsync_tick_counter + 1) % 2 ^ 64 ∧
      (s.g_vsync_tick_counter < 2 ^ 64 → ∀ n : Nat,
        (pollVBlankLoop h runtime n s).1.g_vsync_tick_counter
          = (s.g_vsync_tick_counter + n) % 2 ^ 64)) ∧
    (readGuestU32 flatHost scenarioS1.1.rdram 0x100 = 1 ∧
      readGuestU64 flatHost scenarioS1.1.rdram 0x200 = 1 ∧
      scenarioS1.1.g_vsync_tick_counter = 1 ∧
      scenarioS1.1.g_vsync_registration = { flagAddr := 0, tickAddr := 0 }) := by
  refine ⟨rfl, deliverVSync_events h s, ?_, ?_, ?_, ?_⟩
  · intro dst hreg hmap
    exact deliverVSync_flag_written h s dst hreg hmap
  · intro dst hreg hmap
    exact deliverVSync_tick_written h s dst hreg hmap
  · intro hG
    exact ⟨pollVBlankTick_counter h runtime hG s,
      fun hs n => pollVBlankLoop_counter h runtime hG n s hs⟩
  · refine ⟨by decide, by decide, by decide, by decide⟩

/-! ## Invocation lists -/

theorem invocations_append (a b : List Event) :
    invocations (a ++ b) = invocations a ++ invocations b := by
  induction a with
  | nil => rfl
  | cons e rest ih => cases e <;> simp [invocations, ih]

theorem dispatchCalls_append (a b : List Event) :
    dispatchCalls (a ++ b) = dispatchCalls a ++ dispatchCalls b := by
  induction a with
  | nil => rfl
  | cons e rest ih => cases e <;> simp [dispatchCalls, ih]

/-- The invocation loop calls exactly the snapshot handlers with a registered function, in
snapshot order, whatever the guest functions do to the state. -/
theorem invokeHandlers_invocations (h : Host) (rt : PS2Runtime) (cause : Nat) :
    ∀ (handlers : List IrqHandlerInfo) (s : Sys),
      invocations (invokeHandlers h rt cause handlers s).2
        = (handlers.filter (fun info => rt.hasFunction info.handler)).map
            (fun info => (cause, info)) := by
  intro handlers
  induction handlers with
  | nil => intro s; rfl
  | cons info rest ih =>
    intro s
    by_cases hf : rt.hasFunction info.handler = true
    · simp only [invokeHandlers, hf, if_true, invocations, List.filter_cons, List.map_cons]
      rw [ih]
    · simp only [invokeHandlers, hf, if_false, Bool.false_eq_true, List.filter_cons]
      rw [ih]

theorem invokeHandlers_dispatchCalls (h : Host) (rt : PS2Runtime) (cause : Nat) :
    ∀ (handlers : List IrqHandlerInfo) (s : Sys),
      dispatchCalls (invokeHandlers h rt cause handlers s).2 = [] := by
  intro handlers
  induction handlers with
  | nil => intro s; rfl
  | cons info rest ih =>
    intro s
    by_cases hf : rt.hasFunction info.handler = true
    · simp only [invokeHandlers, hf, if_true, dispatchCalls]
      rw [ih]
    · simp only [invokeHandlers, hf, if_false, Bool.false_eq_true]
      rw [ih]

/-- The invocations of a dispatch are the selected handlers of the table and mask it starts
from. -/
theorem dispatchIntc_selected (h : Host) (runtime : Option PS2Runtime) (cause : Nat) (s : Sys) :
    invocations (dispatchIntcHandlersForCause h runtime cause s).2
      = (selectedHandlers runtime s.g_intcHandlers s.g_enabled_intc_mask cause).map
          (fun info => (cause, info)) := by
  unfold dispatchIntcHandlersForCause selectedHandlers
  cases runtime with
  | none => rfl
  | some rt =>
    dsimp only
    split
    · rfl
    · simp only [invocations]
      exact invokeHandlers_invocations h rt cause _ s

theorem dispatchIntc_dispatchCalls (h : Host) (runtime : Option PS2Runtime) (cause : Nat)
    (s : Sys) :
    dispatchCalls (dispatchIntcHandlersForCause h runtime cause s).2 = [cause] := by
  unfold dispatchIntcHandlersForCause
  cases runtime with
  | none => rfl
  | some rt =>
    dsimp only
    split
    · rfl
    · simp only [dispatchCalls]
      rw [invokeHandlers_dispatchCalls]

theorem deliverVSync_invocations (h : Host) (s : Sys) :
    invocations (deliverVSync h s).2 = [] ∧ dispatchCalls (deliverVSync h s).2 = [] := by
  have key : ∀ l : List Event, (∀ e ∈ l, e.isWrite = true) →
      invocations l = [] ∧ dispatchCalls l = [] := by
    intro l
    induction l with
    | nil => intro _; exact ⟨rfl, rfl⟩
    | cons e rest ih =>
      intro hl
      have he := hl e (List.mem_cons_self _ _)
      have hr := ih (fun x hx => hl x (List.mem_cons_of_mem _ hx))
      cases e <;> simp [Event.isWrite] at he <;> simp [invocations, dispatchCalls, hr]
  apply key
  intro e he
  rcases deliverVSync_events h s e he with he | he <;> rw [he] <;> rfl

theorem pollVBlankTick_dispatchCalls (h : Host) (runtime : Option PS2Runtime) (s : Sys) :
    dispatchCalls (pollVBlankTick h runtime s).2 = [kIntcVblankStart, kIntcVblankEnd] := by
  simp only [pollVBlankTick, dispatchCalls_append, dispatchIntc_dispatchCalls,
    (deliverVSync_invocations h s).2]
  rfl

theorem pollVBlankLoop_dispatchCalls (h : Host) (runtime : Option PS2Runtime) :
    ∀ (n : Nat) (s : Sys),
      dispatchCalls (pollVBlankLoop h runtime n s).2
        = (List.replicate n [kIntcVblankStart, kIntcVblankEnd]).flatten := by
  intro n
  induction n with
  | zero => intro s; rfl
  | succ n ih =>
    intro s
    simp only [pollVBlankLoop, dispatchCalls_append, pollVBlankTick_dispatchCalls, ih,
      List.replicate_succ, List.flatten_cons]

/-- One tick round over a table and mask that the guest functions leave alone. -/
theorem pollVBlankTick_invocations (h : Host) (runtime : Option PS2Runtime)
    (table : HandlerTable) (mask : Nat)
    (hG : GuestKeeps runtime
      (fun t => t.g_intcHandlers = table ∧ t.g_enabled_intc_mask = mask))
    (s : Sys) (hs : s.g_intcHandlers = table ∧ s.g_enabled_intc_mask = mask) :
    invocations (pollVBlankTick h runtime s).2 = roundInvocations runtime table mask := by
  have hV : IgnoresVSync (fun t => t.g_intcHandlers = table ∧ t.g_enabled_intc_mask = mask) :=
    fun _ _ _ _ ht => ht
  have h1 := deliverVSync_keeps h s _ hV hs
  have h2 := dispatchIntc_keeps h runtime kIntcVblankStart _ hG _ h1
  simp only [pollVBlankTick, invocations_append, dispatchIntc_selected,
    (deliverVSync_invocations h s).1, List.nil_append, roundInvocations]
  rw [h1.1, h1.2, h2.1, h2.2]

theorem pollVBlankLoop_invocations (h : Host) (runtime : Option PS2Runtime)
    (table : HandlerTable) (mask : Nat)
    (hG : GuestKeeps runtime
      (fun t => t.g_intcHandlers = table ∧ t.g_enabled_intc_mask = mask)) :
    ∀ (n : Nat) (s : Sys), s.g_intcHandlers = table ∧ s.g_enabled_intc_mask = mask →
      invocations (pollVBlankLoop h runtime n s).2
        = (List.replicate n (roundInvocations runtime table mask)).flatten := by
  intro n
  induction n with
  | zero => intro s _; rfl
  | succ n ih =>
    intro s hs
    have hV : IgnoresVSync
        (fun t => t.g_intcHandlers = table ∧ t.g_enabled_intc_mask = mask) :=
      fun _ _ _ _ ht => ht
    simp only [pollVBlankLoop, invocations_append, List.replicate_succ, List.flatten_cons]
    rw [pollVBlankTick_invocations h runtime table mask hG s hs,
      ih _ (pollVBlankTick_keeps h runtime _ hV hG s hs)]

/-! ## Catch-up cap -/

theorem pollVBlankInline_eq_loop (h : Host) (runtime : Option PS2Runtime) (s : Sys) :
    pollVBlankInline h runtime s
      = pollVBlankLoop h runtime (min (max s.g_vblank_pending 0) 4).toNat
          { s with g_vblank_pending := 0 } := by
  unfold pollVBlankInline
  dsimp only
  by_cases hp : s.g_vblank_pending ≤ 0
  · rw [if_pos hp]
    have : (min (max s.g_vblank_pending 0) 4).toNat = 0 := by omega
    rw [this]
    rfl
  · rw [if_neg hp]
    congr 1
    simp only [kMaxCatchupTicks]
    split <;> omega

/-- C5 (catch-up cap). For every value `p` of the pending counter, one `pollVBlankInline` call
exchanges the counter for 0 and then runs exactly `min(max(p, 0), 4)` tick rounds, which is at
most `kMaxCatchupTicks = 4`; each round calls the dispatch for cause 2 once and then the
dispatch for cause 3 once. With `p <= 0` nothing but the exchange happens and nothing is
invoked. The counter is still 0 at the end when the guest functions leave it alone, so ticks
beyond 4 are dropped. With `p >= 4` and guest functions that leave the INTC table and mask
alone, the invocations of the call are four times those of one round: every handler selected
for cause 2 and for cause 3 runs once in each of the 4 rounds. -/
theorem C5_catch_up_cap (h : Host) (runtime : Option PS2Runtime) (s : Sys) :
    pollVBlankInline h runtime s
      = pollVBlankLoop h runtime (min (max s.g_vblank_pending 0) 4).toNat
          { s with g_vblank_pending := 0 } ∧
    (min (max s.g_vblank_pending 0) 4).toNat ≤ 4 ∧
    dispatchCalls (pollVBlankInline h runtime s).2
      = (List.replicate (min (max s.g_vblank_pending 0) 4).toNat [2, 3]).flatten ∧
    (s.g_vblank_pending ≤ 0 →
      pollVBlankInline h runtime s = ({ s with g_vblank_pending := 0 }, [])) ∧
    (GuestKeeps runtime (fun t => t.g_vblank_pending = 0) →
      (pollVBlankInline h runtime s).1.g_vblank_pending = 0) ∧
    (4 ≤ s.g_vblank_pending →
      GuestKeeps runtime (fun t => t.g_intcHandlers = s.g_intcHandlers ∧
        t.g_enabled_intc_mask = s.g_enabled_intc_mask) →
      invocations (pollVBlankInline h runtime s).2
        = (List.replicate 4
            (roundInvocations runtime s.g_intcHandlers s.g_enabled_intc_mask)).flatten ∧
      ∀ c info, List.count (c, info) (invocations (pollVBlankInline h runtime s).2)
        = 4 * List.count (c, info)
            (roundInvocations runtime s.g_intcHandlers s.g_enabled_intc_mask)) := by
  have heq := pollVBlankInline_eq_loop h runtime s
  refine ⟨heq, by omega, ?_, ?_, ?_, ?_⟩
  · rw [heq, pollVBlankLoop_dispatchCalls]
    rfl
  · intro hp
    rw [heq]
    have : (min (max s.g_vblank_pending 0) 4).toNat = 0 := by omega
    rw [this]
    rfl
  · intro hG
    rw [heq]
    exact pollVBlankLoop_keeps h runtime (fun t => t.g_vblank_pending = 0)
      (fun _ _ _ _ ht => ht) hG _ _ rfl
  · intro hp hG
    have hn : (min (max s.g_vblank_pending 0) 4).toNat = 4 := by omega
    have hinv : invocations (pollVBlankInline h runtime s).2
        = (List.replicate 4
            (roundInvocations runtime s.g_intcHandlers s.g_enabled_intc_mask)).flatten := by
      rw [heq, hn]
      exact pollVBlankLoop_invocations h runtime _ _ hG 4 _ ⟨rfl, rfl⟩
    refine ⟨hinv, ?_⟩
    intro c info
    rw [hinv]
    simp only [List.replicate, List.flatten_cons, List.flatten_nil, List.append_nil,
      List.count_append]
    omega

/-- Scenario S5 for C5: with seven ticks pending, the stub handlers for cause 2 and cause 3 run
exactly 4 times each, cause 2 before cause 3 in every round, and no tick is left pending. -/
theorem C5_catch_up_cap_witness :
    invocations scenarioS5.2
      = [ (2, { cause := 2, handler := 0xDEAD, arg := 0x42 }),
          (3, { cause := 3, handler := 0xCAFE, arg := 7 }),
          (2, { cause := 2, handler := 0xDEAD, arg := 0x42 }),
          (3, { cause := 3, handler := 0xCAFE, arg := 7 }),
          (2, { cause := 2, handler := 0xDEAD, arg := 0x42 }),
          (3, { cause := 3, handler := 0xCAFE, arg := 7 }),
          (2, { cause := 2, handler := 0xDEAD, arg := 0x42 }),
          (3, { cause := 3, handler := 0xCAFE, arg := 7 }) ] ∧
    dispatchCalls scenarioS5.2 = [2, 3, 2, 3, 2, 3, 2, 3] ∧
    scenarioS5.1.g_vblank_pending = 0 :=
  ⟨by decide,
    (C5_catch_up_cap flatHost (some stubRuntime)
      { (AddIntcHandler (some stubRuntime) (argContext 3 0xCAFE 7 0)
          (AddIntcHandler (some stubRuntime) (argContext 2 0xDEAD 0x42 0) initialSys).2).2 with
        g_vblank_pending := 7 }).2.2.1,
    by decide⟩

/-! ## Handler tables -/

theorem HandlerTable.mem_assign (t : HandlerTable) (id : Int) (info : IrqHandlerInfo)
    (e : Int × IrqHandlerInfo) (hs : t.Sorted) :
    e ∈ t.assign id info ↔ e = (id, info) ∨ (e ∈ t ∧ e.1 ≠ id) := by
  induction t with
  | nil => simp [HandlerTable.assign]
  | cons kv rest ih =>
    obtain ⟨k, v⟩ := kv
    have hs' : HandlerTable.Sorted rest := (List.pairwise_cons.mp hs).2
    have hk : ∀ x ∈ rest, k < x.1 := by
      intro x hx
      exact (List.pairwise_cons.mp hs).1 x.1 (List.mem_map_of_mem _ hx)
    simp only [HandlerTable.assign]
    split
    · rename_i hlt
      simp only [List.mem_cons]
      constructor
      · rintro (he | he | he)
        · exact Or.inl he
        · right
          exact ⟨Or.inl he, by rw [he]; exact ne_of_gt hlt⟩
        · right
          have := hk e he
          exact ⟨Or.inr he, by omega⟩
      · rintro (he | ⟨he | he, _⟩)
        · exact Or.inl he
        · exact Or.inr (Or.inl he)
        · exact Or.inr (Or.inr he)
    · split
      · rename_i _ heq
        subst heq
        simp only [List.mem_cons]
        constructor
        · rintro (he | he)
          · exact Or.inl he
          · right
            have := hk e he
            exact ⟨Or.inr he, by omega⟩
        · rintro (he | ⟨he | he, hne⟩)
          · exact Or.inl he
          · rw [he] at hne
            exact absurd rfl hne
          · exact Or.inr he
      · rename_i hnlt hne
        simp only [List.mem_cons, ih hs']
        constructor
        · rintro (he | he | ⟨he, hne'⟩)
          · right
            exact ⟨Or.inl he, by rw [he]; exact fun hEq => hne hEq.symm⟩
          · exact Or.inl he
          · exact Or.inr ⟨Or.inr he, hne'⟩
        · rintro (he | ⟨he | he, hne'⟩)
          · exact Or.inr (Or.inl he)
          · exact Or.inl he
          · exact Or.inr (Or.inr ⟨he, hne'⟩)

theorem HandlerTable.ids_assign_subset (t : HandlerTable) (id : Int) (info : IrqHandlerInfo) :
    ∀ x ∈ (t.assign id info).ids, x = id ∨ x ∈ t.ids := by
  induction t with
  | nil => intro x hx; simpa [HandlerTable.assign, HandlerTable.ids] using hx
  | cons kv rest ih =>
    obtain ⟨k, v⟩ := kv
    intro x hx
    simp only [HandlerTable.assign] at hx
    split at hx
    · simpa [HandlerTable.ids] using hx
    · split at hx
      · rename_i _ heq
        simp only [HandlerTable.ids, List.map_cons, List.mem_cons] at hx ⊢
        rcases hx with hx | hx
        · exact Or.inl hx
        · exact Or.inr (Or.inr hx)
      · simp only [HandlerTable.ids, List.map_cons, List.mem_cons] at hx ⊢
        rcases hx with hx | hx
        · exact Or.inr (Or.inl hx)
        · rcases ih x hx with hx | hx
          · exact Or.inl hx
          · exact Or.inr (Or.inr hx)

theorem HandlerTable.sorted_assign (t : HandlerTable) (id : Int) (info : IrqHandlerInfo)
    (hs : t.Sorted) : (t.assign id info).Sorted := by
  induction t with
  | nil => simp [HandlerTable.assign, HandlerTable.Sorted, HandlerTable.ids]
  | cons kv rest ih =>
    obtain ⟨k, v⟩ := kv
    have hs' : HandlerTable.Sorted rest := (List.pairwise_cons.mp hs).2
    have hk : ∀ x ∈ HandlerTable.ids rest, k < x := (List.pairwise_cons.mp hs).1
    simp only [HandlerTable.assign]
    split
    · rename_i hlt
      refine List.pairwise_cons.mpr ⟨?_, hs⟩
      intro x hx
      simp only [List.map_cons, List.mem_cons] at hx
      rcases hx with hx | hx
      · omega
      · have := hk x hx
        omega
    · split
      · rename_i _ heq
        subst heq
        exact List.pairwise_cons.mpr ⟨hk, hs'⟩
      · rename_i hnlt hne
        refine List.pairwise_cons.mpr ⟨?_, ih hs'⟩
        intro x hx
        rcases HandlerTable.ids_assign_subset rest id info x hx with hx | hx
        · omega
        · exact hk x hx

theorem HandlerTable.mem_ids_erase (t : HandlerTable) (id x : Int) :
    x ∈ (t.erase id).ids ↔ x ∈ t.ids ∧ x ≠ id := by
  simp only [HandlerTable.erase, HandlerTable.ids, List.mem_map, List.mem_filter,
    decide_eq_true_eq]
  constructor
  · rintro ⟨e, ⟨he, hne⟩, rfl⟩
    exact ⟨⟨e, he, rfl⟩, hne⟩
  · rintro ⟨⟨e, he, rfl⟩, hne⟩
    exact ⟨e, ⟨he, hne⟩, rfl⟩

theorem HandlerTable.ids_setEnabled (t : HandlerTable) (id : Int) (b : Bool) :
    (t.setEnabled id b).ids = t.ids := by
  simp only [HandlerTable.setEnabled, HandlerTable.ids, List.map_map]
  apply List.map_congr_left
  intro e _
  simp only [Function.comp]
  split <;> rfl

theorem snapshotEntries_ids (table : HandlerTable) (cause : Nat) :
    ∀ e ∈ snapshotEntries table cause, e.1 ∈ table.ids := by
  intro e he
  exact List.mem_map_of_mem _ (List.mem_filter.mp he).1

/-! ## Snapshot stability -/

theorem ensureInterruptWorkerRunning_intcHandlers (runtime : Option PS2Runtime) (s : Sys) :
    (ensureInterruptWorkerRunning runtime s).g_intcHandlers = s.g_intcHandlers := by
  unfold ensureInterruptWorkerRunning
  cases runtime with
  | none => rfl
  | some rt => dsimp only; split <;> rfl

/-- A syscall adds no key to the INTC table except the id `AddIntcHandler` allocates. -/
theorem run_intc_ids (h : Host) (runtime : Option PS2Runtime) (op : Syscall)
    (ctx : R5900Context) (s : Sys) :
    ∀ x ∈ (op.run h runtime ctx s).2.g_intcHandlers.ids,
      x ∈ s.g_intcHandlers.ids ∨ (op = Syscall.AddIntcHandler ∧ x = s.g_nextIntcHandlerId) := by
  intro x hx
  cases op
  case AddIntcHandler =>
    simp only [Syscall.run, AddIntcHandler, ensureInterruptWorkerRunning_intcHandlers] at hx
    rcases HandlerTable.ids_assign_subset _ _ _ x hx with hx | hx
    · exact Or.inr ⟨rfl, hx⟩
    · exact Or.inl hx
  case RemoveIntcHandler =>
    left
    simp only [Syscall.run, RemoveIntcHandler] at hx
    split at hx
    · exact ((HandlerTable.mem_ids_erase _ _ _).mp hx).1
    · exact hx
  case EnableIntcHandler =>
    left
    simpa only [Syscall.run, EnableIntcHandler, HandlerTable.ids_setEnabled] using hx
  case DisableIntcHandler =>
    left
    simpa only [Syscall.run, DisableIntcHandler, HandlerTable.ids_setEnabled] using hx
  case SetVSyncFlag =>
    left
    simpa only [Syscall.run, SetVSyncFlag, ensureInterruptWorkerRunning_intcHandlers] using hx
  case EnableIntc =>
    left
    simp only [Syscall.run, EnableIntc] at hx
    split at hx <;> exact hx
  case DisableIntc =>
    left
    simp only [Syscall.run, DisableIntc] at hx
    split at hx <;> exact hx
  case RemoveDmacHandler =>
    left
    simp only [Syscall.run, RemoveDmacHandler] at hx
    split at hx <;> exact hx
  case EnableDmac =>
    left
    simp only [Syscall.run, EnableDmac] at hx
    split at hx <;> exact hx
  case DisableDmac =>
    left
    simp only [Syscall.run, DisableDmac] at hx
    split at hx <;> exact hx
  all_goals exact Or.inl hx

/-- A positive id below the id counter that is absent from the INTC table stays absent along
any sequence of syscalls during which the counter does not overflow. -/
theorem runSyscalls_absent (h : Host) (runtime : Option PS2Runtime) (k : Int) (hk0 : 0 < k) :
    ∀ (calls : List (Syscall × R5900Context)) (s : Sys),
      k ∉ s.g_intcHandlers.ids → k < s.g_nextIntcHandlerId →
      s.g_nextIntcHandlerId + (callCount Syscall.AddIntcHandler calls : Int) ≤ 2147483647 →
      k ∉ (runSyscalls h runtime calls s).g_intcHandlers.ids := by
  intro calls
  induction calls with
  | nil => intro s hk _ _; exact hk
  | cons call rest ih =>
    intro s hk hlt hhi
    obtain ⟨op, ctx⟩ := call
    simp only [runSyscalls]
    have hnext := run_nextIntc h runtime op ctx s
    have hcount : (callCount Syscall.AddIntcHandler ((op, ctx) :: rest) : Int)
        = (if op = Syscall.AddIntcHandler then 1 else 0)
          + (callCount Syscall.AddIntcHandler rest : Int) := by
      simp only [callCount, List.filter_cons]
      split
      · simp_all
        omega
      · simp_all
    rw [hcount] at hhi
    apply ih
    · intro hmem
      rcases run_intc_ids h runtime op ctx s k hmem with hmem | ⟨_, hmem⟩
      · exact hk hmem
      · omega
    · rw [hnext]
      split
      · rename_i hop
        rw [if_pos hop] at hhi
        rw [wrapS32_of_range _ (by omega) (by omega)]
        omega
      · exact hlt
    · rw [hnext]
      split
      · rename_i hop
        rw [if_pos hop] at hhi
        rw [wrapS32_of_range _ (by omega) (by omega)]
        omega
      · rename_i hop
        rw [if_neg hop] at hhi
        omega

theorem RemoveIntcHandler_absent (ctx : R5900Context) (s : Sys)
    (hk : 0 < toS32 (getRegU32 ctx 5)) :
    toS32 (getRegU32 ctx 5) ∉ (RemoveIntcHandler ctx s).2.g_intcHandlers.ids := by
  simp only [RemoveIntcHandler, gt_iff_lt, hk, if_true]
  intro hmem
  exact ((HandlerTable.mem_ids_erase _ _ _).mp hmem).2 rfl

/-- Once a handler that leaves key `k` out of the table has run, and when no guest function
puts `k` back, the invocation loop ends with `k` out of the table. -/
theorem invokeHandlers_absent (h : Host) (rt : PS2Runtime) (cause : Nat) (k : Int)
    (info : IrqHandlerInfo) (hfun : rt.hasFunction info.handler = true)
    (hself : ∀ ctx t, k ∉ (rt.lookupFunction info.handler ctx t).state.g_intcHandlers.ids)
    (hothers : GuestKeeps (some rt) (fun t => k ∉ t.g_intcHandlers.ids)) :
    ∀ (handlers : List IrqHandlerInfo) (s : Sys), info ∈ handlers →
      k ∉ (invokeHandlers h rt cause handlers s).1.g_intcHandlers.ids := by
  intro handlers
  induction handlers with
  | nil => intro s hmem; simp at hmem
  | cons i rest ih =>
    intro s hmem
    by_cases hi : i = info
    · subst hi
      simp only [invokeHandlers, hfun, if_true]
      exact invokeHandlers_keeps h rt cause _ hothers rest _ (hself _ _)
    · have hrest : info ∈ rest := by
        rcases List.mem_cons.mp hmem with hm | hm
        · exact absurd hm.symm hi
        · exact hm
      by_cases hf : rt.hasFunction i.handler = true
      · simp only [invokeHandlers, hf, if_true]
        exact ih _ hrest
      · simp only [invokeHandlers, hf, if_false, Bool.false_eq_true]
        exact ih _ hrest

/-- C6 (snapshot stability). Let the dispatch for `cause` take its snapshot (the cause is not
masked), let the handler registered under the positive id `k` be in that snapshot with a
registered function, and let that function remove its own id: the table it leaves is the one
a `RemoveIntcHandler(k)` call produced. Let no guest function put `k` back. Then, whatever else
the guest functions do to the table, (1) the dispatch invokes exactly the snapshot handlers
with a registered function, in snapshot order, so every handler of the snapshot, in particular
every one placed after `k`, is still invoked; (2) after the dispatch `k` is not a key of the
table and so not in the snapshot of a dispatch for any cause; (3) from any state in which `k`
is absent and below the id counter, `k` stays out of every later snapshot, whatever syscalls
run in between (the counter not overflowing). -/
theorem C6_snapshot_stability (h : Host) (rt : PS2Runtime) (cause : Nat) (s : Sys) (k : Int)
    (info : IrqHandlerInfo)
    (hk : 0 < k)
    (hmask : ¬ (cause < 32 ∧ s.g_enabled_intc_mask &&& (1 <<< cause) = 0))
    (hmem : (k, info) ∈ snapshotEntries s.g_intcHandlers cause)
    (hfun : rt.hasFunction info.handler = true)
    (hself : ∀ ctx t, ∃ ctx' t', toS32 (getRegU32 ctx' 5) = k ∧
      (rt.lookupFunction info.handler ctx t).state.g_intcHandlers
        = (RemoveIntcHandler ctx' t').2.g_intcHandlers)
    (hothers : GuestKeeps (some rt) (fun t => k ∉ t.g_intcHandlers.ids)) :
    invocations (dispatchIntcHandlersForCause h (some rt) cause s).2
      = (((snapshotEntries s.g_intcHandlers cause).map Prod.snd).filter
          (fun i => rt.hasFunction i.handler)).map (fun i => (cause, i)) ∧
    (∀ e ∈ snapshotEntries s.g_intcHandlers cause, rt.hasFunction e.2.handler = true →
      (cause, e.2) ∈ invocations (dispatchIntcHandlersForCause h (some rt) cause s).2) ∧
    k ∉ (dispatchIntcHandlersForCause h (some rt) cause s).1.g_intcHandlers.ids ∧
    (∀ c, ∀ e ∈ snapshotEntries
        (dispatchIntcHandlersForCause h (some rt) cause s).1.g_intcHandlers c, e.1 ≠ k) ∧
    (∀ (t : Sys) (calls : List (Syscall × R5900Context)) (c : Nat),
      k ∉ t.g_intcHandlers.ids → k < t.g_nextIntcHandlerId →
      t.g_nextIntcHandlerId + (callCount Syscall.AddIntcHandler calls : Int) ≤ 2147483647 →
      ∀ e ∈ snapshotEntries (runSyscalls h (some rt) calls t).g_intcHandlers c, e.1 ≠ k) := by
  have hinv : invocations (dispatchIntcHandlersForCause h (some rt) cause s).2
      = (((snapshotEntries s.g_intcHandlers cause).map Prod.snd).filter
          (fun i => rt.hasFunction i.handler)).map (fun i => (cause, i)) := by
    rw [dispatchIntc_selected]
    simp only [selectedHandlers, if_neg hmask, snapshotHandlers]
  have hself' : ∀ ctx t,
      k ∉ (rt.lookupFunction info.handler ctx t).state.g_intcHandlers.ids := by
    intro ctx t
    obtain ⟨ctx', t', hid, htab⟩ := hself ctx t
    rw [htab, ← hid]
    exact RemoveIntcHandler_absent ctx' t' (by rw [hid]; exact hk)
  have habs : k ∉ (dispatchIntcHandlersForCause h (some rt) cause s).1.g_intcHandlers.ids := by
    simp only [dispatchIntcHandlersForCause, if_neg hmask]
    exact invokeHandlers_absent h rt cause k info hfun hself' hothers _ s
      (List.mem_map_of_mem _ hmem)
  refine ⟨hinv, ?_, habs, ?_, ?_⟩
  · intro e he hf
    rw [hinv]
    exact List.mem_map_of_mem _
      (List.mem_filter.mpr ⟨List.mem_map_of_mem _ he, hf⟩)
  · intro c e he hek
    exact habs (hek ▸ snapshotEntries_ids _ c e he)
  · intro t calls c hkt hlt hhi e he hek
    exact runSyscalls_absent h (some rt) k hk calls t hkt hlt hhi
      (hek ▸ snapshotEntries_ids _ c e he)

theorem selfRemovingRuntime_keeps_absent :
    GuestKeeps (some selfRemovingRuntime) (fun t => (1 : Int) ∉ t.g_intcHandlers.ids) := by
  intro rt hrt addr ctx t _ ht
  cases hrt
  simp only [selfRemovingRuntime]
  split
  · intro hmem
    simp only [removeHandlerOne, CallResult.state, RemoveIntcHandler] at hmem
    split at hmem
    · exact ht ((HandlerTable.mem_ids_erase _ _ _).mp hmem).1
    · exact ht hmem
  · exact ht

/-- Witness for C6: handler 1 at `0xDEAD` removes itself while it runs; handler 2, placed after
it in the snapshot, is still invoked in the same dispatch, and afterwards only id 2 is left in
the table. -/
theorem C6_snapshot_stability_witness :
    invocations (dispatchIntcHandlersForCause flatHost (some selfRemovingRuntime) 2
        twoHandlers).2
      = [ (2, { cause := 2, handler := 0xDEAD, arg := 0x42 }),
          (2, { cause := 2, handler := 0xCAFE, arg := 7 }) ] ∧
    (1 : Int) ∉ (dispatchIntcHandlersForCause flatHost (some selfRemovingRuntime) 2
        twoHandlers).1.g_intcHandlers.ids ∧
    (dispatchIntcHandlersForCause flatHost (some selfRemovingRuntime) 2
        twoHandlers).1.g_intcHandlers.ids = [2] :=
  ⟨by decide,
    (C6_snapshot_stability flatHost selfRemovingRuntime 2 twoHandlers 1
      { cause := 2, handler := 0xDEAD, arg := 0x42 }
      (by decide) (by decide) (by decide) (by decide)
      (fun _ t => ⟨argContext 0 1 0 0, t, by decide, by
        simp only [selfRemovingRuntime, removeHandlerOne, CallResult.state, if_true]⟩)
      selfRemovingRuntime_keeps_absent).2.2.1,
    by decide⟩

/-! ## Order within a tick -/

/-- The effects of a dispatch: the call itself, then only invocations for its cause. -/
theorem dispatchIntc_shape (h : Host) (runtime : Option PS2Runtime) (cause : Nat) (s : Sys) :
    ∃ invs : List Event,
      (dispatchIntcHandlersForCause h runtime cause s).2 = Event.dispatchIntc cause :: invs ∧
      ∀ e ∈ invs, ∃ info, e = Event.invoke cause info (makeIrqContext h cause info) := by
  unfold dispatchIntcHandlersForCause
  cases runtime with
  | none => exact ⟨[], rfl, by simp⟩
  | some rt =>
    dsimp only
    split
    · exact ⟨[], rfl, by simp⟩
    · refine ⟨_, rfl, ?_⟩
      intro e he
      obtain ⟨info, _, _, hei⟩ := invokeHandlers_events h rt cause _ s e he
      exact ⟨info, hei⟩

/-- The writes of the VSync half of a tick, in order: the flag word, then the tick word. -/
theorem deliverVSync_writes (h : Host) (s : Sys) :
    (deliverVSync h s).2
      = (if s.g_vsync_registration.flagAddr ≠ 0 ∧
            (h.getMemPtr s.g_vsync_registration.flagAddr).isSome
          then [Event.writeU32 s.g_vsync_registration.flagAddr 1] else [])
        ++ (if s.g_vsync_registration.tickAddr ≠ 0 ∧
            (h.getMemPtr s.g_vsync_registration.tickAddr).isSome
          then [Event.writeU64 s.g_vsync_registration.tickAddr
            ((s.g_vsync_tick_counter + 1) % 2 ^ 64)] else []) := by
  simp only [deliverVSync, signalVSyncFlag]
  congr 1
  · by_cases h1 : s.g_vsync_registration.flagAddr = 0
    · simp [h1]
    · cases hm : h.getMemPtr s.g_vsync_registration.flagAddr <;>
        simp [h1, hm, writeGuestU32NoThrow]
  · by_cases h1 : s.g_vsync_registration.tickAddr = 0
    · simp [h1]
    · cases hm : h.getMemPtr s.g_vsync_registration.tickAddr <;>
        simp [h1, hm, writeGuestU64NoThrow]

/-- C7 (order within one tick). The effects of every tick round of `pollVBlankInline` are, in
this order: the write of 1 to the registered `flagAddr` and the write of the incremented tick
counter to the registered `tickAddr` (each when the address is non-zero and mapped); the call
of the dispatch for cause 2 with all its invocations, each for cause 2; the call of the
dispatch for cause 3 with all its invocations, each for cause 3. So no cause-3 handler runs
before a cause-2 handler of the same tick, and no handler runs before the VSync writes. -/
theorem C7_order_within_tick (h : Host) (runtime : Option PS2Runtime) (s : Sys) :
    ∃ start finish : List Event,
      (pollVBlankTick h runtime s).2
        = ((if s.g_vsync_registration.flagAddr ≠ 0 ∧
                (h.getMemPtr s.g_vsync_registration.flagAddr).isSome
              then [Event.writeU32 s.g_vsync_registration.flagAddr 1] else [])
            ++ (if s.g_vsync_registration.tickAddr ≠ 0 ∧
                (h.getMemPtr s.g_vsync_registration.tickAddr).isSome
              then [Event.writeU64 s.g_vsync_registration.tickAddr
                ((s.g_vsync_tick_counter + 1) % 2 ^ 64)] else []))
          ++ (Event.dispatchIntc 2 :: start)
          ++ (Event.dispatchIntc 3 :: finish) ∧
      (∀ e ∈ start, ∃ info, e = Event.invoke 2 info (makeIrqContext h 2 info)) ∧
      (∀ e ∈ finish, ∃ info, e = Event.invoke 3 info (makeIrqContext h 3 info)) := by
  obtain ⟨start, hstart, hs2⟩ :=
    dispatchIntc_shape h runtime kIntcVblankStart (deliverVSync h s).1
  obtain ⟨finish, hfinish, hs3⟩ := dispatchIntc_shape h runtime kIntcVblankEnd
    (dispatchIntcHandlersForCause h runtime kIntcVblankStart (deliverVSync h s).1).1
  refine ⟨start, finish, ?_, hs2, hs3⟩
  simp only [pollVBlankTick]
  rw [hstart, hfinish, deliverVSync_writes]
  rfl

/-! ## Order within one cause -/

theorem selected_eq_filter (rt : PS2Runtime) (table : HandlerTable) (cause : Nat) :
    ((snapshotHandlers table cause).filter (fun info => rt.hasFunction info.handler)).map
        (fun info => (cause, info))
      = (table.filter (isDispatchable rt cause)).map (fun e => (cause, e.2)) := by
  induction table with
  | nil => rfl
  | cons e rest ih =>
    have hd : isDispatchable rt cause e
        = ((e.2.enabled && decide (e.2.cause = cause) && decide (e.2.handler ≠ 0))
            && rt.hasFunction e.2.handler) := rfl
    simp only [snapshotHandlers, snapshotEntries] at ih ⊢
    by_cases h1 : (e.2.enabled && decide (e.2.cause = cause) && decide (e.2.handler ≠ 0)) = true
    · by_cases h2 : rt.hasFunction e.2.handler = true
      · simp only [List.filter_cons, h1, h2, hd, if_true, List.map_cons, Bool.and_self]
        rw [ih]
      · simp only [List.filter_cons, h1, h2, hd, if_true, List.map_cons, Bool.true_and,
          Bool.false_eq_true, if_false]
        rw [ih]
    · simp only [List.filter_cons, h1, hd, if_false, Bool.false_and, Bool.false_eq_true]
      rw [ih]

theorem dispatchDmac_invocations (h : Host) (rt : PS2Runtime) (cause : Nat) (s : Sys) :
    invocations (dispatchDmacHandlersForCause h (some rt) cause s).2
      = if cause < 32 ∧ s.g_enabled_dmac_mask &&& (1 <<< cause) = 0 then []
        else (s.g_dmacHandlers.filter (isDispatchable rt cause)).map (fun e => (cause, e.2)) := by
  unfold dispatchDmacHandlersForCause
  dsimp only
  split
  · rfl
  · simp only [invocations]
    rw [invokeHandlers_invocations, selected_eq_filter]

theorem dispatchIntc_invocations_eq (h : Host) (rt : PS2Runtime) (cause : Nat) (s : Sys) :
    invocations (dispatchIntcHandlersForCause h (some rt) cause s).2
      = if cause < 32 ∧ s.g_enabled_intc_mask &&& (1 <<< cause) = 0 then []
        else (s.g_intcHandlers.filter (isDispatchable rt cause)).map (fun e => (cause, e.2)) := by
  unfold dispatchIntcHandlersForCause
  dsimp only
  split
  · rfl
  · simp only [invocations]
    rw [invokeHandlers_invocations, selected_eq_filter]

theorem HandlerTable.sorted_filter (t : HandlerTable) (p : Int × IrqHandlerInfo → Bool)
    (hs : t.Sorted) : HandlerTable.Sorted (t.filter p) := by
  unfold HandlerTable.Sorted HandlerTable.ids at hs ⊢
  exact hs.sublist ((List.filter_sublist t).map Prod.fst)

/-- Assigning a key above all keys of the table appends the entry at the end. -/
theorem HandlerTable.assign_last (t : HandlerTable) (id : Int) (info : IrqHandlerInfo)
    (hlt : ∀ x ∈ t.ids, x < id) : t.assign id info = t ++ [(id, info)] := by
  induction t with
  | nil => rfl
  | cons kv rest ih =>
    obtain ⟨k, v⟩ := kv
    have hk : k < id := hlt k (List.mem_cons_self _ _)
    have hrest : ∀ x ∈ HandlerTable.ids rest, x < id :=
      fun x hx => hlt x (List.mem_cons_of_mem _ hx)
    simp only [HandlerTable.assign, List.cons_append]
    rw [if_neg (by omega), if_neg (by omega), ih hrest]

theorem ensureInterruptWorkerRunning_dmacHandlers (runtime : Option PS2Runtime) (s : Sys) :
    (ensureInterruptWorkerRunning runtime s).g_dmacHandlers = s.g_dmacHandlers := by
  unfold ensureInterruptWorkerRunning
  cases runtime with
  | none => rfl
  | some rt => dsimp only; split <;> rfl

theorem HandlerTable.sorted_erase (t : HandlerTable) (id : Int) (hs : t.Sorted) :
    (t.erase id).Sorted :=
  HandlerTable.sorted_filter t _ hs

theorem HandlerTable.sorted_setEnabled (t : HandlerTable) (id : Int) (b : Bool)
    (hs : t.Sorted) : (t.setEnabled id b).Sorted := by
  unfold HandlerTable.Sorted
  rw [HandlerTable.ids_setEnabled]
  exact hs

/-- Every syscall keeps both handler tables in ascending key order. -/
theorem run_sorted (h : Host) (runtime : Option PS2Runtime) (op : Syscall)
    (ctx : R5900Context) (s : Sys)
    (hs : s.g_intcHandlers.Sorted ∧ s.g_dmacHandlers.Sorted) :
    (op.run h runtime ctx s).2.g_intcHandlers.Sorted ∧
    (op.run h runtime ctx s).2.g_dmacHandlers.Sorted := by
  cases op
  case SetVSyncFlag =>
    simp only [Syscall.run, SetVSyncFlag, ensureInterruptWorkerRunning_intcHandlers,
      ensureInterruptWorkerRunning_dmacHandlers]
    exact hs
  case AddIntcHandler =>
    simp only [Syscall.run, AddIntcHandler, ensureInterruptWorkerRunning_intcHandlers,
      ensureInterruptWorkerRunning_dmacHandlers]
    exact ⟨HandlerTable.sorted_assign _ _ _ hs.1, hs.2⟩
  case AddDmacHandler =>
    exact ⟨hs.1, HandlerTable.sorted_assign _ _ _ hs.2⟩
  case RemoveIntcHandler =>
    simp only [Syscall.run, RemoveIntcHandler]
    split
    · exact ⟨HandlerTable.sorted_erase _ _ hs.1, hs.2⟩
    · exact hs
  case RemoveDmacHandler =>
    simp only [Syscall.run, RemoveDmacHandler]
    split
    · exact ⟨hs.1, HandlerTable.sorted_erase _ _ hs.2⟩
    · exact hs
  case EnableIntcHandler => exact ⟨HandlerTable.sorted_setEnabled _ _ _ hs.1, hs.2⟩
  case DisableIntcHandler => exact ⟨HandlerTable.sorted_setEnabled _ _ _ hs.1, hs.2⟩
  case EnableDmacHandler => exact ⟨hs.1, HandlerTable.sorted_setEnabled _ _ _ hs.2⟩
  case DisableDmacHandler => exact ⟨hs.1, HandlerTable.sorted_setEnabled _ _ _ hs.2⟩
  case EnableIntc =>
    simp only [Syscall.run, EnableIntc]
    split <;> exact hs
  case DisableIntc =>
    simp only [Syscall.run, DisableIntc]
    split <;> exact hs
  case EnableDmac =>
    simp only [Syscall.run, EnableDmac]
    split <;> exact hs
  case DisableDmac =>
    simp only [Syscall.run, DisableDmac]
    split <;> exact hs

theorem runSyscalls_sorted (h : Host) (runtime : Option PS2Runtime) :
    ∀ (calls : List (Syscall × R5900Context)) (s : Sys),
      s.g_intcHandlers.Sorted ∧ s.g_dmacHandlers.Sorted →
      (runSyscalls h runtime calls s).g_intcHandlers.Sorted ∧
      (runSyscalls h runtime calls s).g_dmacHandlers.Sorted := by
  intro calls
  induction calls with
  | nil => intro s hs; exact hs
  | cons call rest ih =>
    intro s hs
    obtain ⟨op, ctx⟩ := call
    exact ih _ (run_sorted h runtime op ctx s hs)

/-- C8, as amended (order within one cause). For every INTC (resp. DMAC) table and every cause
that is not masked (the cause is 32 or more, or its bit is set in the enable mask), the
handlers invoked by one `dispatchIntcHandlersForCause` (resp. `dispatchDmacHandlersForCause`)
call are exactly the table entries that are enabled, have that cause, a non-zero handler
address and a registered function, in table order; when the cause is below 32 and its bit is
clear, no handler is invoked. Table order is ascending handler id: the selected entries have
strictly ascending ids in a table in key order, every syscall keeps the tables in key order,
and an entry stored under an id above all present ids goes to the end, so ascending id is the
order in which the handlers were added. -/
theorem C8_order_within_cause (h : Host) (rt : PS2Runtime) (cause : Nat) (s : Sys) :
    ((cause < 32 → s.g_enabled_intc_mask.testBit cause = true) →
      invocations (dispatchIntcHandlersForCause h (some rt) cause s).2
        = (s.g_intcHandlers.filter (isDispatchable rt cause)).map (fun e => (cause, e.2))) ∧
    (cause < 32 → s.g_enabled_intc_mask.testBit cause = false →
      invocations (dispatchIntcHandlersForCause h (some rt) cause s).2 = []) ∧
    (s.g_intcHandlers.Sorted →
      List.Pairwise (fun a b => a < b)
        ((s.g_intcHandlers.filter (isDispatchable rt cause)).map Prod.fst)) ∧
    ((cause < 32 → s.g_enabled_dmac_mask.testBit cause = true) →
      invocations (dispatchDmacHandlersForCause h (some rt) cause s).2
        = (s.g_dmacHandlers.filter (isDispatchable rt cause)).map (fun e => (cause, e.2))) ∧
    (cause < 32 → s.g_enabled_dmac_mask.testBit cause = false →
      invocations (dispatchDmacHandlersForCause h (some rt) cause s).2 = []) ∧
    (s.g_dmacHandlers.Sorted →
      List.Pairwise (fun a b => a < b)
        ((s.g_dmacHandlers.filter (isDispatchable rt cause)).map Prod.fst)) ∧
    (∀ (calls : List (Syscall × R5900Context)),
      s.g_intcHandlers.Sorted ∧ s.g_dmacHandlers.Sorted →
      (runSyscalls h (some rt) calls s).g_intcHandlers.Sorted ∧
      (runSyscalls h (some rt) calls s).g_dmacHandlers.Sorted) ∧
    (∀ (table : HandlerTable) (id : Int) (info : IrqHandlerInfo),
      (∀ x ∈ table.ids, x < id) → table.assign id info = table ++ [(id, info)]) := by
  refine ⟨?_, ?_, ?_, ?_, ?_, ?_, ?_, ?_⟩
  · intro hbit
    rw [dispatchIntc_invocations_eq, if_neg]
    rintro ⟨hc, hz⟩
    have := (and_shift_eq_zero_iff _ _).mp hz
    rw [hbit hc] at this
    exact Bool.noConfusion this
  · intro hc hbit
    rw [dispatchIntc_invocations_eq, if_pos ⟨hc, (and_shift_eq_zero_iff _ _).mpr hbit⟩]
  · intro hs
    exact HandlerTable.sorted_filter _ _ hs
  · intro hbit
    rw [dispatchDmac_invocations, if_neg]
    rintro ⟨hc, hz⟩
    have := (and_shift_eq_zero_iff _ _).mp hz
    rw [hbit hc] at this
    exact Bool.noConfusion this
  · intro hc hbit
    rw [dispatchDmac_invocations, if_pos ⟨hc, (and_shift_eq_zero_iff _ _).mpr hbit⟩]
  · intro hs
    exact HandlerTable.sorted_filter _ _ hs
  · intro calls hs
    exact runSyscalls_sorted h (some rt) calls s hs
  · intro table id info hlt
    exact HandlerTable.assign_last table id info hlt

/-- Counterexample to C8 as stated: after `DisableIntc(2)` the table still holds two enabled
cause-2 entries with non-zero handler addresses and registered functions, yet the dispatch for
cause 2 invokes none of them. -/
theorem C8_masked_counterexample :
    invocations (dispatchIntcHandlersForCause flatHost (some stubRuntime) 2
        twoHandlersMasked).2 = [] ∧
    (twoHandlersMasked.g_intcHandlers.filter (isDispatchable stubRuntime 2)).map
        (fun e => ((2 : Nat), e.2))
      = [ (2, { cause := 2, handler := 0xDEAD, arg := 0x42 }),
          (2, { cause := 2, handler := 0xCAFE, arg := 7 }) ] ∧
    invocations (dispatchIntcHandlersForCause flatHost (some stubRuntime) 2
        twoHandlersMasked).2
      ≠ (twoHandlersMasked.g_intcHandlers.filter (isDispatchable stubRuntime 2)).map
          (fun e => ((2 : Nat), e.2)) := by
  refine ⟨by decide, by decide, by decide⟩

/-- Scenario S3 for C8: the handlers A and B are added for cause 2 in this order (ids 1 and 2)
and one tick is polled; A is invoked before B. -/
theorem C8_order_within_cause_witness :
    invocations (dispatchIntcHandlersForCause flatHost (some stubRuntime) 2 twoHandlers).2
      = (twoHandlers.g_intcHandlers.filter (isDispatchable stubRuntime 2)).map
          (fun e => ((2 : Nat), e.2)) ∧
    twoHandlers.g_intcHandlers.ids = [1, 2] ∧
    invocations scenarioS3.2
      = [ (2, { cause := 2, handler := 0xDEAD, arg := 0x42 }),
          (2, { cause := 2, handler := 0xCAFE, arg := 7 }) ] :=
  ⟨(C8_order_within_cause flatHost stubRuntime 2 twoHandlers).1 (by decide),
    by decide, by decide⟩

/-! ## Handler invocation context -/

/-- The registers of the context built for an invocation. -/
theorem makeIrqContext_registers (h : Host) (cause : Nat) (info : IrqHandlerInfo) :
    (makeIrqContext h cause info).pc = info.handler ∧
    ∀ i, (makeIrqContext h cause info).r i
      = if i = 28 then info.gp
        else if i = 29 then (if info.sp ≠ 0 then info.sp else h.PS2_IRQ_STACK_TOP)
        else if i = 4 then cause
        else if i = 5 then info.arg
        else 0 := by
  refine ⟨rfl, ?_⟩
  intro i
  simp only [makeIrqContext, SET_GPR_U32]
  split_ifs <;> first | rfl | omega

theorem dispatchDmac_shape (h : Host) (runtime : Option PS2Runtime) (cause : Nat) (s : Sys) :
    ∃ invs : List Event,
      (dispatchDmacHandlersForCause h runtime cause s).2 = Event.dispatchDmac cause :: invs ∧
      ∀ e ∈ invs, ∃ info, e = Event.invoke cause info (makeIrqContext h cause info) := by
  unfold dispatchDmacHandlersForCause
  cases runtime with
  | none => exact ⟨[], rfl, by simp⟩
  | some rt =>
    dsimp only
    split
    · exact ⟨[], rfl, by simp⟩
    · refine ⟨_, rfl, ?_⟩
      intro e he
      obtain ⟨info, _, _, hei⟩ := invokeHandlers_events h rt cause _ s e he
      exact ⟨info, hei⟩

/-- C9 (handler invocation context). For every handler record `info` that
`dispatchIntcHandlersForCause` or `dispatchDmacHandlersForCause` invokes in a dispatch for
`cause`, the invocation is for that cause and the register context passed has
`pc = info.handler`, GPR 28 = `info.gp`, GPR 29 = `info.sp` if that is non-zero and
`PS2_IRQ_STACK_TOP` otherwise, GPR 4 = `cause`, GPR 5 = `info.arg`, and every other register
zero, among them GPR 31, GPR 6 and GPR 7. -/
theorem C9_invocation_context (h : Host) (runtime : Option PS2Runtime) (cause : Nat) (s : Sys) :
    (∀ c info ictx,
      Event.invoke c info ictx ∈ (dispatchIntcHandlersForCause h runtime cause s).2 →
      c = cause ∧ ictx.pc = info.handler ∧
      ictx.r 28 = info.gp ∧
      ictx.r 29 = (if info.sp ≠ 0 then info.sp else h.PS2_IRQ_STACK_TOP) ∧
      ictx.r 31 = 0 ∧ ictx.r 4 = cause ∧ ictx.r 5 = info.arg ∧ ictx.r 6 = 0 ∧ ictx.r 7 = 0 ∧
      ∀ i, i ≠ 28 → i ≠ 29 → i ≠ 4 → i ≠ 5 → ictx.r i = 0) ∧
    (∀ c info ictx,
      Event.invoke c info ictx ∈ (dispatchDmacHandlersForCause h runtime cause s).2 →
      c = cause ∧ ictx.pc = info.handler ∧
      ictx.r 28 = info.gp ∧
      ictx.r 29 = (if info.sp ≠ 0 then info.sp else h.PS2_IRQ_STACK_TOP) ∧
      ictx.r 31 = 0 ∧ ictx.r 4 = cause ∧ ictx.r 5 = info.arg ∧ ictx.r 6 = 0 ∧ ictx.r 7 = 0 ∧
      ∀ i, i ≠ 28 → i ≠ 29 → i ≠ 4 → i ≠ 5 → ictx.r i = 0) := by
  have key : ∀ (c : Nat) (info : IrqHandlerInfo) (ictx : R5900Context) (invs : List Event),
      (∀ e ∈ invs, ∃ i, e = Event.invoke cause i (makeIrqContext h cause i)) →
      Event.invoke c info ictx ∈ invs →
      c = cause ∧ ictx.pc = info.handler ∧
      ictx.r 28 = info.gp ∧
      ictx.r 29 = (if info.sp ≠ 0 then info.sp else h.PS2_IRQ_STACK_TOP) ∧
      ictx.r 31 = 0 ∧ ictx.r 4 = cause ∧ ictx.r 5 = info.arg ∧ ictx.r 6 = 0 ∧ ictx.r 7 = 0 ∧
      ∀ i, i ≠ 28 → i ≠ 29 → i ≠ 4 → i ≠ 5 → ictx.r i = 0 := by
    intro c info ictx invs hinvs hmem
    obtain ⟨i, hi⟩ := hinvs _ hmem
    cases hi
    have hr := (makeIrqContext_registers h cause info).2
    refine ⟨rfl, rfl, ?_, ?_, ?_, ?_, ?_, ?_, ?_, ?_⟩
    · rw [hr]; rfl
    · rw [hr]; rfl
    · rw [hr]; rfl
    · rw [hr]; rfl
    · rw [hr]; rfl
    · rw [hr]; rfl
    · rw [hr]; rfl
    · intro j h28 h29 h4 h5
      rw [hr, if_neg h28, if_neg h29, if_neg h4, if_neg h5]
  constructor
  · intro c info ictx hmem
    obtain ⟨invs, hev, hinvs⟩ := dispatchIntc_shape h runtime cause s
    rw [hev] at hmem
    rcases List.mem_cons.mp hmem with hm | hm
    · cases hm
    · exact key c info ictx invs hinvs hm
  · intro c info ictx hmem
    obtain ⟨invs, hev, hinvs⟩ := dispatchDmac_shape h runtime cause s
    rw [hev] at hmem
    rcases List.mem_cons.mp hmem with hm | hm
    · cases hm
    · exact key c info ictx invs hinvs hm

/-- Witness for C9: the dispatch for cause 2 over the two registered handlers passes the
program counters `0xDEAD` and `0xCAFE`, a0 = 2, a1 = the registered argument, zero in GPR 6, 7
and 31, the captured gp, and the IRQ stack top in GPR 29. -/
theorem C9_invocation_context_witness :
    invocationRegisters
        (dispatchIntcHandlersForCause flatHost (some stubRuntime) 2 twoHandlers).2
      = [ (0xDEAD, [2, 0x42, 0, 0, 0, 0x1F00000, 0]),
          (0xCAFE, [2, 7, 0, 0, 0, 0x1F00000, 0]) ] ∧
    (∀ c info ictx,
      Event.invoke c info ictx
        ∈ (dispatchIntcHandlersForCause flatHost (some stubRuntime) 2 twoHandlers).2 →
      ictx.r 4 = 2 ∧ ictx.r 31 = 0) :=
  ⟨by decide, fun c info ictx hmem =>
    have hall := (C9_invocation_context flatHost (some stubRuntime) 2 twoHandlers).1
      c info ictx hmem
    ⟨hall.2.2.2.2.2.1, hall.2.2.2.2.1⟩⟩

/-! ## Registration -/

theorem invokeHandlers_mem (h : Host) (rt : PS2Runtime) (cause : Nat) (info : IrqHandlerInfo)
    (hfun : rt.hasFunction info.handler = true) :
    ∀ (handlers : List IrqHandlerInfo) (s : Sys), info ∈ handlers →
      Event.invoke cause info (makeIrqContext h cause info)
        ∈ (invokeHandlers h rt cause handlers s).2 := by
  intro handlers
  induction handlers with
  | nil => intro s hmem; simp at hmem
  | cons i rest ih =>
    intro s hmem
    by_cases hi : i = info
    · subst hi
      simp only [invokeHandlers, hfun, if_true]
      exact List.mem_cons_self _ _
    · have hrest : info ∈ rest := by
        rcases List.mem_cons.mp hmem with hm | hm
        · exact absurd hm.symm hi
        · exact hm
      by_cases hf : rt.hasFunction i.handler = true
      · simp only [invokeHandlers, hf, if_true]
        exact List.mem_cons_of_mem _ (ih _ hrest)
      · simp only [invokeHandlers, hf, if_false, Bool.false_eq_true]
        exact ih _ hrest

/-- C10, as amended (`AddIntcHandler` registration). For every register context and every
state whose INTC table is in key order, `AddIntcHandler` stores under the newly allocated id
(the value of the id counter) the record `{cause = GPR 4, handler = GPR 5, arg = GPR 7,
gp = GPR 28, sp = 0, enabled = true}`, leaves every entry under another id unchanged, and
returns that id in GPR 2. Hence, when the handler address is non-zero and has a registered
function and the cause is not masked (it is 32 or more, or its bit is set in the INTC mask), a
dispatch for that cause in the resulting state invokes the function at the handler address
with a0 = cause and a1 = arg on the `PS2_IRQ_STACK_TOP` stack. -/
theorem C10_AddIntcHandler_registration (h : Host) (runtime : Option PS2Runtime)
    (ctx : R5900Context) (s : Sys) (hs : s.g_intcHandlers.Sorted) :
    ∃ info : IrqHandlerInfo,
      info.cause = getRegU32 ctx 4 ∧ info.handler = getRegU32 ctx 5 ∧
      info.arg = getRegU32 ctx 7 ∧ info.gp = getRegU32 ctx 28 ∧ info.sp = 0 ∧
      info.enabled = true ∧
      (s.g_nextIntcHandlerId, info) ∈ (AddIntcHandler runtime ctx s).2.g_intcHandlers ∧
      (∀ e ∈ (AddIntcHandler runtime ctx s).2.g_intcHandlers,
        e.1 = s.g_nextIntcHandlerId → e.2 = info) ∧
      (∀ e : Int × IrqHandlerInfo, e.1 ≠ s.g_nextIntcHandlerId →
        (e ∈ (AddIntcHandler runtime ctx s).2.g_intcHandlers ↔ e ∈ s.g_intcHandlers)) ∧
      getRegU32 (AddIntcHandler runtime ctx s).1 2 = toU32 s.g_nextIntcHandlerId ∧
      (-2147483648 ≤ s.g_nextIntcHandlerId → s.g_nextIntcHandlerId ≤ 2147483647 →
        toS32 (getRegU32 (AddIntcHandler runtime ctx s).1 2) = s.g_nextIntcHandlerId) ∧
      (∀ rt, runtime = some rt → getRegU32 ctx 5 ≠ 0 →
        rt.hasFunction (getRegU32 ctx 5) = true →
        (getRegU32 ctx 4 < 32 → s.g_enabled_intc_mask.testBit (getRegU32 ctx 4) = true) →
        ∃ ictx : R5900Context,
          Event.invoke (getRegU32 ctx 4) info ictx
            ∈ (dispatchIntcHandlersForCause h runtime (getRegU32 ctx 4)
                (AddIntcHandler runtime ctx s).2).2 ∧
          ictx.pc = getRegU32 ctx 5 ∧ ictx.r 4 = getRegU32 ctx 4 ∧
          ictx.r 5 = getRegU32 ctx 7 ∧ ictx.r 29 = h.PS2_IRQ_STACK_TOP) := by
  have htab : (AddIntcHandler runtime ctx s).2.g_intcHandlers
      = s.g_intcHandlers.assign s.g_nextIntcHandlerId
          { cause := getRegU32 ctx 4, handler := getRegU32 ctx 5, arg := getRegU32 ctx 7,
            gp := getRegU32 ctx 28, sp := 0, enabled := true } := by
    simp only [AddIntcHandler, ensureInterruptWorkerRunning_intcHandlers]
  have hmask : (AddIntcHandler runtime ctx s).2.g_enabled_intc_mask
      = s.g_enabled_intc_mask := by
    simp only [AddIntcHandler, ensureInterruptWorkerRunning_intcMask]
  have hret : getRegU32 (AddIntcHandler runtime ctx s).1 2 = toU32 s.g_nextIntcHandlerId := by
    simp only [AddIntcHandler, getRegU32_setReturnS32]
  refine ⟨{ cause := getRegU32 ctx 4, handler := getRegU32 ctx 5, arg := getRegU32 ctx 7,
            gp := getRegU32 ctx 28, sp := 0, enabled := true },
    rfl, rfl, rfl, rfl, rfl, rfl, ?_, ?_, ?_, hret, ?_, ?_⟩
  · rw [htab, HandlerTable.mem_assign _ _ _ _ hs]
    exact Or.inl rfl
  · intro e he hid
    rw [htab, HandlerTable.mem_assign _ _ _ _ hs] at he
    rcases he with he | ⟨_, hne⟩
    · rw [he]
    · exact absurd hid hne
  · intro e hne
    rw [htab, HandlerTable.mem_assign _ _ _ _ hs]
    constructor
    · rintro (he | ⟨he, _⟩)
      · rw [he] at hne
        exact absurd rfl hne
      · exact he
    · intro he
      exact Or.inr ⟨he, hne⟩
  · intro hlo hhi
    rw [hret]
    exact toS32_toU32 _ hlo hhi
  · intro rt hrt hnz hfun hbit
    subst hrt
    refine ⟨makeIrqContext h (getRegU32 ctx 4)
      { cause := getRegU32 ctx 4, handler := getRegU32 ctx 5, arg := getRegU32 ctx 7,
        gp := getRegU32 ctx 28, sp := 0, enabled := true }, ?_, rfl, rfl, rfl, rfl⟩
    have hgate : ¬ (getRegU32 ctx 4 < 32 ∧
        (AddIntcHandler (some rt) ctx s).2.g_enabled_intc_mask
          &&& (1 <<< getRegU32 ctx 4) = 0) := by
      rintro ⟨hc, hz⟩
      rw [hmask] at hz
      have := (and_shift_eq_zero_iff _ _).mp hz
      rw [hbit hc] at this
      exact Bool.noConfusion this
    simp only [dispatchIntcHandlersForCause, if_neg hgate]
    apply List.mem_cons_of_mem
    apply invokeHandlers_mem h rt _ _ hfun
    rw [htab]
    refine List.mem_map.mpr ⟨(s.g_nextIntcHandlerId, _), ?_, rfl⟩
    refine List.mem_filter.mpr ⟨?_, ?_⟩
    · rw [HandlerTable.mem_assign _ _ _ _ hs]
      exact Or.inl rfl
    · simp [hnz]

/-- Counterexample to C10 as stated. (1) After `DisableIntc(2)`, `AddIntcHandler(cause = 2,
handler = 0xDEAD, arg = 0x42)` stores the handler, whose address has a registered function,
yet the dispatch for cause 2 in the resulting state invokes nothing. (2) From the initial
state, with a function registered at every address, `AddIntcHandler(cause = 2, handler = 0)`
stores a handler that the dispatch for cause 2 does not invoke. (3) From the initial state,
with no function registered at `0xDEAD`, the dispatch for cause 2 invokes nothing either. -/
theorem C10_dispatch_counterexample :
    (AddIntcHandler (some stubRuntime) (argContext 2 0xDEAD 0x42 0) initialMasked).2.g_intcHandlers
      = [(1, { cause := 2, handler := 0xDEAD, arg := 0x42, gp := 0, sp := 0, enabled := true })] ∧
    stubRuntime.hasFunction 0xDEAD = true ∧
    invocations (dispatchIntcHandlersForCause flatHost (some stubRuntime) 2
      (AddIntcHandler (some stubRuntime) (argContext 2 0xDEAD 0x42 0) initialMasked).2).2 = [] ∧
    (AddIntcHandler (some everyRuntime) (argContext 2 0 0x42 0) initialSys).2.g_intcHandlers
      = [(1, { cause := 2, handler := 0, arg := 0x42, gp := 0, sp := 0, enabled := true })] ∧
    everyRuntime.hasFunction 0 = true ∧
    invocations (dispatchIntcHandlersForCause flatHost (some everyRuntime) 2
      (AddIntcHandler (some everyRuntime) (argContext 2 0 0x42 0) initialSys).2).2 = [] ∧
    emptyRuntime.hasFunction 0xDEAD = false ∧
    invocations (dispatchIntcHandlersForCause flatHost (some emptyRuntime) 2
      (AddIntcHandler (some emptyRuntime) (argContext 2 0xDEAD 0x42 0) initialSys).2).2 = [] := by
  refine ⟨by decide, by decide, by decide, by decide, by decide, by decide, by decide,
    by decide⟩

/-- Scenario S2 for C10: `AddIntcHandler(cause = 2, handler = 0xDEAD, arg = 0x42)` from the
initial state returns id 1; after one polled tick the stub at `0xDEAD` has recorded
`(2, 0x42)`. -/
theorem C10_AddIntcHandler_witness :
    (∃ info : IrqHandlerInfo,
      info.cause = 2 ∧ info.handler = 0xDEAD ∧ info.arg = 0x42 ∧
      ((1 : Int), info)
        ∈ (AddIntcHandler (some stubRuntime) (argContext 2 0xDEAD 0x42 0)
            initialSys).2.g_intcHandlers) ∧
    1 ≤ scenarioS2.1 ∧
    readGuestU32 flatHost scenarioS2.2.1.rdram 0x300 = 2 ∧
    readGuestU32 flatHost scenarioS2.2.1.rdram 0x304 = 0x42 ∧
    invocations scenarioS2.2.2 = [(2, { cause := 2, handler := 0xDEAD, arg := 0x42 })] :=
  ⟨(C10_AddIntcHandler_registration flatHost (some stubRuntime)
      (argContext 2 0xDEAD 0x42 0) initialSys List.Pairwise.nil).elim
      (fun info hinfo => ⟨info, hinfo.1, hinfo.2.1, hinfo.2.2.1, hinfo.2.2.2.2.2.2.1⟩),
    by decide, by decide, by decide, by decide⟩

/-! ## Further instances -/

/-- Witness for C3: one registration and three pending ticks; the poll delivers three ticks
but writes the flag and the tick word once only, in the first tick, and the registration is
cleared after the first round. -/
theorem C3_one_shot_vsync_witness :
    guestWrites (pollVBlankInline flatHost (some stubRuntime) registeredThreePending).2
      = [(0x100, 1), (0x200, 1)] ∧
    (pollVBlankInline flatHost (some stubRuntime) registeredThreePending).1.g_vsync_tick_counter
      = 3 ∧
    (pollVBlankTick flatHost (some stubRuntime) registeredThreePending).1.g_vsync_registration
      = { flagAddr := 0, tickAddr := 0 } :=
  ⟨by decide, by decide,
    ((C3_one_shot_vsync flatHost (some stubRuntime) registeredThreePending 0).2.2
      (stubRuntime_keeps _ (fun _ _ ht => ht))).1⟩

/-- Witness for C4: with the stub runtime, which leaves the counter alone, three tick rounds
from the initial state leave the counter at 3. -/
theorem C4_tick_counter_witness :
    (pollVBlankLoop flatHost (some stubRuntime) 3 initialSys).1.g_vsync_tick_counter
      = (initialSys.g_vsync_tick_counter + 3) % 2 ^ 64 ∧
    (pollVBlankLoop flatHost (some stubRuntime) 3 initialSys).1.g_vsync_tick_counter = 3 :=
  ⟨((C4_tick_counter flatHost (some stubRuntime) initialSys).2.2.2.2.1
      (fun _ => stubRuntime_keeps _ (fun _ _ ht => ht))).2 (by decide) 3,
    by decide⟩

/-! ## Per-handler enable and disable -/

theorem HandlerTable.setEnabled_rel (t : HandlerTable) (id : Int) (b : Bool) :
    HandlerTable.EnabledSetTo id b t (t.setEnabled id b) := by
  unfold HandlerTable.EnabledSetTo HandlerTable.setEnabled
  induction t with
  | nil => exact List.Forall₂.nil
  | cons e rest ih =>
    refine List.Forall₂.cons ?_ ih
    by_cases he : e.1 = id
    · simp only [he, if_true]
      exact ⟨trivial, trivial, trivial, trivial, trivial, trivial, trivial⟩
    · simp only [he, if_false]
      exact ⟨trivial, trivial, trivial, trivial, trivial, trivial, trivial⟩

theorem HandlerTable.setEnabled_absent (t : HandlerTable) (id : Int) (b : Bool)
    (hid : id ∉ t.ids) : t.setEnabled id b = t := by
  unfold HandlerTable.setEnabled
  induction t with
  | nil => rfl
  | cons e rest ih =>
    have he : e.1 ≠ id := fun hEq => hid (hEq ▸ List.mem_cons_self _ _)
    have hrest : id ∉ HandlerTable.ids rest := fun hm => hid (List.mem_cons_of_mem _ hm)
    simp only [List.map_cons, he, if_false, ih hrest]

theorem HandlerTable.mem_setEnabled (t : HandlerTable) (id : Int) (b : Bool)
    (info : IrqHandlerInfo) (hmem : (id, info) ∈ t) :
    (id, { info with enabled := b }) ∈ t.setEnabled id b := by
  unfold HandlerTable.setEnabled
  refine List.mem_map.mpr ⟨(id, info), hmem, ?_⟩
  simp

theorem HandlerTable.setEnabled_false_entries (t : HandlerTable) (id : Int) :
    ∀ e ∈ t.setEnabled id false, e.1 = id → e.2.enabled = false := by
  intro e he hid
  unfold HandlerTable.setEnabled at he
  obtain ⟨o, _, ho⟩ := List.mem_map.mp he
  by_cases hk : o.1 = id
  · rw [if_pos hk] at ho
    rw [← ho]
  · rw [if_neg hk] at ho
    rw [← ho] at hid
    exact absurd hid hk

theorem snapshotEntries_enabled (table : HandlerTable) (cause : Nat) :
    ∀ e ∈ snapshotEntries table cause,
      e ∈ table ∧ e.2.enabled = true ∧ e.2.cause = cause ∧ e.2.handler ≠ 0 := by
  intro e he
  have h1 := List.mem_filter.mp he
  have h2 := h1.2
  simp only [Bool.and_eq_true, decide_eq_true_eq] at h2
  exact ⟨h1.1, h2.1.1, h2.1.2, h2.2⟩

theorem getRegU32_return_KE_OK (ctx : R5900Context) :
    getRegU32 (setReturnS32 ctx KE_OK) 2 = 0 := by
  rw [getRegU32_setReturnS32]
  decide

/-- C11 (per-handler enable and disable). For every state and every id in GPR 5 (read as a
signed 32-bit value), `DisableIntcHandler` (resp. `EnableIntcHandler`) leaves the INTC table
with the same keys in the same order, every entry keeping its cause, handler, arg, gp and sp,
the entry under the id having its enabled flag false (resp. true) and every other entry its
old flag; nothing else in the state changes, so the DMAC table, both masks and both id
counters are as before; when the id is absent the state is unchanged; GPR 2 holds
`KE_OK = 0` in both cases. The same holds for `DisableDmacHandler` / `EnableDmacHandler` on
the DMAC table. Scenario S4: after `DisableIntcHandler(k)` no snapshot of a dispatch holds the
entry of `k`, whatever the cause; after a following `EnableIntcHandler(k)` the entry is
enabled again and a dispatch for its cause invokes it (its address being non-zero with a
registered function and the cause not masked). -/
theorem C11_handler_enable_disable (h : Host) (rt : PS2Runtime) (ctx : R5900Context)
    (s : Sys) :
    (HandlerTable.EnabledSetTo (toS32 (getRegU32 ctx 5)) false s.g_intcHandlers
        (DisableIntcHandler ctx s).2.g_intcHandlers ∧
      (DisableIntcHandler ctx s).2
        = { s with g_intcHandlers := (DisableIntcHandler ctx s).2.g_intcHandlers } ∧
      (toS32 (getRegU32 ctx 5) ∉ s.g_intcHandlers.ids → (DisableIntcHandler ctx s).2 = s) ∧
      getRegU32 (DisableIntcHandler ctx s).1 2 = 0) ∧
    (HandlerTable.EnabledSetTo (toS32 (getRegU32 ctx 5)) true s.g_intcHandlers
        (EnableIntcHandler ctx s).2.g_intcHandlers ∧
      (EnableIntcHandler ctx s).2
        = { s with g_intcHandlers := (EnableIntcHandler ctx s).2.g_intcHandlers } ∧
      (toS32 (getRegU32 ctx 5) ∉ s.g_intcHandlers.ids → (EnableIntcHandler ctx s).2 = s) ∧
      getRegU32 (EnableIntcHandler ctx s).1 2 = 0) ∧
    (HandlerTable.EnabledSetTo (toS32 (getRegU32 ctx 5)) false s.g_dmacHandlers
        (DisableDmacHandler ctx s).2.g_dmacHandlers ∧
      (DisableDmacHandler ctx s).2
        = { s with g_dmacHandlers := (DisableDmacHandler ctx s).2.g_dmacHandlers } ∧
      (toS32 (getRegU32 ctx 5) ∉ s.g_dmacHandlers.ids → (DisableDmacHandler ctx s).2 = s) ∧
      getRegU32 (DisableDmacHandler ctx s).1 2 = 0) ∧
    (HandlerTable.EnabledSetTo (toS32 (getRegU32 ctx 5)) true s.g_dmacHandlers
        (EnableDmacHandler ctx s).2.g_dmacHandlers ∧
      (EnableDmacHandler ctx s).2
        = { s with g_dmacHandlers := (EnableDmacHandler ctx s).2.g_dmacHandlers } ∧
      (toS32 (getRegU32 ctx 5) ∉ s.g_dmacHandlers.ids → (EnableDmacHandler ctx s).2 = s) ∧
      getRegU32 (EnableDmacHandler ctx s).1 2 = 0) ∧
    (∀ cause, ∀ e ∈ snapshotEntries (DisableIntcHandler ctx s).2.g_intcHandlers cause,
      e.1 ≠ toS32 (getRegU32 ctx 5)) ∧
    (∀ cause, ∀ e ∈ snapshotEntries (DisableDmacHandler ctx s).2.g_dmacHandlers cause,
      e.1 ≠ toS32 (getRegU32 ctx 5)) ∧
    (∀ info : IrqHandlerInfo, (toS32 (getRegU32 ctx 5), info) ∈ s.g_intcHandlers →
      (toS32 (getRegU32 ctx 5), { info with enabled := true })
        ∈ (EnableIntcHandler ctx (DisableIntcHandler ctx s).2).2.g_intcHandlers ∧
      (info.handler ≠ 0 → rt.hasFunction info.handler = true →
        (info.cause < 32 → s.g_enabled_intc_mask.testBit info.cause = true) →
        ∃ ictx : R5900Context,
          Event.invoke info.cause { info with enabled := true } ictx
            ∈ (dispatchIntcHandlersForCause h (some rt) info.cause
                (EnableIntcHandler ctx (DisableIntcHandler ctx s).2).2).2)) := by
  refine ⟨⟨HandlerTable.setEnabled_rel _ _ _, rfl, ?_, getRegU32_return_KE_OK ctx⟩,
    ⟨HandlerTable.setEnabled_rel _ _ _, rfl, ?_, getRegU32_return_KE_OK ctx⟩,
    ⟨HandlerTable.setEnabled_rel _ _ _, rfl, ?_, getRegU32_return_KE_OK ctx⟩,
    ⟨HandlerTable.setEnabled_rel _ _ _, rfl, ?_, getRegU32_return_KE_OK ctx⟩, ?_, ?_, ?_⟩
  · intro hid
    simp only [DisableIntcHandler, HandlerTable.setEnabled_absent _ _ _ hid]
  · intro hid
    simp only [EnableIntcHandler, HandlerTable.setEnabled_absent _ _ _ hid]
  · intro hid
    simp only [DisableDmacHandler, HandlerTable.setEnabled_absent _ _ _ hid]
  · intro hid
    simp only [EnableDmacHandler, HandlerTable.setEnabled_absent _ _ _ hid]
  · intro cause e he hid
    have hsnap := snapshotEntries_enabled _ cause e he
    have hoff := HandlerTable.setEnabled_false_entries s.g_intcHandlers
      (toS32 (getRegU32 ctx 5)) e hsnap.1 hid
    rw [hoff] at hsnap
    exact Bool.noConfusion hsnap.2.1
  · intro cause e he hid
    have hsnap := snapshotEntries_enabled _ cause e he
    have hoff := HandlerTable.setEnabled_false_entries s.g_dmacHandlers
      (toS32 (getRegU32 ctx 5)) e hsnap.1 hid
    rw [hoff] at hsnap
    exact Bool.noConfusion hsnap.2.1
  · intro info hmem
    have hin : (toS32 (getRegU32 ctx 5), { info with enabled := true })
        ∈ (EnableIntcHandler ctx (DisableIntcHandler ctx s).2).2.g_intcHandlers :=
      HandlerTable.mem_setEnabled _ _ true { info with enabled := false }
        (HandlerTable.mem_setEnabled _ _ false info hmem)
    refine ⟨hin, ?_⟩
    intro hnz hfun hbit
    refine ⟨makeIrqContext h info.cause { info with enabled := true }, ?_⟩
    have hgate : ¬ (info.cause < 32 ∧
        (EnableIntcHandler ctx (DisableIntcHandler ctx s).2).2.g_enabled_intc_mask
          &&& (1 <<< info.cause) = 0) := by
      rintro ⟨hc, hz⟩
      have := (and_shift_eq_zero_iff _ _).mp hz
      have hb := hbit hc
      simp only [EnableIntcHandler, DisableIntcHandler] at this
      rw [hb] at this
      exact Bool.noConfusion this
    simp only [dispatchIntcHandlersForCause, if_neg hgate]
    apply List.mem_cons_of_mem
    apply invokeHandlers_mem h rt info.cause { info with enabled := true } hfun
    refine List.mem_map.mpr ⟨(toS32 (getRegU32 ctx 5), _), ?_, rfl⟩
    refine List.mem_filter.mpr ⟨hin, ?_⟩
    simp [hnz]

/-- Scenario S4 for C11: with handler 1 disabled the poll invokes handler 2 only; once
handler 1 is enabled again the next poll invokes both, handler 1 first. -/
theorem C11_handler_enable_disable_witness :
    invocations scenarioS4Disabled.2 = [(2, { cause := 2, handler := 0xCAFE, arg := 7 })] ∧
    invocations scenarioS4Enabled.2
      = [ (2, { cause := 2, handler := 0xDEAD, arg := 0x42 }),
          (2, { cause := 2, handler := 0xCAFE, arg := 7 }) ] ∧
    (∀ cause, ∀ e ∈ snapshotEntries
        (DisableIntcHandler (argContext 0 1 0 0) twoHandlers).2.g_intcHandlers cause,
      e.1 ≠ toS32 (getRegU32 (argContext 0 1 0 0) 5)) :=
  ⟨by decide, by decide,
    (C11_handler_enable_disable flatHost stubRuntime (argContext 0 1 0 0)
      twoHandlers).2.2.2.2.1⟩

/-! ## Removal -/

theorem HandlerTable.mem_erase (t : HandlerTable) (id : Int) (e : Int × IrqHandlerInfo) :
    e ∈ t.erase id ↔ e ∈ t ∧ e.1 ≠ id := by
  simp only [HandlerTable.erase, List.mem_filter, decide_eq_true_eq]

theorem HandlerTable.erase_sublist (t : HandlerTable) (id : Int) :
    List.Sublist (t.erase id) t :=
  List.filter_sublist t

theorem HandlerTable.erase_absent (t : HandlerTable) (id : Int) (hid : id ∉ t.ids) :
    t.erase id = t := by
  unfold HandlerTable.erase
  apply List.filter_eq_self.mpr
  intro e he
  have : e.1 ≠ id := fun hEq => hid (hEq ▸ List.mem_map_of_mem Prod.fst he)
  simpa using this

/-- C12 (removal). For every state and every value `v` of GPR 5 read as a signed 32-bit id,
`RemoveIntcHandler` puts `KE_OK = 0` in GPR 2 and changes nothing but the INTC table, so both
masks and both id counters are as before; when `v > 0` the new table holds exactly the old
entries whose key is not `v`, in their old order; when `v <= 0`, or when `v` is not a key,
the state is exactly the old one. The same holds for `RemoveDmacHandler` on the DMAC table. -/
theorem C12_remove_handler (ctx : R5900Context) (s : Sys) :
    (getRegU32 (RemoveIntcHandler ctx s).1 2 = 0 ∧
      (RemoveIntcHandler ctx s).2
        = { s with g_intcHandlers := (RemoveIntcHandler ctx s).2.g_intcHandlers } ∧
      (0 < toS32 (getRegU32 ctx 5) →
        (∀ e : Int × IrqHandlerInfo, e ∈ (RemoveIntcHandler ctx s).2.g_intcHandlers ↔
          e ∈ s.g_intcHandlers ∧ e.1 ≠ toS32 (getRegU32 ctx 5)) ∧
        List.Sublist (RemoveIntcHandler ctx s).2.g_intcHandlers s.g_intcHandlers) ∧
      (toS32 (getRegU32 ctx 5) ≤ 0 → (RemoveIntcHandler ctx s).2 = s) ∧
      (toS32 (getRegU32 ctx 5) ∉ s.g_intcHandlers.ids → (RemoveIntcHandler ctx s).2 = s)) ∧
    (getRegU32 (RemoveDmacHandler ctx s).1 2 = 0 ∧
      (RemoveDmacHandler ctx s).2
        = { s with g_dmacHandlers := (RemoveDmacHandler ctx s).2.g_dmacHandlers } ∧
      (0 < toS32 (getRegU32 ctx 5) →
        (∀ e : Int × IrqHandlerInfo, e ∈ (RemoveDmacHandler ctx s).2.g_dmacHandlers ↔
          e ∈ s.g_dmacHandlers ∧ e.1 ≠ toS32 (getRegU32 ctx 5)) ∧
        List.Sublist (RemoveDmacHandler ctx s).2.g_dmacHandlers s.g_dmacHandlers) ∧
      (toS32 (getRegU32 ctx 5) ≤ 0 → (RemoveDmacHandler ctx s).2 = s) ∧
      (toS32 (getRegU32 ctx 5) ∉ s.g_dmacHandlers.ids → (RemoveDmacHandler ctx s).2 = s)) := by
  constructor
  · refine ⟨getRegU32_return_KE_OK ctx, ?_, ?_, ?_, ?_⟩
    · simp only [RemoveIntcHandler]
      split <;> rfl
    · intro hv
      simp only [RemoveIntcHandler, gt_iff_lt, hv, if_true]
      exact ⟨fun e => HandlerTable.mem_erase _ _ e, HandlerTable.erase_sublist _ _⟩
    · intro hv
      simp only [RemoveIntcHandler, gt_iff_lt]
      rw [if_neg (by omega)]
    · intro hid
      simp only [RemoveIntcHandler]
      split
      · rw [HandlerTable.erase_absent _ _ hid]
      · rfl
  · refine ⟨getRegU32_return_KE_OK ctx, ?_, ?_, ?_, ?_⟩
    · simp only [RemoveDmacHandler]
      split <;> rfl
    · intro hv
      simp only [RemoveDmacHandler, gt_iff_lt, hv, if_true]
      exact ⟨fun e => HandlerTable.mem_erase _ _ e, HandlerTable.erase_sublist _ _⟩
    · intro hv
      simp only [RemoveDmacHandler, gt_iff_lt]
      rw [if_neg (by omega)]
    · intro hid
      simp only [RemoveDmacHandler]
      split
      · rw [HandlerTable.erase_absent _ _ hid]
      · rfl

/-- Witness for C12: removing id 1 from the two registered handlers leaves the entry of id 2
only; removing the absent id 7 or the id 0 leaves the table as it is. -/
theorem C12_remove_handler_witness :
    (RemoveIntcHandler (argContext 0 1 0 0) twoHandlers).2.g_intcHandlers
      = [(2, { cause := 2, handler := 0xCAFE, arg := 7 })] ∧
    (RemoveIntcHandler (argContext 0 7 0 0) twoHandlers).2.g_intcHandlers
      = twoHandlers.g_intcHandlers ∧
    (RemoveIntcHandler (argContext 0 0 0 0) twoHandlers).2 = twoHandlers :=
  ⟨by decide, by decide,
    (C12_remove_handler (argContext 0 0 0 0) twoHandlers).1.2.2.2.1 (by decide)⟩

/-! ## Enable-mask bits, continued -/

theorem testBit_or_shift (m c i : Nat) :
    (m ||| (1 <<< c)).testBit i = (m.testBit i || decide (c = i)) := by
  rw [Nat.one_shiftLeft, Nat.testBit_or, Nat.testBit_two_pow]

theorem testBit_allOnes32 (i : Nat) : (4294967295 : Nat).testBit i = decide (i < 32) := by
  have : (4294967295 : Nat) = 2 ^ 32 - 1 := by norm_num
  rw [this, Nat.testBit_two_pow_sub_one]

theorem testBit_andnot_shift (m c i : Nat) :
    (m &&& (0xFFFFFFFF ^^^ (1 <<< c))).testBit i
      = (m.testBit i && (decide (i < 32) != decide (c = i))) := by
  rw [Nat.one_shiftLeft, Nat.testBit_and, Nat.testBit_xor, Nat.testBit_two_pow,
    testBit_allOnes32]

theorem or_shift_lt (m c : Nat) (hm : m < 2 ^ 32) (hc : c < 32) :
    m ||| (1 <<< c) < 2 ^ 32 := by
  apply Nat.or_lt_two_pow hm
  rw [Nat.one_shiftLeft]
  exact Nat.pow_lt_pow_right (by norm_num) hc

theorem dispatchDmac_masked (h : Host) (runtime : Option PS2Runtime) (cause : Nat) (s : Sys)
    (hc : cause < 32) (hbit : s.g_enabled_dmac_mask.testBit cause = false) :
    dispatchDmacHandlersForCause h runtime cause s = (s, [Event.dispatchDmac cause]) := by
  unfold dispatchDmacHandlersForCause
  cases runtime with
  | none => rfl
  | some rt =>
    dsimp only
    rw [if_pos ⟨hc, (and_shift_eq_zero_iff _ _).mpr hbit⟩]

/-- The effect of setting bit `c` in a mask `m`. -/
theorem mask_set_bit (m c : Nat) :
    (m ||| (1 <<< c)).testBit c = true ∧
    ∀ i, i ≠ c → (m ||| (1 <<< c)).testBit i = m.testBit i := by
  constructor
  · rw [testBit_or_shift]
    simp
  · intro i hi
    have : ¬ c = i := fun hEq => hi hEq.symm
    rw [testBit_or_shift]
    simp [this]

/-- The effect of clearing bit `c < 32` in a mask `m`. -/
theorem mask_clear_bit (m c : Nat) (hc : c < 32) :
    (m &&& (0xFFFFFFFF ^^^ (1 <<< c))).testBit c = false ∧
    ∀ i, i ≠ c → i < 32 →
      (m &&& (0xFFFFFFFF ^^^ (1 <<< c))).testBit i = m.testBit i := by
  constructor
  · exact testBit_clear_self m c hc
  · intro i hi hlt
    have : ¬ c = i := fun hEq => hi hEq.symm
    rw [testBit_andnot_shift]
    simp [this, hlt]

theorem testBit_high_u32 (m i : Nat) (hm : m < 2 ^ 32) (hi : 32 ≤ i) : m.testBit i = false := by
  apply Nat.testBit_lt_two_pow
  exact lt_of_lt_of_le hm (Nat.pow_le_pow_right (by norm_num) hi)

/-- C13 (enable-mask bit semantics). Both masks start as `0xFFFFFFFF`. For every mask `m` and
every cause `c` in GPR 4 with `c < 32`, `EnableIntc` leaves `m | (1 << c)`: bit `c` is set and
every other bit is as in `m`; `DisableIntc` leaves `m & ~(1 << c)` (complement on 32 bits):
bit `c` is clear and every other bit of the 32 is as in `m`; a 32-bit mask stays a 32-bit
mask. For `c >= 32` the state is unchanged. Nothing but the mask changes and GPR 2 holds
`KE_OK = 0` in every case. A dispatch for a cause below 32 returns at once when the bit of the
cause is clear and goes on to the snapshot and the invocations when it is set. The same holds
for `EnableDmac` / `DisableDmac` and `dispatchDmacHandlersForCause` on the DMAC mask. -/
theorem C13_enable_mask_bits (h : Host) (rt : PS2Runtime) (ctx : R5900Context) (s : Sys) :
    (initialSys.g_enabled_intc_mask = 0xFFFFFFFF ∧
      initialSys.g_enabled_dmac_mask = 0xFFFFFFFF) ∧
    (getRegU32 (EnableIntc ctx s).1 2 = 0 ∧ getRegU32 (DisableIntc ctx s).1 2 = 0 ∧
      (EnableIntc ctx s).2
        = { s with g_enabled_intc_mask := (EnableIntc ctx s).2.g_enabled_intc_mask } ∧
      (DisableIntc ctx s).2
        = { s with g_enabled_intc_mask := (DisableIntc ctx s).2.g_enabled_intc_mask } ∧
      (getRegU32 ctx 4 < 32 →
        (EnableIntc ctx s).2.g_enabled_intc_mask
          = s.g_enabled_intc_mask ||| (1 <<< getRegU32 ctx 4) ∧
        (EnableIntc ctx s).2.g_enabled_intc_mask.testBit (getRegU32 ctx 4) = true ∧
        (∀ i, i ≠ getRegU32 ctx 4 →
          (EnableIntc ctx s).2.g_enabled_intc_mask.testBit i
            = s.g_enabled_intc_mask.testBit i) ∧
        (DisableIntc ctx s).2.g_enabled_intc_mask
          = s.g_enabled_intc_mask &&& (0xFFFFFFFF ^^^ (1 <<< getRegU32 ctx 4)) ∧
        (DisableIntc ctx s).2.g_enabled_intc_mask.testBit (getRegU32 ctx 4) = false ∧
        (∀ i, i ≠ getRegU32 ctx 4 → i < 32 →
          (DisableIntc ctx s).2.g_enabled_intc_mask.testBit i
            = s.g_enabled_intc_mask.testBit i) ∧
        (s.g_enabled_intc_mask < 2 ^ 32 →
          (EnableIntc ctx s).2.g_enabled_intc_mask < 2 ^ 32 ∧
          (DisableIntc ctx s).2.g_enabled_intc_mask < 2 ^ 32 ∧
          ∀ i, i ≠ getRegU32 ctx 4 →
            (DisableIntc ctx s).2.g_enabled_intc_mask.testBit i
              = s.g_enabled_intc_mask.testBit i)) ∧
      (32 ≤ getRegU32 ctx 4 → (EnableIntc ctx s).2 = s ∧ (DisableIntc ctx s).2 = s) ∧
      (∀ cause, cause < 32 →
        (s.g_enabled_intc_mask.testBit cause = false →
          dispatchIntcHandlersForCause h (some rt) cause s = (s, [Event.dispatchIntc cause])) ∧
        (s.g_enabled_intc_mask.testBit cause = true →
          dispatchIntcHandlersForCause h (some rt) cause s
            = ((invokeHandlers h rt cause (snapshotHandlers s.g_intcHandlers cause) s).1,
                Event.dispatchIntc cause ::
                  (invokeHandlers h rt cause (snapshotHandlers s.g_intcHandlers cause) s).2)))) ∧
    (getRegU32 (EnableDmac ctx s).1 2 = 0 ∧ getRegU32 (DisableDmac ctx s).1 2 = 0 ∧
      (EnableDmac ctx s).2
        = { s with g_enabled_dmac_mask := (EnableDmac ctx s).2.g_enabled_dmac_mask } ∧
      (DisableDmac ctx s).2
        = { s with g_enabled_dmac_mask := (DisableDmac ctx s).2.g_enabled_dmac_mask } ∧
      (getRegU32 ctx 4 < 32 →
        (EnableDmac ctx s).2.g_enabled_dmac_mask
          = s.g_enabled_dmac_mask ||| (1 <<< getRegU32 ctx 4) ∧
        (EnableDmac ctx s).2.g_enabled_dmac_mask.testBit (getRegU32 ctx 4) = true ∧
        (∀ i, i ≠ getRegU32 ctx 4 →
          (EnableDmac ctx s).2.g_enabled_dmac_mask.testBit i
            = s.g_enabled_dmac_mask.testBit i) ∧
        (DisableDmac ctx s).2.g_enabled_dmac_mask
          = s.g_enabled_dmac_mask &&& (0xFFFFFFFF ^^^ (1 <<< getRegU32 ctx 4)) ∧
        (DisableDmac ctx s).2.g_enabled_dmac_mask.testBit (getRegU32 ctx 4) = false ∧
        (∀ i, i ≠ getRegU32 ctx 4 → i < 32 →
          (DisableDmac ctx s).2.g_enabled_dmac_mask.testBit i
            = s.g_enabled_dmac_mask.testBit i) ∧
        (s.g_enabled_dmac_mask < 2 ^ 32 →
          (EnableDmac ctx s).2.g_enabled_dmac_mask < 2 ^ 32 ∧
          (DisableDmac ctx s).2.g_enabled_dmac_mask < 2 ^ 32 ∧
          ∀ i, i ≠ getRegU32 ctx 4 →
            (DisableDmac ctx s).2.g_enabled_dmac_mask.testBit i
              = s.g_enabled_dmac_mask.testBit i)) ∧
      (32 ≤ getRegU32 ctx 4 → (EnableDmac ctx s).2 = s ∧ (DisableDmac ctx s).2 = s) ∧
      (∀ cause, cause < 32 →
        (s.g_enabled_dmac_mask.testBit cause = false →
          dispatchDmacHandlersForCause h (some rt) cause s = (s, [Event.dispatchDmac cause])) ∧
        (s.g_enabled_dmac_mask.testBit cause = true →
          dispatchDmacHandlersForCause h (some rt) cause s
            = ((invokeHandlers h rt cause (snapshotHandlers s.g_dmacHandlers cause) s).1,
                Event.dispatchDmac cause ::
                  (invokeHandlers h rt cause (snapshotHandlers s.g_dmacHandlers cause) s).2)))) := by
  have hclear : ∀ (m c : Nat), c < 32 → m < 2 ^ 32 → ∀ i, i ≠ c →
      (m &&& (0xFFFFFFFF ^^^ (1 <<< c))).testBit i = m.testBit i := by
    intro m c hc hm i hi
    by_cases hlt : i < 32
    · exact (mask_clear_bit m c hc).2 i hi hlt
    · rw [testBit_high_u32 m i hm (by omega),
        testBit_high_u32 _ i (lt_of_le_of_lt Nat.and_le_left hm) (by omega)]
  refine ⟨⟨rfl, rfl⟩, ⟨getRegU32_return_KE_OK ctx, getRegU32_return_KE_OK ctx, ?_, ?_, ?_, ?_, ?_⟩,
    ⟨getRegU32_return_KE_OK ctx, getRegU32_return_KE_OK ctx, ?_, ?_, ?_, ?_, ?_⟩⟩
  · simp only [EnableIntc]
    split <;> rfl
  · simp only [DisableIntc]
    split <;> rfl
  · intro hc
    have hE : (EnableIntc ctx s).2.g_enabled_intc_mask
        = s.g_enabled_intc_mask ||| (1 <<< getRegU32 ctx 4) := by
      simp only [EnableIntc, hc, if_true]
    have hD : (DisableIntc ctx s).2.g_enabled_intc_mask
        = s.g_enabled_intc_mask &&& (0xFFFFFFFF ^^^ (1 <<< getRegU32 ctx 4)) := by
      simp only [DisableIntc, hc, if_true]
    rw [hE, hD]
    exact ⟨rfl, (mask_set_bit _ _).1, (mask_set_bit _ _).2, rfl, (mask_clear_bit _ _ hc).1,
      (mask_clear_bit _ _ hc).2,
      fun hm => ⟨or_shift_lt _ _ hm hc, lt_of_le_of_lt Nat.and_le_left hm,
        hclear _ _ hc hm⟩⟩
  · intro hc
    have hn : ¬ getRegU32 ctx 4 < 32 := by omega
    constructor
    · simp only [EnableIntc, hn, if_false]
    · simp only [DisableIntc, hn, if_false]
  · intro cause hc
    refine ⟨fun hbit => dispatchIntc_masked h (some rt) cause s hc hbit, fun hbit => ?_⟩
    simp only [dispatchIntcHandlersForCause]
    rw [if_neg]
    rintro ⟨_, hz⟩
    have := (and_shift_eq_zero_iff _ _).mp hz
    rw [hbit] at this
    exact Bool.noConfusion this
  · simp only [EnableDmac]
    split <;> rfl
  · simp only [DisableDmac]
    split <;> rfl
  · intro hc
    have hE : (EnableDmac ctx s).2.g_enabled_dmac_mask
        = s.g_enabled_dmac_mask ||| (1 <<< getRegU32 ctx 4) := by
      simp only [EnableDmac, hc, if_true]
    have hD : (DisableDmac ctx s).2.g_enabled_dmac_mask
        = s.g_enabled_dmac_mask &&& (0xFFFFFFFF ^^^ (1 <<< getRegU32 ctx 4)) := by
      simp only [DisableDmac, hc, if_true]
    rw [hE, hD]
    exact ⟨rfl, (mask_set_bit _ _).1, (mask_set_bit _ _).2, rfl, (mask_clear_bit _ _ hc).1,
      (mask_clear_bit _ _ hc).2,
      fun hm => ⟨or_shift_lt _ _ hm hc, lt_of_le_of_lt Nat.and_le_left hm,
        hclear _ _ hc hm⟩⟩
  · intro hc
    have hn : ¬ getRegU32 ctx 4 < 32 := by omega
    constructor
    · simp only [EnableDmac, hn, if_false]
    · simp only [DisableDmac, hn, if_false]
  · intro cause hc
    refine ⟨fun hbit => dispatchDmac_masked h (some rt) cause s hc hbit, fun hbit => ?_⟩
    simp only [dispatchDmacHandlersForCause]
    rw [if_neg]
    rintro ⟨_, hz⟩
    have := (and_shift_eq_zero_iff _ _).mp hz
    rw [hbit] at this
    exact Bool.noConfusion this

/-- Witness for C13: from the all-ones mask, `DisableIntc(2)` leaves `0xFFFFFFFB` and a
following `EnableIntc(2)` restores `0xFFFFFFFF`; cause 40 leaves the state as it is. -/
theorem C13_enable_mask_bits_witness :
    (DisableIntc (argContext 2 0 0 0) initialSys).2.g_enabled_intc_mask = 0xFFFFFFFB ∧
    (EnableIntc (argContext 2 0 0 0)
      (DisableIntc (argContext 2 0 0 0) initialSys).2).2.g_enabled_intc_mask = 0xFFFFFFFF ∧
    (EnableIntc (argContext 40 0 0 0) initialSys).2 = initialSys ∧
    (DisableIntc (argContext 40 0 0 0) initialSys).2 = initialSys :=
  ⟨by decide, by decide,
    ((C13_enable_mask_bits flatHost stubRuntime (argContext 40 0 0 0) initialSys).2.1.2.2.2.2.2.1
      (by decide)).1,
    ((C13_enable_mask_bits flatHost stubRuntime (argContext 40 0 0 0) initialSys).2.1.2.2.2.2.2.1
      (by decide)).2⟩

/-! ## `SetVSyncFlag` -/

theorem storeBytes_zero_self (mem : Nat → Nat) (dst n : Nat) :
    ∀ a, dst ≤ a → a < dst + n → storeBytes mem dst n 0 a = 0 := by
  intro a h1 h2
  simp [storeBytes, h1, h2]

theorem storeBytes_zero_keeps (mem : Nat → Nat) (dst n lo len : Nat)
    (hz : ∀ a, lo ≤ a → a < lo + len → mem a = 0) :
    ∀ a, lo ≤ a → a < lo + len → storeBytes mem dst n 0 a = 0 := by
  intro a h1 h2
  unfold storeBytes
  split
  · simp
  · exact hz a h1 h2

theorem loadBytes_zero (mem : Nat → Nat) (src n : Nat)
    (hz : ∀ a, src ≤ a → a < src + n → mem a = 0) : loadBytes mem src n = 0 := by
  have := loadBytes_of_bytes mem n src 0 (fun a h1 h2 => by rw [hz a h1 h2]; simp)
  simpa using this

theorem ensureInterruptWorkerRunning_rdram (runtime : Option PS2Runtime) (s : Sys) :
    (ensureInterruptWorkerRunning runtime s).rdram = s.rdram := by
  unfold ensureInterruptWorkerRunning
  cases runtime with
  | none => rfl
  | some rt => dsimp only; split <;> rfl

theorem ensureInterruptWorkerRunning_counter (runtime : Option PS2Runtime) (s : Sys) :
    (ensureInterruptWorkerRunning runtime s).g_vsync_tick_counter = s.g_vsync_tick_counter := by
  unfold ensureInterruptWorkerRunning
  cases runtime with
  | none => rfl
  | some rt => dsimp only; split <;> rfl

/-- The guest memory left by `SetVSyncFlag`. -/
theorem SetVSyncFlag_rdram (h : Host) (runtime : Option PS2Runtime) (ctx : R5900Context)
    (s : Sys) :
    (SetVSyncFlag h runtime ctx s).2.rdram
      = (writeGuestU64NoThrow h (writeGuestU32NoThrow h s.rdram (getRegU32 ctx 4) 0).1
          (getRegU32 ctx 5) 0).1 := by
  simp only [SetVSyncFlag, ensureInterruptWorkerRunning_rdram]

theorem writeGuestU64NoThrow_zero_keeps (h : Host) (mem : Nat → Nat) (addr lo len : Nat)
    (hz : ∀ a, lo ≤ a → a < lo + len → mem a = 0) :
    ∀ a, lo ≤ a → a < lo + len → (writeGuestU64NoThrow h mem addr 0).1 a = 0 := by
  intro a h1 h2
  unfold writeGuestU64NoThrow
  split
  · exact hz a h1 h2
  · split
    · exact hz a h1 h2
    · exact storeBytes_zero_keeps mem _ 8 lo len hz a h1 h2

/-- C14 (`SetVSyncFlag`). For every previous registration and every pair of addresses in GPR 4
and GPR 5, after `SetVSyncFlag` the registration is exactly that pair, so a later call
overwrites an earlier one; the guest `u32` at `flagAddr` and the guest `u64` at `tickAddr` read
0 when the address is non-zero and mapped; the tick counter, the handler tables, the masks
and the pending counter are unchanged; GPR 2 holds `KE_OK = 0`. -/
theorem C14_SetVSyncFlag (h : Host) (runtime : Option PS2Runtime) (ctx : R5900Context)
    (s : Sys) :
    (SetVSyncFlag h runtime ctx s).2.g_vsync_registration
      = { flagAddr := getRegU32 ctx 4, tickAddr := getRegU32 ctx 5 } ∧
    (∀ ctx2 : R5900Context,
      (SetVSyncFlag h runtime ctx2 (SetVSyncFlag h runtime ctx s).2).2.g_vsync_registration
        = { flagAddr := getRegU32 ctx2 4, tickAddr := getRegU32 ctx2 5 }) ∧
    (∀ dst, getRegU32 ctx 4 ≠ 0 → h.getMemPtr (getRegU32 ctx 4) = some dst →
      readGuestU32 h (SetVSyncFlag h runtime ctx s).2.rdram (getRegU32 ctx 4) = 0) ∧
    (∀ dst, getRegU32 ctx 5 ≠ 0 → h.getMemPtr (getRegU32 ctx 5) = some dst →
      readGuestU64 h (SetVSyncFlag h runtime ctx s).2.rdram (getRegU32 ctx 5) = 0) ∧
    (SetVSyncFlag h runtime ctx s).2.g_vsync_tick_counter = s.g_vsync_tick_counter ∧
    (SetVSyncFlag h runtime ctx s).2.g_intcHandlers = s.g_intcHandlers ∧
    (SetVSyncFlag h runtime ctx s).2.g_dmacHandlers = s.g_dmacHandlers ∧
    (SetVSyncFlag h runtime ctx s).2.g_enabled_intc_mask = s.g_enabled_intc_mask ∧
    getRegU32 (SetVSyncFlag h runtime ctx s).1 2 = 0 := by
  have hreg : ∀ (c : R5900Context) (t : Sys),
      (SetVSyncFlag h runtime c t).2.g_vsync_registration
        = { flagAddr := getRegU32 c 4, tickAddr := getRegU32 c 5 } := by
    intro c t
    simp only [SetVSyncFlag, ensureInterruptWorkerRunning_registration]
  refine ⟨hreg ctx s, fun ctx2 => hreg ctx2 _, ?_, ?_, ?_, ?_, ?_, ?_,
    getRegU32_return_KE_OK ctx⟩
  · intro dst hnz hmap
    rw [SetVSyncFlag_rdram]
    simp only [readGuestU32, hmap]
    apply loadBytes_zero
    apply writeGuestU64NoThrow_zero_keeps
    intro a h1 h2
    simp only [writeGuestU32NoThrow, hnz, if_false, hmap]
    exact storeBytes_zero_self _ _ _ a h1 h2
  · intro dst hnz hmap
    rw [SetVSyncFlag_rdram]
    simp only [readGuestU64, hmap]
    apply loadBytes_zero
    intro a h1 h2
    simp only [writeGuestU64NoThrow, hnz, if_false, hmap]
    exact storeBytes_zero_self _ _ _ a h1 h2
  · simp only [SetVSyncFlag, ensureInterruptWorkerRunning_counter]
  · simp only [SetVSyncFlag, ensureInterruptWorkerRunning_intcHandlers]
  · simp only [SetVSyncFlag, ensureInterruptWorkerRunning_dmacHandlers]
  · simp only [SetVSyncFlag, ensureInterruptWorkerRunning_intcMask]

/-- Witness for C14: on guest memory filled with `0xFF`, `SetVSyncFlag(0x100, 0x102)` with
overlapping flag and tick locations leaves both reading 0 and the registration
`(0x100, 0x102)`. -/
theorem C14_SetVSyncFlag_witness :
    readGuestU32 flatHost
      (SetVSyncFlag flatHost (some emptyRuntime) (argContext 0x100 0x102 0 0)
        { initialSys with rdram := fun _ => 0xFF }).2.rdram 0x100 = 0 ∧
    readGuestU64 flatHost
      (SetVSyncFlag flatHost (some emptyRuntime) (argContext 0x100 0x102 0 0)
        { initialSys with rdram := fun _ => 0xFF }).2.rdram 0x102 = 0 ∧
    (SetVSyncFlag flatHost (some emptyRuntime) (argContext 0x100 0x102 0 0)
        { initialSys with rdram := fun _ => 0xFF }).2.g_vsync_registration
      = { flagAddr := 0x100, tickAddr := 0x102 } :=
  ⟨(C14_SetVSyncFlag flatHost (some emptyRuntime) (argContext 0x100 0x102 0 0)
      { initialSys with rdram := fun _ => 0xFF }).2.2.1 0x100 (by decide) (by decide),
    by decide, by decide⟩

/-! ## Failure containment -/

theorem dispatchDmac_selected (h : Host) (runtime : Option PS2Runtime) (cause : Nat) (s : Sys) :
    invocations (dispatchDmacHandlersForCause h runtime cause s).2
      = (selectedHandlers runtime s.g_dmacHandlers s.g_enabled_dmac_mask cause).map
          (fun info => (cause, info)) := by
  unfold dispatchDmacHandlersForCause selectedHandlers
  cases runtime with
  | none => rfl
  | some rt =>
    dsimp only
    split
    · rfl
    · simp only [invocations]
      exact invokeHandlers_invocations h rt cause _ s

/-- C15 (failure containment in dispatch). In the invocation loop of both dispatch functions,
(1) a snapshot handler whose address has no registered function is skipped: the loop goes on
with the rest in the same state; (2) a handler whose function leaves by `ThreadExitException`,
by another `std::exception` or by returning is done with: the loop goes on with the rest from
the state the function left; (3) so, whatever the guest functions do and however they leave,
the handlers invoked by `dispatchIntcHandlersForCause` and by `dispatchDmacHandlersForCause`
are exactly the snapshot handlers with a registered function, in snapshot order: every later
handler is still invoked. The dispatch functions are total and their result carries no
error. -/
theorem C15_failure_containment (h : Host) (rt : PS2Runtime) (cause : Nat) (s : Sys) :
    (∀ (info : IrqHandlerInfo) (rest : List IrqHandlerInfo) (t : Sys),
      rt.hasFunction info.handler = false →
      invokeHandlers h rt cause (info :: rest) t = invokeHandlers h rt cause rest t) ∧
    (∀ (info : IrqHandlerInfo) (rest : List IrqHandlerInfo) (t t1 : Sys),
      rt.hasFunction info.handler = true →
      (rt.lookupFunction info.handler (makeIrqContext h cause info) t = CallResult.threadExit t1 ∨
        rt.lookupFunction info.handler (makeIrqContext h cause info) t
          = CallResult.stdException t1 ∨
        rt.lookupFunction info.handler (makeIrqContext h cause info) t = CallResult.returned t1) →
      invokeHandlers h rt cause (info :: rest) t
        = ((invokeHandlers h rt cause rest t1).1,
            Event.invoke cause info (makeIrqContext h cause info)
              :: (invokeHandlers h rt cause rest t1).2)) ∧
    (∀ (handlers : List IrqHandlerInfo) (t : Sys),
      invocations (invokeHandlers h rt cause handlers t).2
        = (handlers.filter (fun info => rt.hasFunction info.handler)).map
            (fun info => (cause, info))) ∧
    (¬ (cause < 32 ∧ s.g_enabled_intc_mask &&& (1 <<< cause) = 0) →
      invocations (dispatchIntcHandlersForCause h (some rt) cause s).2
        = ((snapshotHandlers s.g_intcHandlers cause).filter
            (fun info => rt.hasFunction info.handler)).map (fun info => (cause, info))) ∧
    (¬ (cause < 32 ∧ s.g_enabled_dmac_mask &&& (1 <<< cause) = 0) →
      invocations (dispatchDmacHandlersForCause h (some rt) cause s).2
        = ((snapshotHandlers s.g_dmacHandlers cause).filter
            (fun info => rt.hasFunction info.handler)).map (fun info => (cause, info))) := by
  refine ⟨?_, ?_, fun handlers t => invokeHandlers_invocations h rt cause handlers t, ?_, ?_⟩
  · intro info rest t hf
    simp only [invokeHandlers, hf, Bool.false_eq_true, if_false]
  · intro info rest t t1 hf hout
    have hstate : (rt.lookupFunction info.handler (makeIrqContext h cause info) t).state = t1 := by
      rcases hout with hout | hout | hout <;> rw [hout] <;> rfl
    simp only [invokeHandlers, hf, if_true, hstate]
  · intro hgate
    rw [dispatchIntc_selected]
    simp only [selectedHandlers, if_neg hgate]
  · intro hgate
    rw [dispatchDmac_selected]
    simp only [selectedHandlers, if_neg hgate]

/-- Scenario S6 and a witness for C15. With one handler registered at `0xBEEF` and no function
there, the poll completes: it calls both dispatches, invokes nothing and writes nothing.
With four handlers of which the first throws, the second exits the thread and the third has
no function, the dispatch still invokes the fourth, which records its arguments after the
write made by the first. -/
theorem C15_failure_containment_witness :
    invocations scenarioS6.2 = [] ∧ dispatchCalls scenarioS6.2 = [2, 3] ∧
    scenarioS6.1.g_vblank_pending = 0 ∧
    invocations (dispatchIntcHandlersForCause flatHost (some failingRuntime) 2 fourHandlers).2
      = [ (2, { cause := 2, handler := 0xDEAD, arg := 1 }),
          (2, { cause := 2, handler := 0xF00D, arg := 2 }),
          (2, { cause := 2, handler := 0xCAFE, arg := 4 }) ] ∧
    invocations (dispatchIntcHandlersForCause flatHost (some failingRuntime) 2 fourHandlers).2
      = ((snapshotHandlers fourHandlers.g_intcHandlers 2).filter
          (fun info => failingRuntime.hasFunction info.handler)).map (fun info => (2, info)) ∧
    readGuestU32 flatHost
      (dispatchIntcHandlersForCause flatHost (some failingRuntime) 2 fourHandlers).1.rdram 0x308
      = 0xEE ∧
    readGuestU32 flatHost
      (dispatchIntcHandlersForCause flatHost (some failingRuntime) 2 fourHandlers).1.rdram 0x304
      = 4 :=
  ⟨by decide, by decide, by decide, by decide,
    (C15_failure_containment flatHost failingRuntime 2 fourHandlers).2.2.2.1 (by decide),
    by decide, by decide⟩

/-! ## DMAC and INTC side by side -/

theorem invokeHandlers_registers (h : Host) (rt : PS2Runtime) (cause : Nat) :
    ∀ (handlers : List IrqHandlerInfo) (s : Sys),
      invocationRegisters (invokeHandlers h rt cause handlers s).2
        = (handlers.filter (fun info => rt.hasFunction info.handler)).map
            (fun info => ((makeIrqContext h cause info).pc,
              [4, 5, 6, 7, 28, 29, 31].map (makeIrqContext h cause info).r)) := by
  intro handlers
  induction handlers with
  | nil => intro s; rfl
  | cons info rest ih =>
    intro s
    by_cases hf : rt.hasFunction info.handler = true
    · simp only [invokeHandlers, hf, if_true, invocationRegisters, List.filter_cons,
        List.map_cons]
      rw [ih]
      rfl
    · simp only [invokeHandlers, hf, if_false, Bool.false_eq_true, List.filter_cons]
      rw [ih]

theorem dispatchIntc_registers (h : Host) (runtime : Option PS2Runtime) (cause : Nat)
    (s : Sys) :
    invocationRegisters (dispatchIntcHandlersForCause h runtime cause s).2
      = (selectedHandlers runtime s.g_intcHandlers s.g_enabled_intc_mask cause).map
          (fun info => ((makeIrqContext h cause info).pc,
            [4, 5, 6, 7, 28, 29, 31].map (makeIrqContext h cause info).r)) := by
  unfold dispatchIntcHandlersForCause selectedHandlers
  cases runtime with
  | none => rfl
  | some rt =>
    dsimp only
    split
    · rfl
    · simp only [invocationRegisters]
      exact invokeHandlers_registers h rt cause _ s

theorem dispatchDmac_registers (h : Host) (runtime : Option PS2Runtime) (cause : Nat)
    (s : Sys) :
    invocationRegisters (dispatchDmacHandlersForCause h runtime cause s).2
      = (selectedHandlers runtime s.g_dmacHandlers s.g_enabled_dmac_mask cause).map
          (fun info => ((makeIrqContext h cause info).pc,
            [4, 5, 6, 7, 28, 29, 31].map (makeIrqContext h cause info).r)) := by
  unfold dispatchDmacHandlersForCause selectedHandlers
  cases runtime with
  | none => rfl
  | some rt =>
    dsimp only
    split
    · rfl
    · simp only [invocationRegisters]
      exact invokeHandlers_registers h rt cause _ s

theorem ensureInterruptWorkerRunning_sides (runtime : Option PS2Runtime) (s : Sys) :
    intcSide (ensureInterruptWorkerRunning runtime s) = intcSide s ∧
    dmacSide (ensureInterruptWorkerRunning runtime s) = dmacSide s := by
  unfold ensureInterruptWorkerRunning
  cases runtime with
  | none => exact ⟨rfl, rfl⟩
  | some rt => dsimp only; split <;> exact ⟨rfl, rfl⟩

/-- C16 (DMAC and INTC are structurally identical and independent). Let the DMAC side of a
state `s` (table, mask, id counter) equal the INTC side of a state `t`. Then each of
`AddDmacHandler`, `RemoveDmacHandler`, `EnableDmacHandler`, `DisableDmacHandler`, `EnableDmac`
and `DisableDmac`, run in `s`, leaves the DMAC side and GPR 2 exactly as the corresponding INTC
operation, run in `t` with the same register context, leaves the INTC side and GPR 2; the
DMAC operation leaves the INTC side of `s` unchanged and the INTC operation leaves the DMAC
side of `t` unchanged. With equal table and mask, `dispatchDmacHandlersForCause` invokes the
same handlers in the same order, on the same register contexts, as
`dispatchIntcHandlersForCause`. -/
theorem C16_dmac_mirrors_intc (h : Host) (runtime : Option PS2Runtime) (ctx : R5900Context)
    (s t : Sys) (hside : dmacSide s = intcSide t) :
    Mirrors AddDmacHandler (AddIntcHandler runtime) ctx s t ∧
    Mirrors RemoveDmacHandler RemoveIntcHandler ctx s t ∧
    Mirrors EnableDmacHandler EnableIntcHandler ctx s t ∧
    Mirrors DisableDmacHandler DisableIntcHandler ctx s t ∧
    Mirrors EnableDmac EnableIntc ctx s t ∧
    Mirrors DisableDmac DisableIntc ctx s t ∧
    (∀ cause,
      invocations (dispatchDmacHandlersForCause h runtime cause s).2
        = invocations (dispatchIntcHandlersForCause h runtime cause t).2 ∧
      invocationRegisters (dispatchDmacHandlersForCause h runtime cause s).2
        = invocationRegisters (dispatchIntcHandlersForCause h runtime cause t).2) := by
  obtain ⟨h1, h2, h3⟩ : s.g_dmacHandlers = t.g_intcHandlers ∧
      s.g_enabled_dmac_mask = t.g_enabled_intc_mask ∧
      s.g_nextDmacHandlerId = t.g_nextIntcHandlerId := by
    simpa only [dmacSide, intcSide, Prod.mk.injEq] using hside
  refine ⟨?_, ?_, ?_, ?_, ?_, ?_, ?_⟩
  · refine ⟨?_, ?_, rfl, ?_⟩
    · simp only [AddIntcHandler, (ensureInterruptWorkerRunning_sides runtime _).1]
      simp only [dmacSide, intcSide, AddDmacHandler, h1, h2, h3]
    · simp only [AddDmacHandler, AddIntcHandler, getRegU32_setReturnS32, h3]
    · simp only [AddIntcHandler, (ensureInterruptWorkerRunning_sides runtime _).2]
      rfl
  · refine ⟨?_, rfl, ?_, ?_⟩
    · simp only [dmacSide, intcSide, RemoveDmacHandler, RemoveIntcHandler]
      split <;> simp only [h1, h2, h3]
    · simp only [RemoveDmacHandler]
      split <;> rfl
    · simp only [RemoveIntcHandler]
      split <;> rfl
  · refine ⟨?_, rfl, rfl, rfl⟩
    simp only [dmacSide, intcSide, EnableDmacHandler, EnableIntcHandler, h1, h2, h3]
  · refine ⟨?_, rfl, rfl, rfl⟩
    simp only [dmacSide, intcSide, DisableDmacHandler, DisableIntcHandler, h1, h2, h3]
  · refine ⟨?_, rfl, ?_, ?_⟩
    · simp only [dmacSide, intcSide, EnableDmac, EnableIntc]
      split <;> simp only [h1, h2, h3]
    · simp only [EnableDmac]
      split <;> rfl
    · simp only [EnableIntc]
      split <;> rfl
  · refine ⟨?_, rfl, ?_, ?_⟩
    · simp only [dmacSide, intcSide, DisableDmac, DisableIntc]
      split <;> simp only [h1, h2, h3]
    · simp only [DisableDmac]
      split <;> rfl
    · simp only [DisableIntc]
      split <;> rfl
  · intro cause
    rw [dispatchDmac_selected, dispatchIntc_selected, dispatchDmac_registers,
      dispatchIntc_registers, h1, h2]
    exact ⟨rfl, rfl⟩

/-- Witness for C16: the DMAC side after two `AddDmacHandler` calls equals the INTC side after
the same two `AddIntcHandler` calls; the next DMAC registration then mirrors the next INTC
registration, returning id 3, and both dispatches invoke the two handlers in the same
order. -/
theorem C16_dmac_mirrors_intc_witness :
    dmacSide twoDmacHandlers = intcSide twoHandlers ∧
    Mirrors AddDmacHandler (AddIntcHandler (some stubRuntime)) (argContext 3 0xF00D 9 0)
      twoDmacHandlers twoHandlers ∧
    getRegU32 (AddDmacHandler (argContext 3 0xF00D 9 0) twoDmacHandlers).1 2 = 3 ∧
    invocations (dispatchDmacHandlersForCause flatHost (some stubRuntime) 2 twoDmacHandlers).2
      = [ (2, { cause := 2, handler := 0xDEAD, arg := 0x42 }),
          (2, { cause := 2, handler := 0xCAFE, arg := 7 }) ] :=
  ⟨by decide,
    (C16_dmac_mirrors_intc flatHost (some stubRuntime) (argContext 3 0xF00D 9 0)
      twoDmacHandlers twoHandlers (by decide)).1,
    by decide, by decide⟩

/-! ## Handler addresses -/

theorem HandlerTable.mem_assign_subset (t : HandlerTable) (id : Int) (info : IrqHandlerInfo) :
    ∀ e ∈ t.assign id info, e = (id, info) ∨ e ∈ t := by
  induction t with
  | nil => intro e he; simpa [HandlerTable.assign] using he
  | cons kv rest ih =>
    obtain ⟨k, v⟩ := kv
    intro e he
    simp only [HandlerTable.assign] at he
    split at he
    · rcases List.mem_cons.mp he with he | he
      · exact Or.inl he
      · exact Or.inr he
    · split at he
      · rcases List.mem_cons.mp he with he | he
        · exact Or.inl he
        · exact Or.inr (List.mem_cons_of_mem _ he)
      · rcases List.mem_cons.mp he with he | he
        · exact Or.inr (he ▸ List.mem_cons_self _ _)
        · rcases ih e he with he | he
          · exact Or.inl he
          · exact Or.inr (List.mem_cons_of_mem _ he)

theorem HandlerTable.nonZero_assign (t : HandlerTable) (id : Int) (info : IrqHandlerInfo)
    (ht : t.HandlersNonZero) (hinfo : info.handler ≠ 0) : (t.assign id info).HandlersNonZero := by
  intro e he
  rcases HandlerTable.mem_assign_subset t id info e he with he | he
  · rw [he]; exact hinfo
  · exact ht e he

theorem HandlerTable.nonZero_erase (t : HandlerTable) (id : Int) (ht : t.HandlersNonZero) :
    (t.erase id).HandlersNonZero :=
  fun e he => ht e ((HandlerTable.mem_erase t id e).mp he).1

theorem HandlerTable.nonZero_setEnabled (t : HandlerTable) (id : Int) (b : Bool)
    (ht : t.HandlersNonZero) : (t.setEnabled id b).HandlersNonZero := by
  intro e he
  unfold HandlerTable.setEnabled at he
  obtain ⟨o, ho, hoe⟩ := List.mem_map.mp he
  have := ht o ho
  by_cases hk : o.1 = id
  · rw [if_pos hk] at hoe
    rw [← hoe]
    exact this
  · rw [if_neg hk] at hoe
    rw [← hoe]
    exact this

/-- A syscall keeps the handler addresses of both tables non-zero, provided an `Add` call is
made with a non-zero GPR 5. -/
theorem run_nonZero (h : Host) (runtime : Option PS2Runtime) (op : Syscall)
    (ctx : R5900Context) (s : Sys)
    (hadd : op = Syscall.AddIntcHandler ∨ op = Syscall.AddDmacHandler → getRegU32 ctx 5 ≠ 0)
    (hs : s.g_intcHandlers.HandlersNonZero ∧ s.g_dmacHandlers.HandlersNonZero) :
    (op.run h runtime ctx s).2.g_intcHandlers.HandlersNonZero ∧
    (op.run h runtime ctx s).2.g_dmacHandlers.HandlersNonZero := by
  cases op
  case SetVSyncFlag =>
    simp only [Syscall.run, SetVSyncFlag, ensureInterruptWorkerRunning_intcHandlers,
      ensureInterruptWorkerRunning_dmacHandlers]
    exact hs
  case AddIntcHandler =>
    simp only [Syscall.run, AddIntcHandler, ensureInterruptWorkerRunning_intcHandlers,
      ensureInterruptWorkerRunning_dmacHandlers]
    exact ⟨HandlerTable.nonZero_assign _ _ _ hs.1 (hadd (Or.inl rfl)), hs.2⟩
  case AddDmacHandler =>
    exact ⟨hs.1, HandlerTable.nonZero_assign _ _ _ hs.2 (hadd (Or.inr rfl))⟩
  case RemoveIntcHandler =>
    simp only [Syscall.run, RemoveIntcHandler]
    split
    · exact ⟨HandlerTable.nonZero_erase _ _ hs.1, hs.2⟩
    · exact hs
  case RemoveDmacHandler =>
    simp only [Syscall.run, RemoveDmacHandler]
    split
    · exact ⟨hs.1, HandlerTable.nonZero_erase _ _ hs.2⟩
    · exact hs
  case EnableIntcHandler => exact ⟨HandlerTable.nonZero_setEnabled _ _ _ hs.1, hs.2⟩
  case DisableIntcHandler => exact ⟨HandlerTable.nonZero_setEnabled _ _ _ hs.1, hs.2⟩
  case EnableDmacHandler => exact ⟨hs.1, HandlerTable.nonZero_setEnabled _ _ _ hs.2⟩
  case DisableDmacHandler => exact ⟨hs.1, HandlerTable.nonZero_setEnabled _ _ _ hs.2⟩
  case EnableIntc =>
    simp only [Syscall.run, EnableIntc]
    split <;> exact hs
  case DisableIntc =>
    simp only [Syscall.run, DisableIntc]
    split <;> exact hs
  case EnableDmac =>
    simp only [Syscall.run, EnableDmac]
    split <;> exact hs
  case DisableDmac =>
    simp only [Syscall.run, DisableDmac]
    split <;> exact hs

theorem runSyscalls_nonZero (h : Host) (runtime : Option PS2Runtime) :
    ∀ (calls : List (Syscall × R5900Context)) (s : Sys),
      (∀ call ∈ calls, call.1 = Syscall.AddIntcHandler ∨ call.1 = Syscall.AddDmacHandler →
        getRegU32 call.2 5 ≠ 0) →
      s.g_intcHandlers.HandlersNonZero ∧ s.g_dmacHandlers.HandlersNonZero →
      (runSyscalls h runtime calls s).g_intcHandlers.HandlersNonZero ∧
      (runSyscalls h runtime calls s).g_dmacHandlers.HandlersNonZero := by
  intro calls
  induction calls with
  | nil => intro s _ hs; exact hs
  | cons call rest ih =>
    intro s hadd hs
    obtain ⟨op, ctx⟩ := call
    exact ih _ (fun c hc => hadd c (List.mem_cons_of_mem _ hc))
      (run_nonZero h runtime op ctx s (hadd (op, ctx) (List.mem_cons_self _ _)) hs)

theorem dispatchIntc_invoked_nonZero (h : Host) (runtime : Option PS2Runtime) (cause : Nat)
    (s : Sys) (c : Nat) (info : IrqHandlerInfo) (ictx : R5900Context)
    (he : Event.invoke c info ictx ∈ (dispatchIntcHandlersForCause h runtime cause s).2) :
    info.handler ≠ 0 := by
  unfold dispatchIntcHandlersForCause at he
  cases runtime with
  | none => simp at he
  | some rt =>
    dsimp only at he
    split at he
    · simp at he
    · rcases List.mem_cons.mp he with he | he
      · cases he
      · obtain ⟨i, hi, _, hei⟩ := invokeHandlers_events h rt cause _ s _ he
        cases hei
        obtain ⟨e, hes, hei2⟩ := List.mem_map.mp hi
        rw [← hei2]
        exact (snapshotEntries_enabled _ cause e hes).2.2.2

theorem dispatchDmac_invoked_nonZero (h : Host) (runtime : Option PS2Runtime) (cause : Nat)
    (s : Sys) (c : Nat) (info : IrqHandlerInfo) (ictx : R5900Context)
    (he : Event.invoke c info ictx ∈ (dispatchDmacHandlersForCause h runtime cause s).2) :
    info.handler ≠ 0 := by
  unfold dispatchDmacHandlersForCause at he
  cases runtime with
  | none => simp at he
  | some rt =>
    dsimp only at he
    split at he
    · simp at he
    · rcases List.mem_cons.mp he with he | he
      · cases he
      · obtain ⟨i, hi, _, hei⟩ := invokeHandlers_events h rt cause _ s _ he
        cases hei
        obtain ⟨e, hes, hei2⟩ := List.mem_map.mp hi
        rw [← hei2]
        exact (snapshotEntries_enabled _ cause e hes).2.2.2

theorem HandlerTable.mem_assign_self (t : HandlerTable) (id : Int) (info : IrqHandlerInfo) :
    (id, info) ∈ t.assign id info := by
  induction t with
  | nil => simp [HandlerTable.assign]
  | cons kv rest ih =>
    obtain ⟨k, v⟩ := kv
    simp only [HandlerTable.assign]
    split
    · exact List.mem_cons_self _ _
    · split
      · exact List.mem_cons_self _ _
      · exact List.mem_cons_of_mem _ ih

/-- C17, as amended (handler addresses of stored entries). The entry that `AddIntcHandler`
(resp. `AddDmacHandler`) stores has as handler the low 32 bits of the guest's GPR 5 at the
time of the call, whatever that value is, zero included; every other entry of the table after
the call was there before. So in every state reached from the initial state by syscalls whose
`Add` calls were all made with a non-zero GPR 5, every entry of both tables has
`handler != 0`. An entry with `handler = 0` is never invoked: every handler that
`dispatchIntcHandlersForCause` or `dispatchDmacHandlersForCause` invokes has
`handler != 0`. -/
theorem C17_handler_address (h : Host) (runtime : Option PS2Runtime) (ctx : R5900Context)
    (s : Sys) (calls : List (Syscall × R5900Context)) :
    (∃ info : IrqHandlerInfo, info.handler = getRegU32 ctx 5 ∧
      (s.g_nextIntcHandlerId, info) ∈ (AddIntcHandler runtime ctx s).2.g_intcHandlers ∧
      ∀ e ∈ (AddIntcHandler runtime ctx s).2.g_intcHandlers,
        e = (s.g_nextIntcHandlerId, info) ∨ e ∈ s.g_intcHandlers) ∧
    (∃ info : IrqHandlerInfo, info.handler = getRegU32 ctx 5 ∧
      (s.g_nextDmacHandlerId, info) ∈ (AddDmacHandler ctx s).2.g_dmacHandlers ∧
      ∀ e ∈ (AddDmacHandler ctx s).2.g_dmacHandlers,
        e = (s.g_nextDmacHandlerId, info) ∨ e ∈ s.g_dmacHandlers) ∧
    ((∀ call ∈ calls, call.1 = Syscall.AddIntcHandler ∨ call.1 = Syscall.AddDmacHandler →
        getRegU32 call.2 5 ≠ 0) →
      (runSyscalls h runtime calls initialSys).g_intcHandlers.HandlersNonZero ∧
      (runSyscalls h runtime calls initialSys).g_dmacHandlers.HandlersNonZero) ∧
    (∀ cause c info ictx,
      Event.invoke c info ictx ∈ (dispatchIntcHandlersForCause h runtime cause s).2 →
      info.handler ≠ 0) ∧
    (∀ cause c info ictx,
      Event.invoke c info ictx ∈ (dispatchDmacHandlersForCause h runtime cause s).2 →
      info.handler ≠ 0) := by
  refine ⟨?_, ?_, ?_, ?_, ?_⟩
  · refine ⟨{ cause := getRegU32 ctx 4, handler := getRegU32 ctx 5, arg := getRegU32 ctx 7,
              gp := getRegU32 ctx 28, sp := 0, enabled := true }, rfl, ?_, ?_⟩
    · simp only [AddIntcHandler, ensureInterruptWorkerRunning_intcHandlers]
      exact HandlerTable.mem_assign_self _ _ _
    · intro e he
      simp only [AddIntcHandler, ensureInterruptWorkerRunning_intcHandlers] at he
      exact HandlerTable.mem_assign_subset _ _ _ e he
  · refine ⟨{ cause := getRegU32 ctx 4, handler := getRegU32 ctx 5, arg := getRegU32 ctx 7,
              gp := getRegU32 ctx 28, sp := 0, enabled := true }, rfl, ?_, ?_⟩
    · exact HandlerTable.mem_assign_self _ _ _
    · intro e he
      exact HandlerTable.mem_assign_subset _ _ _ e he
  · intro hadd
    apply runSyscalls_nonZero h runtime calls initialSys hadd
    constructor <;> intro e he <;> simp [initialSys] at he
  · intro cause c info ictx he
    exact dispatchIntc_invoked_nonZero h runtime cause s c info ictx he
  · intro cause c info ictx he
    exact dispatchDmac_invoked_nonZero h runtime cause s c info ictx he

/-- Counterexample to C17 as stated: from the initial state, `AddIntcHandler` (resp.
`AddDmacHandler`) called with GPR 5 = 0 stores an entry whose handler is 0. -/
theorem C17_zero_handler_counterexample :
    getRegU32 (argContext 2 0 5 0) 5 = 0 ∧
    (AddIntcHandler (some stubRuntime) (argContext 2 0 5 0) initialSys).2.g_intcHandlers
      = [(1, { cause := 2, handler := 0, arg := 5, gp := 0, sp := 0, enabled := true })] ∧
    (AddDmacHandler (argContext 2 0 5 0) initialSys).2.g_dmacHandlers
      = [(1, { cause := 2, handler := 0, arg := 5, gp := 0, sp := 0, enabled := true })] ∧
    ¬ (AddIntcHandler (some stubRuntime) (argContext 2 0 5 0)
        initialSys).2.g_intcHandlers.HandlersNonZero := by
  refine ⟨by decide, by decide, by decide, ?_⟩
  intro hall
  exact hall (1, { cause := 2, handler := 0, arg := 5, gp := 0, sp := 0, enabled := true })
    (by decide) rfl

/-- Witness for C17: the sample sequence makes all its registrations with a non-zero GPR 5, so
all entries it leaves have a non-zero handler. -/
theorem C17_handler_address_witness :
    (runSyscalls flatHost (some stubRuntime) sampleCalls initialSys).g_intcHandlers.HandlersNonZero ∧
    (runSyscalls flatHost (some stubRuntime) sampleCalls initialSys).g_dmacHandlers.HandlersNonZero ∧
    (runSyscalls flatHost (some stubRuntime) sampleCalls initialSys).g_intcHandlers
      = [(2, { cause := 3, handler := 0xCAFE, arg := 7 })] :=
  ⟨((C17_handler_address flatHost (some stubRuntime) (argContext 0 0 0 0) initialSys
      sampleCalls).2.2.1 (by decide)).1,
    ((C17_handler_address flatHost (some stubRuntime) (argContext 0 0 0 0) initialSys
      sampleCalls).2.2.1 (by decide)).2,
    by decide⟩

/-! ## Main-thread gating -/

/-- C18 (main-thread gating). A `pollVBlank` call made by a thread other than the recorded
main thread, or made while no main thread is recorded, changes nothing and invokes nothing:
the process is returned as it was, with its pending counter, tick counter, VSync registration
and guest memory, and the list of effects is empty. This is so in particular for every caller
other than `m` after `setMainThread` was called by `m`. -/
theorem C18_main_thread_gating (h : Host) (runtime : Option PS2Runtime) (caller : Nat)
    (p : Process) (hother : p.mainThread ≠ some caller) :
    pollVBlank h runtime caller p = (p, []) ∧
    (pollVBlank h runtime caller p).1.sys.g_vblank_pending = p.sys.g_vblank_pending ∧
    (pollVBlank h runtime caller p).1.sys.g_vsync_tick_counter = p.sys.g_vsync_tick_counter ∧
    (pollVBlank h runtime caller p).1.sys.g_vsync_registration = p.sys.g_vsync_registration ∧
    (pollVBlank h runtime caller p).1.sys.rdram = p.sys.rdram ∧
    invocations (pollVBlank h runtime caller p).2 = [] ∧
    (∀ (m : Nat) (q : Process), m ≠ caller →
      pollVBlank h runtime caller (setMainThread m q) = (setMainThread m q, [])) := by
  have hno : pollVBlank h runtime caller p = (p, []) := by
    simp only [pollVBlank, isMainThread, hother, decide_False, Bool.false_eq_true, if_false]
  refine ⟨hno, ?_, ?_, ?_, ?_, ?_, ?_⟩
  · rw [hno]
  · rw [hno]
  · rw [hno]
  · rw [hno]
  · rw [hno]; rfl
  · intro m q hm
    have : (setMainThread m q).mainThread ≠ some caller := by
      simp only [setMainThread, ne_eq, Option.some.injEq]
      exact hm
    simp only [pollVBlank, isMainThread, this, decide_False, Bool.false_eq_true, if_false]

/-- Witness for C18: with main thread 1 and three ticks pending, a poll from thread 2 returns
the process unchanged, while a poll from thread 1 drains the counter and delivers the
ticks. -/
theorem C18_main_thread_gating_witness :
    pollVBlank flatHost (some stubRuntime) 2 pendingProcess = (pendingProcess, []) ∧
    (pollVBlank flatHost (some stubRuntime) 2 pendingProcess).1.sys.g_vblank_pending = 3 ∧
    (pollVBlank flatHost (some stubRuntime) 1 pendingProcess).1.sys.g_vblank_pending = 0 ∧
    (pollVBlank flatHost (some stubRuntime) 1 pendingProcess).1.sys.g_vsync_tick_counter = 3 :=
  ⟨(C18_main_thread_gating flatHost (some stubRuntime) 2 pendingProcess (by decide)).1,
    by decide, by decide, by decide⟩

/-! ## ISO-9660 version suffix -/

theorem findChar_none (c : Char) : ∀ (v : List Char), c ∉ v → findChar c v = none := by
  intro v
  induction v with
  | nil => intro _; rfl
  | cons x rest ih =>
    intro hc
    have hx : x ≠ c := fun hEq => hc (hEq ▸ List.mem_cons_self _ _)
    have hrest : c ∉ rest := fun hm => hc (List.mem_cons_of_mem _ hm)
    simp only [findChar, hx, if_false, ih hrest, Option.map_none']

theorem findChar_first (c : Char) : ∀ (p rest : List Char), c ∉ p →
    findChar c (p ++ c :: rest) = some p.length := by
  intro p
  induction p with
  | nil => intro rest _; simp [findChar]
  | cons x p ih =>
    intro rest hc
    have hx : x ≠ c := fun hEq => hc (hEq ▸ List.mem_cons_self _ _)
    have hp : c ∉ p := fun hm => hc (List.mem_cons_of_mem _ hm)
    show findChar c (x :: (p ++ c :: rest)) = some (p.length + 1)
    simp only [findChar, hx, if_false, ih rest hp, Option.map_some']

/-- A string either has no `c` or splits at its first `c`. -/
theorem split_at_first (c : Char) : ∀ (v : List Char),
    c ∉ v ∨ ∃ p rest, c ∉ p ∧ v = p ++ c :: rest := by
  intro v
  induction v with
  | nil => exact Or.inl (List.not_mem_nil _)
  | cons x v ih =>
    by_cases hx : x = c
    · exact Or.inr ⟨[], v, List.not_mem_nil _, by rw [hx]; rfl⟩
    · rcases ih with hno | ⟨p, rest, hp, hv⟩
      · left
        intro hm
        rcases List.mem_cons.mp hm with hm | hm
        · exact hx hm.symm
        · exact hno hm
      · right
        refine ⟨x :: p, rest, ?_, by rw [hv]; rfl⟩
        intro hm
        rcases List.mem_cons.mp hm with hm | hm
        · exact hx hm.symm
        · exact hp hm

theorem scanNumericSuffix_eq (b : Bool) : ∀ (l : List Char),
    scanNumericSuffix b l = (b && l.all Char.isDigit) := by
  intro l
  induction l with
  | nil => simp [scanNumericSuffix]
  | cons c rest ih =>
    by_cases hc : c.isDigit = true
    · simp [scanNumericSuffix, hc, ih]
    · simp [scanNumericSuffix, hc]

/-- What `stripIsoVersionSuffix` does to a string split at its first semicolon. -/
theorem stripIsoVersionSuffix_split (p d : List Char) (hp : ';' ∉ p) :
    stripIsoVersionSuffix (p ++ ';' :: d)
      = if d ≠ [] ∧ ∀ c ∈ d, c.isDigit = true then p else p ++ ';' :: d := by
  have hdrop : (p ++ ';' :: d).drop (p.length + 1) = d := by
    rw [show p ++ ';' :: d = (p ++ [';']) ++ d by simp]
    exact List.drop_left' (by simp)
  have htake : (p ++ ';' :: d).take p.length = p := List.take_left' rfl
  simp only [stripIsoVersionSuffix, findChar_first ';' p d hp, hdrop, htake,
    scanNumericSuffix_eq]
  by_cases hd : d = []
  · subst hd
    simp
  · have hlen : p.length + 1 < (p ++ ';' :: d).length := by
      have : 0 < d.length := List.length_pos.mpr hd
      simp only [List.length_append, List.length_cons]
      omega
    simp only [hlen, decide_True, Bool.true_and, List.all_eq_true, ne_eq, hd,
      not_false_eq_true, true_and]

theorem stripIsoVersionSuffix_no_semicolon (v : List Char) (hv : ';' ∉ v) :
    stripIsoVersionSuffix v = v := by
  simp only [stripIsoVersionSuffix, findChar_none ';' v hv]

/-- C19, as amended (ISO-9660 version suffix). For every string of the form
`p ++ ";" ++ d` where `p` contains no semicolon and `d` is a non-empty string of ASCII digits,
`stripIsoVersionSuffix` returns `p`; for every string not of that form (no semicolon, nothing
behind the first semicolon, or a character that is not a digit behind the first semicolon,
a further semicolon included) it returns the string unchanged. -/
theorem C19_strip_iso_version_suffix (value p d : List Char) :
    (';' ∉ p → d ≠ [] → (∀ c ∈ d, c.isDigit = true) →
      stripIsoVersionSuffix (p ++ ';' :: d) = p) ∧
    ((¬ ∃ p1 d1 : List Char, ';' ∉ p1 ∧ d1 ≠ [] ∧ (∀ c ∈ d1, c.isDigit = true) ∧
        value = p1 ++ ';' :: d1) →
      stripIsoVersionSuffix value = value) ∧
    (';' ∉ value → stripIsoVersionSuffix value = value) ∧
    (';' ∉ p → stripIsoVersionSuffix (p ++ [';']) = p ++ [';']) ∧
    (';' ∉ p → (∃ c ∈ d, c.isDigit = false) →
      stripIsoVersionSuffix (p ++ ';' :: d) = p ++ ';' :: d) := by
  refine ⟨?_, ?_, stripIsoVersionSuffix_no_semicolon value, ?_, ?_⟩
  · intro hp hd hdig
    rw [stripIsoVersionSuffix_split p d hp, if_pos ⟨hd, hdig⟩]
  · intro hform
    rcases split_at_first ';' value with hno | ⟨p1, d1, hp1, hv⟩
    · exact stripIsoVersionSuffix_no_semicolon value hno
    · rw [hv, stripIsoVersionSuffix_split p1 d1 hp1, if_neg]
      rintro ⟨hd1, hdig⟩
      exact hform ⟨p1, d1, hp1, hd1, hdig, hv⟩
  · intro hp
    rw [stripIsoVersionSuffix_split p [] hp, if_neg]
    rintro ⟨hne, _⟩
    exact hne rfl
  · rintro hp ⟨c, hc, hnd⟩
    rw [stripIsoVersionSuffix_split p d hp, if_neg]
    rintro ⟨_, hdig⟩
    rw [hdig c hc] at hnd
    exact Bool.noConfusion hnd

/-- Counterexample to C19 as stated: `a;b;1` is `p ++ ";" ++ d` with `p` = `a;b` and the
non-empty digit string `d` = `1`, but `stripIsoVersionSuffix` returns it unchanged, not `p`:
the function looks at what follows the first semicolon. -/
theorem C19_second_semicolon_counterexample :
    ['a', ';', 'b', ';', '1'] = ['a', ';', 'b'] ++ ';' :: ['1'] ∧
    (∀ c ∈ ['1'], c.isDigit = true) ∧
    stripIsoVersionSuffix (['a', ';', 'b'] ++ ';' :: ['1']) = ['a', ';', 'b', ';', '1'] ∧
    stripIsoVersionSuffix (['a', ';', 'b'] ++ ';' :: ['1']) ≠ ['a', ';', 'b'] := by
  refine ⟨by decide, by decide, by decide, by decide⟩

/-- Witness for C19: `FILE.TXT;1` loses its version suffix; `FILE.TXT;` and `FILE.TXT;1A` are
returned unchanged. -/
theorem C19_strip_iso_version_suffix_witness :
    stripIsoVersionSuffix (['F', 'I', 'L', 'E', '.', 'T', 'X', 'T'] ++ ';' :: ['1'])
      = ['F', 'I', 'L', 'E', '.', 'T', 'X', 'T'] ∧
    stripIsoVersionSuffix ['F', 'I', 'L', 'E', '.', 'T', 'X', 'T', ';']
      = ['F', 'I', 'L', 'E', '.', 'T', 'X', 'T', ';'] ∧
    stripIsoVersionSuffix ['F', 'I', 'L', 'E', '.', 'T', 'X', 'T', ';', '1', 'A']
      = ['F', 'I', 'L', 'E', '.', 'T', 'X', 'T', ';', '1', 'A'] :=
  ⟨(C19_strip_iso_version_suffix [] ['F', 'I', 'L', 'E', '.', 'T', 'X', 'T'] ['1']).1
      (by decide) (by decide) (by decide),
    by decide, by decide⟩

/-! ## Path normalisation -/

theorem replace_no_backslash (s : List Char) :
    '\\' ∉ s.map (fun c => if c = '\\' then '/' else c) := by
  intro hm
  obtain ⟨c, _, hc⟩ := List.mem_map.mp hm
  by_cases hb : c = '\\'
  · rw [if_pos hb] at hc
    exact absurd hc (by decide)
  · rw [if_neg hb] at hc
    exact hb hc

theorem stripIsoVersionSuffix_subset (v : List Char) :
    ∀ c ∈ stripIsoVersionSuffix v, c ∈ v := by
  intro c hc
  unfold stripIsoVersionSuffix at hc
  split at hc
  · exact hc
  · dsimp only at hc
    split at hc
    · exact List.mem_of_mem_take hc
    · exact hc

theorem eraseLeadingSeparators_subset : ∀ (v : List Char),
    ∀ c ∈ eraseLeadingSeparators v, c ∈ v := by
  intro v
  induction v with
  | nil => intro c hc; exact hc
  | cons x rest ih =>
    intro c hc
    simp only [eraseLeadingSeparators] at hc
    split at hc
    · exact List.mem_cons_of_mem _ (ih c hc)
    · exact hc

theorem eraseLeadingSeparators_head : ∀ (v : List Char),
    (eraseLeadingSeparators v).head? ≠ some '/' ∧
    (eraseLeadingSeparators v).head? ≠ some '\\' := by
  intro v
  induction v with
  | nil => simp [eraseLeadingSeparators]
  | cons x rest ih =>
    simp only [eraseLeadingSeparators]
    split
    · exact ih
    · rename_i hx
      simp only [List.head?_cons, ne_eq, Option.some.injEq]
      exact ⟨fun hEq => hx (Or.inl hEq), fun hEq => hx (Or.inr hEq)⟩

theorem eraseLeadingSeparators_eq_dropWhile : ∀ (v : List Char), '\\' ∉ v →
    eraseLeadingSeparators v = v.dropWhile (fun c => decide (c = '/')) := by
  intro v
  induction v with
  | nil => intro _; rfl
  | cons x rest ih =>
    intro hv
    have hx : x ≠ '\\' := fun hEq => hv (hEq ▸ List.mem_cons_self _ _)
    have hrest : '\\' ∉ rest := fun hm => hv (List.mem_cons_of_mem _ hm)
    by_cases hs : x = '/'
    · simp only [eraseLeadingSeparators, hs, true_or, if_true, List.dropWhile_cons,
        decide_True]
      exact ih hrest
    · simp only [eraseLeadingSeparators, hs, hx, or_self, if_false, List.dropWhile_cons,
        decide_False, Bool.false_eq_true]

/-- C20 (path normalisation). For every string `s`, `normalizePs2PathSuffix(s)` contains no
backslash, does not begin with `/`, and equals the result of replacing every backslash of `s`
by `/`, then applying `stripIsoVersionSuffix`, then deleting all leading `/` characters. -/
theorem C20_normalize_path_suffix (s : List Char) :
    '\\' ∉ normalizePs2PathSuffix s ∧
    (normalizePs2PathSuffix s).head? ≠ some '/' ∧
    normalizePs2PathSuffix s = normalizeAsDescribed s := by
  have hclean : '\\' ∉ stripIsoVersionSuffix (s.map (fun c => if c = '\\' then '/' else c)) :=
    fun hm => replace_no_backslash s (stripIsoVersionSuffix_subset _ _ hm)
  refine ⟨?_, ?_, ?_⟩
  · intro hm
    exact hclean (eraseLeadingSeparators_subset _ _ hm)
  · exact (eraseLeadingSeparators_head _).1
  · exact eraseLeadingSeparators_eq_dropWhile _ hclean

/-- Witness for C20: a path with leading separators of both kinds, an inner backslash and a
version suffix. -/
theorem C20_normalize_path_suffix_witness :
    normalizePs2PathSuffix ['\\', '/', 'D', 'I', 'R', '\\', 'F', '.', 'T', ';', '1', '2']
      = ['D', 'I', 'R', '/', 'F', '.', 'T'] ∧
    normalizePs2PathSuffix ['\\', '/', 'D', 'I', 'R', '\\', 'F', '.', 'T', ';', '1', '2']
      = normalizeAsDescribed
          ['\\', '/', 'D', 'I', 'R', '\\', 'F', '.', 'T', ';', '1', '2'] :=
  ⟨by decide,
    (C20_normalize_path_suffix
      ['\\', '/', 'D', 'I', 'R', '\\', 'F', '.', 'T', ';', '1', '2']).2.2⟩

/-! ## Timer catch-up -/

/-- The catch-up loop by cases on how many period boundaries `now` has reached. -/
theorem catchUpLoop_cases (period now nextTick : Int) (fuel : Nat) (hP : 0 < period)
    (hfuel : 5 ≤ fuel) :
    (now < nextTick → catchUpLoop period now fuel 0 nextTick = some (0, nextTick)) ∧
    (nextTick ≤ now → now < nextTick + period →
      catchUpLoop period now fuel 0 nextTick = some (1, nextTick + period)) ∧
    (nextTick + period ≤ now → now < nextTick + period + period →
      catchUpLoop period now fuel 0 nextTick = some (2, nextTick + period + period)) ∧
    (nextTick + period + period ≤ now → now < nextTick + period + period + period →
      catchUpLoop period now fuel 0 nextTick
        = some (3, nextTick + period + period + period)) ∧
    (nextTick + period + period + period ≤ now →
      catchUpLoop period now fuel 0 nextTick
        = some (4, nextTick + period + period + period + period)) := by
  obtain ⟨f, rfl⟩ : ∃ f, fuel = f + 5 := ⟨fuel - 5, by omega⟩
  refine ⟨?_, ?_, ?_, ?_, ?_⟩
  · intro h0
    simp only [catchUpLoop, kMaxCatchupTicks]
    rw [if_neg (by omega)]
  · intro h0 h1
    simp only [catchUpLoop, kMaxCatchupTicks]
    rw [if_pos (by omega), if_neg (by omega)]
    rfl
  · intro h1 h2
    simp only [catchUpLoop, kMaxCatchupTicks]
    rw [if_pos (by omega), if_pos (by omega), if_neg (by omega)]
    rfl
  · intro h2 h3
    simp only [catchUpLoop, kMaxCatchupTicks]
    rw [if_pos (by omega), if_pos (by omega), if_pos (by omega), if_neg (by omega)]
    rfl
  · intro h3
    simp only [catchUpLoop, kMaxCatchupTicks]
    rw [if_pos (by omega), if_pos (by omega), if_pos (by omega), if_pos (by omega),
      if_neg (by omega)]
    rfl

/-- The value of `ticksDue` by cases on how many period boundaries `now` has reached. -/
theorem ticksDue_cases (period now nextTick : Int) (hP : 0 < period) :
    (now < nextTick → ticksDue period now nextTick = 0) ∧
    (nextTick ≤ now → now < nextTick + period → ticksDue period now nextTick = 1) ∧
    (nextTick + period ≤ now → now < nextTick + period + period →
      ticksDue period now nextTick = 2) ∧
    (nextTick + period + period ≤ now → now < nextTick + period + period + period →
      ticksDue period now nextTick = 3) ∧
    (nextTick + period + period + period ≤ now → ticksDue period now nextTick = 4) := by
  have h1 : 1 ≤ (now - nextTick) / period ↔ 1 * period ≤ now - nextTick :=
    Int.le_ediv_iff_mul_le hP
  have h2 : 2 ≤ (now - nextTick) / period ↔ 2 * period ≤ now - nextTick :=
    Int.le_ediv_iff_mul_le hP
  have h3 : 3 ≤ (now - nextTick) / period ↔ 3 * period ≤ now - nextTick :=
    Int.le_ediv_iff_mul_le hP
  have h0 : 0 ≤ (now - nextTick) / period ↔ 0 * period ≤ now - nextTick :=
    Int.le_ediv_iff_mul_le hP
  unfold ticksDue
  generalize (now - nextTick) / period = q at h0 h1 h2 h3
  refine ⟨?_, ?_, ?_, ?_, ?_⟩
  · intro h
    rw [if_pos h]
  · intro ha hb
    rw [if_neg (by omega)]
    omega
  · intro ha hb
    rw [if_neg (by omega)]
    omega
  · intro ha hb
    rw [if_neg (by omega)]
    omega
  · intro ha
    rw [if_neg (by omega)]
    omega

/-- The catch-up loop ends, with `ticksDue` ticks and the target advanced by as many
periods. -/
theorem catchUpLoop_eq (period now nextTick : Int) (fuel : Nat) (hP : 0 < period)
    (hfuel : 5 ≤ fuel) :
    catchUpLoop period now fuel 0 nextTick
      = some (ticksDue period now nextTick,
          nextTick + ticksDue period now nextTick * period) := by
  obtain ⟨c0, c1, c2, c3, c4⟩ := catchUpLoop_cases period now nextTick fuel hP hfuel
  obtain ⟨t0, t1, t2, t3, t4⟩ := ticksDue_cases period now nextTick hP
  by_cases b0 : now < nextTick
  · rw [c0 b0, t0 b0]
    simp
  · by_cases b1 : now < nextTick + period
    · rw [c1 (by omega) b1, t1 (by omega) b1]
      simp
    · by_cases b2 : now < nextTick + period + period
      · rw [c2 (by omega) b2, t2 (by omega) b2]
        congr 2
        omega
      · by_cases b3 : now < nextTick + period + period + period
        · rw [c3 (by omega) b3, t3 (by omega) b3]
          congr 2
          omega
        · rw [c4 (by omega), t4 (by omega)]
          congr 2
          omega

theorem ticksDue_range (period now nextTick : Int) (hP : 0 < period) :
    0 ≤ ticksDue period now nextTick ∧ ticksDue period now nextTick ≤ 4 := by
  obtain ⟨t0, t1, t2, t3, t4⟩ := ticksDue_cases period now nextTick hP
  by_cases b0 : now < nextTick
  · rw [t0 b0]; omega
  · by_cases b1 : now < nextTick + period
    · rw [t1 (by omega) b1]; omega
    · by_cases b2 : now < nextTick + period + period
      · rw [t2 (by omega) b2]; omega
      · by_cases b3 : now < nextTick + period + period + period
        · rw [t3 (by omega) b3]; omega
        · rw [t4 (by omega)]; omega

/-- C21 (timer catch-up computation). For every wake time `now` and target `nextTick`, with a
positive period `P` (in particular `kVblankPeriod` = 16667 microseconds), the inner loop of the
worker ends (five evaluations of its condition always suffice) and yields
`ticksToProcess = 0` when `now < nextTick` and `min(4, floor((now - nextTick) / P) + 1)`
otherwise, with `nextTick` advanced by exactly `ticksToProcess * P`. The wake then adds
exactly `ticksToProcess` to the pending counter by `fetch_add` on the atomic `int` (the sum as
an integer whenever it is in `int` range) and changes nothing else; `ticksToProcess` is
between 0 and `kMaxCatchupTicks = 4`, so one wake never posts more than 4 ticks. -/
theorem C21_timer_catch_up (period now nextTick : Int) (fuel : Nat) (s : Sys)
    (hP : 0 < period) (hfuel : 5 ≤ fuel) :
    ticksDue period now nextTick
      = (if now < nextTick then 0 else min 4 ((now - nextTick) / period + 1)) ∧
    catchUpLoop period now fuel 0 nextTick
      = some (ticksDue period now nextTick,
          nextTick + ticksDue period now nextTick * period) ∧
    catchUpLoop kVblankPeriod now fuel 0 nextTick
      = some (ticksDue 16667 now nextTick, nextTick + ticksDue 16667 now nextTick * 16667) ∧
    0 ≤ ticksDue period now nextTick ∧
    ticksDue period now nextTick ≤ kMaxCatchupTicks ∧
    (∃ s1 : Sys,
      interruptWorkerWake period now fuel nextTick s
        = some (nextTick + ticksDue period now nextTick * period, s1) ∧
      s1 = { s with g_vblank_pending := s1.g_vblank_pending } ∧
      s1.g_vblank_pending
        = (if ticksDue period now nextTick = 0 then s.g_vblank_pending
            else wrapS32 (s.g_vblank_pending + ticksDue period now nextTick)) ∧
      (-2147483648 ≤ s.g_vblank_pending → s.g_vblank_pending + 4 ≤ 2147483647 →
        s1.g_vblank_pending = s.g_vblank_pending + ticksDue period now nextTick)) := by
  have hloop := catchUpLoop_eq period now nextTick fuel hP hfuel
  have hrange := ticksDue_range period now nextTick hP
  refine ⟨rfl, hloop, catchUpLoop_eq 16667 now nextTick fuel (by decide) hfuel, hrange.1,
    hrange.2, ?_⟩
  by_cases hz : ticksDue period now nextTick = 0
  · refine ⟨s, ?_, rfl, by rw [if_pos hz], ?_⟩
    · simp only [interruptWorkerWake, hloop, hz, if_true]
    · intro _ _
      rw [hz]
      omega
  · let posted := wrapS32 (s.g_vblank_pending + ticksDue period now nextTick)
    refine ⟨{ s with g_vblank_pending := posted }, ?_, rfl, by rw [if_neg hz], ?_⟩
    · simp only [interruptWorkerWake, hloop, hz, if_false]
    · intro hlo hhi
      exact wrapS32_of_range _ (by omega) (by omega)

/-- Witness for C21: with the period of 16667 microseconds and the target at 1000000, a wake
at 999999 posts nothing, a wake at 1000000 posts 1 tick, a wake at 1040000 posts 3 ticks and
a wake a full second late posts 4 ticks only. -/
theorem C21_timer_catch_up_witness :
    catchUpLoop kVblankPeriod 999999 5 0 1000000 = some (0, 1000000) ∧
    catchUpLoop kVblankPeriod 1000000 5 0 1000000 = some (1, 1016667) ∧
    catchUpLoop kVblankPeriod 1040000 5 0 1000000 = some (3, 1050001) ∧
    catchUpLoop kVblankPeriod 2000000 5 0 1000000 = some (4, 1066668) ∧
    catchUpLoop kVblankPeriod 2000000 5 0 1000000
      = some (ticksDue kVblankPeriod 2000000 1000000,
          1000000 + ticksDue kVblankPeriod 2000000 1000000 * kVblankPeriod) ∧
    ((interruptWorkerWake kVblankPeriod 2000000 5 1000000 initialSys).map
        (fun out => (out.1, out.2.g_vblank_pending))) = some (1066668, 4) :=
  ⟨by decide, by decide, by decide, by decide,
    (C21_timer_catch_up kVblankPeriod 2000000 1000000 5 initialSys (by decide) (by decide)).2.1,
    by decide⟩

/-! ## Idempotence of the path helpers -/

theorem stripIsoVersionSuffix_idem (v : List Char) :
    stripIsoVersionSuffix (stripIsoVersionSuffix v) = stripIsoVersionSuffix v := by
  rcases split_at_first ';' v with hno | ⟨p, d, hp, hv⟩
  · rw [stripIsoVersionSuffix_no_semicolon v hno, stripIsoVersionSuffix_no_semicolon v hno]
  · rw [hv, stripIsoVersionSuffix_split p d hp]
    split
    · exact stripIsoVersionSuffix_no_semicolon p hp
    · rename_i hcond
      rw [stripIsoVersionSuffix_split p d hp, if_neg hcond]

theorem dropWhile_append_stop (f : Char → Bool) (x : Char) (d : List Char)
    (hx : f x = false) : ∀ (p : List Char),
    (p ++ x :: d).dropWhile f = p.dropWhile f ++ x :: d := by
  intro p
  induction p with
  | nil => simp [List.dropWhile_cons, hx]
  | cons c p ih =>
    by_cases hc : f c = true
    · simp only [List.cons_append, List.dropWhile_cons, hc, if_true]
      exact ih
    · simp only [List.cons_append, List.dropWhile_cons, hc, if_false, Bool.false_eq_true]

theorem dropWhile_subset (f : Char → Bool) (v : List Char) :
    ∀ c ∈ v.dropWhile f, c ∈ v :=
  fun _ hc => (List.dropWhile_suffix f).subset hc

/-- Deleting leading `/` characters keeps a string fixed by `stripIsoVersionSuffix` fixed. -/
theorem stripIsoVersionSuffix_dropWhile (v : List Char)
    (hfix : stripIsoVersionSuffix v = v) :
    stripIsoVersionSuffix (v.dropWhile (fun c => decide (c = '/')))
      = v.dropWhile (fun c => decide (c = '/')) := by
  rcases split_at_first ';' v with hno | ⟨p, d, hp, hv⟩
  · exact stripIsoVersionSuffix_no_semicolon _ (fun hm => hno (dropWhile_subset _ v _ hm))
  · have hcond : ¬ (d ≠ [] ∧ ∀ c ∈ d, c.isDigit = true) := by
      intro hc
      rw [hv, stripIsoVersionSuffix_split p d hp, if_pos hc] at hfix
      have hlen := congrArg List.length hfix
      simp only [List.length_append, List.length_cons] at hlen
      omega
    rw [hv, dropWhile_append_stop _ ';' d (by decide) p]
    rw [stripIsoVersionSuffix_split _ d (fun hm => hp (dropWhile_subset _ p _ hm)),
      if_neg hcond]

theorem eraseLeadingSeparators_idem : ∀ (v : List Char),
    eraseLeadingSeparators (eraseLeadingSeparators v) = eraseLeadingSeparators v := by
  intro v
  induction v with
  | nil => rfl
  | cons x rest ih =>
    by_cases hx : x = '/' ∨ x = '\\'
    · simp only [eraseLeadingSeparators, hx, if_true]
      exact ih
    · simp only [eraseLeadingSeparators, hx, if_false]

theorem replace_fixed (v : List Char) (hv : '\\' ∉ v) :
    v.map (fun c => if c = '\\' then '/' else c) = v := by
  induction v with
  | nil => rfl
  | cons x rest ih =>
    have hx : x ≠ '\\' := fun hEq => hv (hEq ▸ List.mem_cons_self _ _)
    have hrest : '\\' ∉ rest := fun hm => hv (List.mem_cons_of_mem _ hm)
    simp only [List.map_cons, hx, if_false, ih hrest]

/-- C22 (idempotence). For every string `s`,
`normalizePs2PathSuffix(normalizePs2PathSuffix(s)) = normalizePs2PathSuffix(s)` and
`stripIsoVersionSuffix(stripIsoVersionSuffix(s)) = stripIsoVersionSuffix(s)`: a path that was
already normalised is not changed by normalising it again. -/
theorem C22_normalize_idempotent (s : List Char) :
    normalizePs2PathSuffix (normalizePs2PathSuffix s) = normalizePs2PathSuffix s ∧
    stripIsoVersionSuffix (stripIsoVersionSuffix s) = stripIsoVersionSuffix s := by
  refine ⟨?_, stripIsoVersionSuffix_idem s⟩
  have hclean : '\\' ∉ stripIsoVersionSuffix (s.map (fun c => if c = '\\' then '/' else c)) :=
    fun hm => replace_no_backslash s (stripIsoVersionSuffix_subset _ _ hm)
  have hnorm : normalizePs2PathSuffix s
      = (stripIsoVersionSuffix (s.map (fun c => if c = '\\' then '/' else c))).dropWhile
          (fun c => decide (c = '/')) :=
    eraseLeadingSeparators_eq_dropWhile _ hclean
  have hno : '\\' ∉ normalizePs2PathSuffix s := by
    rw [hnorm]
    exact fun hm => hclean (dropWhile_subset _ _ _ hm)
  have hstrip : stripIsoVersionSuffix (normalizePs2PathSuffix s) = normalizePs2PathSuffix s := by
    rw [hnorm]
    exact stripIsoVersionSuffix_dropWhile _ (stripIsoVersionSuffix_idem _)
  have herase : eraseLeadingSeparators (normalizePs2PathSuffix s) = normalizePs2PathSuffix s :=
    eraseLeadingSeparators_idem _
  calc normalizePs2PathSuffix (normalizePs2PathSuffix s)
      = eraseLeadingSeparators (stripIsoVersionSuffix
          ((normalizePs2PathSuffix s).map (fun c => if c = '\\' then '/' else c))) := rfl
    _ = eraseLeadingSeparators (stripIsoVersionSuffix (normalizePs2PathSuffix s)) := by
        rw [replace_fixed _ hno]
    _ = eraseLeadingSeparators (normalizePs2PathSuffix s) := by rw [hstrip]
    _ = normalizePs2PathSuffix s := herase

/-- Witness for C22: normalising `\/DIR\F.T;12` gives `DIR/F.T`, and so does normalising
that again; `//;x`, whose suffix is not numeric, normalises to `;x`, which is fixed too. -/
theorem C22_normalize_idempotent_witness :
    normalizePs2PathSuffix ['D', 'I', 'R', '/', 'F', '.', 'T'] = ['D', 'I', 'R', '/', 'F', '.', 'T'] ∧
    normalizePs2PathSuffix ['/', '/', ';', 'x'] = [';', 'x'] ∧
    normalizePs2PathSuffix [';', 'x'] = [';', 'x'] ∧
    normalizePs2PathSuffix (normalizePs2PathSuffix ['/', '/', ';', 'x'])
      = normalizePs2PathSuffix ['/', '/', ';', 'x'] :=
  ⟨by decide, by decide, by decide, (C22_normalize_idempotent ['/', '/', ';', 'x']).1⟩

end PS2Recomp
